import Mathlib

/-!
# AwsFargate: provisioning, teardown and task polling

A shallow embedding of `src/types/AwsFargate/index.js`.

* The provider clients (`ec2`, `ecs`) and the sub-resource components are an
  environment `Provider`: which calls fail, and what the successful calls return.
* An asynchronous function is a value of `Outcome α`: the events it produced, in the
  order they were issued (provider calls, `context.saveState`, `context.log`,
  `setTimeout` sleeps), and how it ended (`ok`, `rejected`, or `pending` when the
  fuel given to the polling loop ran out before the function settled).
* A state key is an `Option`; `none` stands for an absent, `undefined` or `null` key.
-/

/-!
# AwsSnsSubscription: attribute changes and the deploy decision

A shallow embedding of `src/types/AwsSnsSubscription/index.js`. The helpers imported from
`@serverless/utils` (`keys`, `map`, `reduce`, `concat`, `contains`, `equals`, `head`,
`slice`, `values`) have their usual list, string and object meaning;
`String.prototype.toUpperCase` belongs to the JavaScript engine and is a parameter
`toUpperCase` of the model; `setSubscriptionAttributes` is the provider call, and
`setAllSubscriptionAttributes` is modelled by the list of the provider calls it issues.
-/

namespace AwsSnsSubscription

/-- The value of a subscription attribute. `undefined` is what reading an absent key
gives, `emptyObject` is the `{}` used to unset an attribute. -/
inductive Value where
  | undefined
  | emptyObject
  | number (n : Int)
  | text (s : String)
deriving DecidableEq, Repr

/-- An attribute map: a JavaScript object, as its key/value pairs in key order. -/
abbrev Attributes := List (String × Value)

/-- `keys(object)`. -/
def keys (object : Attributes) : List String := object.map Prod.fst

/-- `object[key]`. -/
def prop (object : Attributes) (key : String) : Value := (object.lookup key).getD .undefined

def DEPLOY : String := "deploy"

def REPLACE : String := "replace"

/-- Source `capitalize` (line 8): `head(string).toUpperCase()` followed by
`slice(1, Infinity, string)`. `toUpperCase` is the `String.prototype.toUpperCase` of the
JavaScript engine, a parameter of the model. `head` and `slice` count UTF-16 code units: a
first character outside the Basic Multilingual Plane is two units, `head` is the first of
them, an unpaired surrogate that `toUpperCase` leaves as it is, and the string comes back
unchanged. -/
def capitalize (toUpperCase : String → String) (string : String) : String :=
  match string.data with
  | [] => toUpperCase ""
  | c :: cs =>
    if c.toNat < 65536 then toUpperCase (String.singleton c) ++ String.mk cs else string

/-- Source `concatSubscriptionAttributes(inputs, state = {})` (lines 10-26). A change entry
is a single-key object, modelled as the pair of its key and value. -/
def concatSubscriptionAttributes (inputs : Attributes) (state : Option Attributes) :
    List (String × Value) :=
  (keys inputs).map (fun key => (key, prop inputs key)) ++
  (keys (state.getD [])).foldl
    (fun attributes key =>
      if !(keys inputs).contains key then attributes ++ [(key, Value.emptyObject)]
      else attributes)
    []

/-- The parameters of a `setSubscriptionAttributes` call. -/
structure SetParams where
  subscriptionArn : String
  attributeName : String
  attributeValue : Value
deriving DecidableEq, Repr

/-- Source `setAllSubscriptionAttributes` (lines 28-52): the provider calls issued, in
order. `stateAttributes` is `context.state.subscriptionAttributes`. -/
def setAllSubscriptionAttributes (toUpperCase : String → String) (subscriptionArn : String)
    (inputs : Attributes) (stateAttributes : Option Attributes) : List SetParams :=
  (concatSubscriptionAttributes inputs stateAttributes).filterMap fun item =>
    let key := item.1
    let value := item.2
    let params : SetParams := ⟨subscriptionArn, capitalize toUpperCase key, value⟩
    let stateAttribute := match stateAttributes with
      | some attributes => prop attributes key
      | none => Value.emptyObject
    if value == stateAttribute then none else some params

/-- A subscription instance: the fields `shouldDeploy` reads. -/
structure Subscription where
  protocol : String
  topic : String
deriving DecidableEq, Repr

/-- Source `shouldDeploy(prevInstance)` (lines 55-62); `none` is `undefined`. -/
def shouldDeploy (this : Subscription) (prevInstance : Option Subscription) : Option String :=
  match prevInstance with
  | none => some DEPLOY
  | some prev =>
    if prev.protocol != this.protocol && prev.topic != this.topic then some REPLACE
    else none

/-- The changes applied for a requested and a persisted map, in the words of the
specification: a set for each requested key whose value differs from the persisted one,
then an unset for each persisted key that is not requested and is not already unset. -/
def expectedChanges (toUpperCase : String → String) (subscriptionArn : String)
    (requested previous : Attributes) : List SetParams :=
  ((keys requested).filter fun k => prop requested k != prop previous k).map
    (fun k => ⟨subscriptionArn, capitalize toUpperCase k, prop requested k⟩) ++
  ((keys previous).filter fun k =>
      !(keys requested).contains k && prop previous k != Value.emptyObject).map
    (fun k => ⟨subscriptionArn, capitalize toUpperCase k, Value.emptyObject⟩)

end AwsSnsSubscription

namespace AwsFargate

/-! ## Data -/

/-- One entry of an attachment's `details` list. -/
structure Detail where
  name : String
  value : String
deriving DecidableEq, Repr

/-- A task attachment; `details` is `none` when it is not an array. -/
structure Attachment where
  id : String
  details : Option (List Detail)
deriving DecidableEq, Repr

/-- A task as described by `ecs.describeTasks`. -/
structure Task where
  taskArn : String
  desiredStatus : String
  lastStatus : String
  containers : List String
  attachments : List Attachment
deriving DecidableEq, Repr

/-- The `tasks` field of a `describeTasks` response: an array of tasks, or any other
value (`undefined`, an error object, ...). -/
inductive TasksValue where
  | list (ts : List Task)
  | other (v : String)
deriving DecidableEq, Repr

/-- `Array.isArray(tasks)`. -/
def TasksValue.isArray : TasksValue → Bool
  | .list _ => true
  | .other _ => false

/-- The elements of an array value. -/
def TasksValue.elems : TasksValue → List Task
  | .list ts => ts
  | .other _ => []

/-- The task definition built by `define` (`this.td`). -/
structure TaskDefinition where
  family : String
  revision : String
deriving DecidableEq, Repr

/-- What the service sub-resource returns from `deploy`. -/
structure ServiceOutputs where
  serviceArn : String
  serviceName : String
deriving DecidableEq, Repr

/-- The persisted state of one instance (`context.getState` / `context.saveState`). -/
structure State where
  taskDefinition : Option TaskDefinition := none
  service : Option ServiceOutputs := none
  VpcId : Option String := none
  InternetGatewayId : Option String := none
  SecurityGroupId : Option String := none
  NetworkAclId : Option String := none
  RouteTableId : Option String := none
  SubnetId : Option String := none
  RouteTableAssociationId : Option String := none
  containers : Option (List String) := none
  attachments : Option (List Attachment) := none
  networkInterfaces : Option (List String) := none
deriving DecidableEq, Repr

/-- JavaScript truthiness of an identifier: present and not the empty string. -/
def truthy : Option String → Bool
  | some s => s != ""
  | none => false

/-- The caller's explicit network configuration. -/
structure AwsVpcConfiguration where
  securityGroups : List (Option String)
  subnets : List (Option String)
deriving DecidableEq, Repr

/-- The component instance (`this`): the picked inputs and the task definition. -/
structure Instance where
  serviceName : String
  cluster : Option String
  desiredCount : Nat
  exposePublicly : Bool
  awsVpcConfiguration : Option AwsVpcConfiguration
  td : TaskDefinition
deriving DecidableEq, Repr

/-- A route of a described route table: a JavaScript object, as its key/value pairs in
key order. -/
abbrev Route := List (String × String)

/-- A described route table. `Routes` is `none` when it is not an array. -/
structure RouteTable where
  RouteTableId : Option String
  Routes : Option (List Route)
deriving DecidableEq, Repr

/-- An entry of a described network ACL. -/
structure AclEntry where
  RuleNumber : Int
  Egress : Bool
deriving DecidableEq, Repr

/-- A described network ACL. `Entries` is `none` when it is not an array. -/
structure NetworkAcl where
  Entries : Option (List AclEntry)
deriving DecidableEq, Repr

/-- The parameters of a `deleteRoute` call: one destination key with its value, and the
table id. -/
structure DeleteRouteParams where
  destinationKey : String
  destination : String
  RouteTableId : Option String
deriving DecidableEq, Repr

/-- The calls made to the provider clients and to the sub-resource components, with the
parameters that vary. -/
inductive Call where
  | createVpc (CidrBlock : String)
  | createInternetGateway
  | attachInternetGateway (InternetGatewayId VpcId : Option String)
  | createSecurityGroup (Description GroupName : String) (VpcId : Option String)
  | authorizeSecurityGroupIngress (GroupId : Option String)
  | authorizeSecurityGroupEgress (GroupId : Option String)
  | createNetworkAcl (VpcId : Option String)
  | createRouteTable (VpcId : Option String)
  | createRoute (destinationKey destination : String) (GatewayId RouteTableId : Option String)
  | createSubnet (CidrBlock : String) (VpcId : Option String)
  | associateRouteTable (RouteTableId SubnetId : Option String)
  | serviceDeploy (serviceName taskDefinition : String) (desiredCount : Nat)
      (assignPublicIp : String) (securityGroups subnets : List (Option String))
  | listTasks (serviceName : String)
  | describeTasks (tasks : Option (List String))
  | describeNetworkInterfaces (NetworkInterfaceIds : List String)
  | taskDefinitionRemove (family : String)
  | serviceRemove (serviceName : String) (cluster : Option String) (service : ServiceOutputs)
  | disassociateRouteTable (AssociationId : Option String)
  | deleteSubnet (SubnetId : Option String)
  | deleteSecurityGroup (GroupId : Option String)
  | detachInternetGateway (InternetGatewayId VpcId : Option String)
  | deleteInternetGateway (InternetGatewayId : Option String)
  | describeRouteTables (RouteTableId : Option String)
  | deleteRoute (params : Option DeleteRouteParams)
  | deleteRouteTable (RouteTableId : Option String)
  | describeNetworkAcls (NetworkAclId : Option String)
  | deleteNetworkAclEntry (RuleNumber : Int) (Egress : Bool) (NetworkAclId : Option String)
  | deleteNetworkAcl (NetworkAclId : Option String)
  | deleteVpc (VpcId : Option String)
deriving DecidableEq, Repr

/-- What a run does, in the order it does it. -/
inductive Event where
  | call (c : Call)
  | saveState (s : State)
  | log (msg : String)
  | sleep (ms : Nat)
deriving DecidableEq, Repr

/-- The value a promise is rejected with. -/
inductive Rejection where
  | tasks (v : TasksValue)
  | error (msg : String)
  | provider (c : Call)
deriving DecidableEq, Repr

/-- How a run ended. `pending`: it had not settled when the fuel ran out. -/
inductive Result (α : Type) where
  | ok (a : α)
  | rejected (r : Rejection)
  | pending
deriving DecidableEq, Repr

/-- A run: its events and how it ended. -/
structure Outcome (α : Type) where
  events : List Event
  result : Result α
deriving DecidableEq, Repr

/-- Sequencing: the second part runs only when the first one resolved. -/
def Outcome.bind {α β : Type} (x : Outcome α) (f : α → Outcome β) : Outcome β :=
  match x.result with
  | .ok a => ⟨x.events ++ (f a).events, (f a).result⟩
  | .rejected r => ⟨x.events, .rejected r⟩
  | .pending => ⟨x.events, .pending⟩

instance : Monad Outcome where
  pure a := ⟨[], .ok a⟩
  bind := Outcome.bind

/-- The environment: which calls fail and what the successful ones return. -/
structure Provider where
  fails : Call → Bool
  createVpc : Option String
  createInternetGateway : Option String
  createSecurityGroup : Option String
  createNetworkAcl : Option String
  createRouteTable : Option String
  createSubnet : Option String
  associateRouteTable : Option String
  serviceDeploy : ServiceOutputs
  listTasks : Option (List String)
  describeTasks : Nat → Option (List String) → Except String TasksValue
  describeNetworkInterfaces : List String → Option (List String)
  describeRouteTables : Option (List RouteTable)
  describeNetworkAcls : Option (List NetworkAcl)

/-! ## Primitives -/

def emit (e : Event) : Outcome Unit := ⟨[e], .ok ()⟩

def saveState (s : State) : Outcome Unit := emit (.saveState s)

def log (msg : String) : Outcome Unit := emit (.log msg)

def sleep (ms : Nat) : Outcome Unit := emit (.sleep ms)

def reject {α : Type} (r : Rejection) : Outcome α := ⟨[], .rejected r⟩

/-- One awaited provider call. -/
def Provider.call (p : Provider) (c : Call) : Outcome Unit :=
  ⟨[.call c], if p.fails c then .rejected (.provider c) else .ok ()⟩

/-- Calls issued together and awaited with `Promise.all`: all of them are issued, and the
join is rejected with the first failure. -/
def Provider.callAll (p : Provider) (cs : List Call) : Outcome Unit :=
  ⟨cs.map Event.call,
    match cs.find? p.fails with
    | some c => .rejected (.provider c)
    | none => .ok ()⟩

/-- The value and the updated variable of a post-increment `x++`. -/
def postIncrement (x : Nat) : Nat × Nat := (x, x + 1)

/-! ## Polling -/

/-- Source `waitUntilTaskChangeFinishes(taskArns, currentTry, limit)` (lines 17-29).
`round` counts the `describeTasks` calls made before this one; `fuel` bounds the number
of invocations. -/
def waitUntilTaskChangeFinishes (p : Provider) :
    Nat → Nat → Option (List String) → Nat → Nat → Outcome (List Task)
  | 0, _, _, _, _ => ⟨[], .pending⟩
  | fuel + 1, round, taskArns, currentTry, limit =>
    match p.describeTasks round taskArns with
    | .error e => ⟨[.call (.describeTasks taskArns)], .rejected (.error e)⟩
    | .ok tasks =>
      Outcome.bind (emit (.call (.describeTasks taskArns))) fun _ =>
      if decide (currentTry > limit) || !tasks.isArray then reject (.tasks tasks)
      else
        let unfinishedTasks := tasks.elems.filter fun t => t.desiredStatus != t.lastStatus
        if unfinishedTasks.length != 0 then
          Outcome.bind (sleep 10000) fun _ =>
          waitUntilTaskChangeFinishes p fuel (round + 1)
            (some (unfinishedTasks.map fun t => t.taskArn)) (postIncrement currentTry).1 limit
        else pure tasks.elems

/-- The `.catch((res) => res)` of `deploy` and `get`: a rejection becomes the value. -/
def catchTasks (x : Outcome (List Task)) : Outcome TasksValue :=
  match x.result with
  | .ok ts => ⟨x.events, .ok (.list ts)⟩
  | .rejected (.tasks v) => ⟨x.events, .ok v⟩
  | .rejected (.error msg) => ⟨x.events, .ok (.other msg)⟩
  | .rejected (.provider _) => ⟨x.events, .ok (.other "provider failure")⟩
  | .pending => ⟨x.events, .pending⟩

/-- The metadata that `deploy` and `get` gather from the final task list. -/
structure Metadata where
  containers : List String
  attachments : List Attachment
  networkInterfaces : List String
deriving DecidableEq, Repr

/-- The ids of the network interfaces named in the attachments (lines 233-241). -/
def interfaceIdsOf (attachments : List Attachment) : List String :=
  attachments.foldl
    (fun prev current =>
      prev ++ (((current.details.getD []).filter fun d => d.name == "networkInterfaceId").map
        fun d => d.value))
    []

/-- Lines 227-249 of `deploy`, the same as lines 427-449 of `get`. -/
def collectMetadata (p : Provider) (tasks : TasksValue) : Outcome Metadata :=
  if tasks.isArray && tasks.elems.length != 0 then
    let containers := tasks.elems.foldl (fun prev current => prev ++ current.containers) []
    let attachments := tasks.elems.foldl (fun prev current => prev ++ current.attachments) []
    let interfaceIds := interfaceIdsOf attachments
    if interfaceIds.length != 0 then do
      p.call (.describeNetworkInterfaces interfaceIds)
      pure ⟨containers, attachments, (p.describeNetworkInterfaces interfaceIds).getD []⟩
    else pure ⟨containers, attachments, []⟩
  else pure ⟨[], [], []⟩

/-! ## deploy -/

/-- Lines 66-75. -/
def ensureVpc (p : Provider) (state : State) : Outcome State :=
  if !truthy state.VpcId then do
    p.call (.createVpc "10.0.0.0/16")
    let VpcId := p.createVpc
    if !truthy VpcId then reject (.error "Could not create VPC ID") else do
    log "VPC: created"
    let state := { state with VpcId := VpcId }
    saveState state
    pure state
  else pure state

/-- Lines 77-89. -/
def ensureInternetGateway (p : Provider) (state : State) : Outcome State :=
  if !truthy state.InternetGatewayId then do
    p.call .createInternetGateway
    let InternetGatewayId := p.createInternetGateway
    if !truthy InternetGatewayId then reject (.error "Could not create Internet Gateway") else do
    log "Internet Gateway: created"
    let state := { state with InternetGatewayId := InternetGatewayId }
    saveState state
    p.call (.attachInternetGateway InternetGatewayId state.VpcId)
    log "Internet Gateway: attached to VPC"
    pure state
  else pure state

/-- Lines 91-135. -/
def ensureSecurityGroup (p : Provider) (input : Instance) (state : State) : Outcome State :=
  if !truthy state.SecurityGroupId then do
    p.call (.createSecurityGroup (input.serviceName ++ " security group")
      (input.serviceName ++ "-security-group") state.VpcId)
    let SecurityGroupId := p.createSecurityGroup
    if !truthy SecurityGroupId then reject (.error "Could not get Security group") else do
    log "Security Group: created"
    let state := { state with SecurityGroupId := SecurityGroupId }
    saveState state
    p.call (.authorizeSecurityGroupIngress state.SecurityGroupId)
    log "SecurityGroupIngress: rule created"
    p.call (.authorizeSecurityGroupEgress state.SecurityGroupId)
    log "SecurityGroupEgress: rule created"
    pure state
  else pure state

/-- Lines 137-146. -/
def ensureNetworkAcl (p : Provider) (state : State) : Outcome State :=
  if !truthy state.NetworkAclId then do
    p.call (.createNetworkAcl state.VpcId)
    let NetworkAclId := p.createNetworkAcl
    if !truthy NetworkAclId then reject (.error "Could not create Network ACL") else do
    log "NetworkAcl: created"
    let state := { state with NetworkAclId := NetworkAclId }
    saveState state
    pure state
  else pure state

/-- Lines 148-173. -/
def ensureRouteTable (p : Provider) (state : State) : Outcome State :=
  if !truthy state.RouteTableId then do
    p.call (.createRouteTable state.VpcId)
    let RouteTableId := p.createRouteTable
    if !truthy RouteTableId then reject (.error "Could not create Route Table for VPC") else do
    log "RouteTable: created"
    let state := { state with RouteTableId := RouteTableId }
    saveState state
    p.call (.createRoute "DestinationCidrBlock" "0.0.0.0/0" state.InternetGatewayId RouteTableId)
    p.call (.createRoute "DestinationIpv6CidrBlock" "::/0" state.InternetGatewayId RouteTableId)
    log "RouteTable: routes created"
    pure state
  else pure state

/-- Lines 175-184. -/
def ensureSubnet (p : Provider) (state : State) : Outcome State :=
  if !truthy state.SubnetId then do
    p.call (.createSubnet "10.0.0.0/16" state.VpcId)
    let SubnetId := p.createSubnet
    if !truthy SubnetId then reject (.error "Could not get Subnet") else do
    log "Subnet: created"
    let state := { state with SubnetId := SubnetId }
    saveState state
    pure state
  else pure state

/-- Lines 186-195. -/
def ensureRouteTableAssociation (p : Provider) (state : State) : Outcome State :=
  if !truthy state.RouteTableAssociationId then do
    p.call (.associateRouteTable state.RouteTableId state.SubnetId)
    let RouteTableAssociationId := p.associateRouteTable
    if !truthy RouteTableAssociationId then
      reject (.error "Could not associate RouteTable with Subnet") else do
    log "Subnet: route table associated"
    let state := { state with RouteTableAssociationId := RouteTableAssociationId }
    saveState state
    pure state
  else pure state

/-- Lines 60-199: the network references handed to the service, and the state. -/
def ensureNetwork (p : Provider) (input : Instance) (state : State) :
    Outcome (List (Option String) × List (Option String) × State) :=
  match input.awsVpcConfiguration with
  | some cfg => pure (cfg.securityGroups, cfg.subnets, state)
  | none => do
    let state ← ensureVpc p state
    let state ← ensureInternetGateway p state
    let state ← ensureSecurityGroup p input state
    let state ← ensureNetworkAcl p state
    let state ← ensureRouteTable p state
    let state ← ensureSubnet p state
    let state ← ensureRouteTableAssociation p state
    pure ([state.SecurityGroupId], [state.SubnetId], state)

/-- What `deploy` and `get` return (the fields they assign on `this`). -/
structure Outputs where
  serviceArn : Option String
  serviceName : Option String
  containers : List String
  attachments : List Attachment
  networkInterfaces : List String
deriving DecidableEq, Repr

/-- Lines 201-262 of `deploy`: the service sub-resource, the wait for its tasks and the
metadata gathered from them. -/
def deployService (p : Provider) (fuel : Nat) (input : Instance)
    (securityGroups subnets : List (Option String)) (state : State) : Outcome Outputs := do
  p.call (.serviceDeploy input.serviceName (input.td.family ++ ":" ++ input.td.revision)
    input.desiredCount (if input.exposePublicly then "ENABLED" else "DISABLED")
    securityGroups subnets)
  let serviceComponentOutputs := p.serviceDeploy
  let state := { state with service := some serviceComponentOutputs }
  saveState state
  log "Tasks: waiting for provisioning to finish"
  sleep 15000
  p.call (.listTasks serviceComponentOutputs.serviceName)
  let taskArns := p.listTasks
  let tasks ← catchTasks (waitUntilTaskChangeFinishes p fuel 0 taskArns 0 10)
  log "Tasks: provision complete"
  let m ← collectMetadata p tasks
  let state := { state with containers := some m.containers, attachments := some m.attachments,
                            networkInterfaces := some m.networkInterfaces }
  saveState state
  log "AWS Fargate: deployment complete"
  pure ⟨some serviceComponentOutputs.serviceArn, some serviceComponentOutputs.serviceName,
    m.containers, m.attachments, m.networkInterfaces⟩

/-- Source `deploy` (lines 53-263); `state` is what `context.getState` returned. -/
def deploy (p : Provider) (fuel : Nat) (input : Instance) (state : State) : Outcome Outputs := do
  let state := { state with taskDefinition := some input.td }
  saveState state
  let (securityGroups, subnets, state) ← ensureNetwork p input state
  deployService p fuel input securityGroups subnets state

/-! ## remove -/

/-- Lines 271-289. -/
def removeTaskDefinition (p : Provider) (input : Instance) (state : State) : Outcome State :=
  if state.taskDefinition.isSome then do
    p.call (.taskDefinitionRemove (input.serviceName ++ "-family"))
    let state := { state with taskDefinition := none }
    saveState state
    pure state
  else pure state

/-- Lines 291-307. -/
def removeService (p : Provider) (input : Instance) (state : State) : Outcome State :=
  match state.service with
  | some service => do
    p.call (.serviceRemove input.serviceName
      (if truthy input.cluster then input.cluster else none) service)
    let state := { state with service := none }
    saveState state
    pure state
  | none => pure state

/-- Lines 309-313: the wait for the listed tasks; its rejection is not caught. -/
def awaitTaskRemoval (p : Provider) (fuel : Nat) (taskArns : Option (List String)) :
    Outcome Unit :=
  if (taskArns.map fun l => l.length != 0).getD false then do
    log "Task: waiting for removal to finish"
    let _ ← waitUntilTaskChangeFinishes p fuel 0 taskArns 0 5
    log "Task: finished"
  else pure ()

/-- Lines 315-320. -/
def removeRouteTableAssociation (p : Provider) (state : State) : Outcome State :=
  if truthy state.RouteTableAssociationId then do
    p.call (.disassociateRouteTable state.RouteTableAssociationId)
    log "RouteTable: disassociated"
    let state := { state with RouteTableAssociationId := none }
    saveState state
    pure state
  else pure state

/-- Lines 321-326. -/
def removeSubnet (p : Provider) (state : State) : Outcome State :=
  if truthy state.SubnetId then do
    p.call (.deleteSubnet state.SubnetId)
    let state := { state with SubnetId := none }
    log "Subnet: deleted"
    saveState state
    pure state
  else pure state

/-- Lines 327-332. -/
def removeSecurityGroup (p : Provider) (state : State) : Outcome State :=
  if truthy state.SecurityGroupId then do
    p.call (.deleteSecurityGroup state.SecurityGroupId)
    log "SecurityGroup: deleted"
    let state := { state with SecurityGroupId := none }
    saveState state
    pure state
  else pure state

/-- Lines 333-344. -/
def removeInternetGateway (p : Provider) (state : State) : Outcome State :=
  if truthy state.InternetGatewayId then do
    if truthy state.VpcId then
      p.call (.detachInternetGateway state.InternetGatewayId state.VpcId)
      log "InternetGateway: detached"
    p.call (.deleteInternetGateway state.InternetGatewayId)
    log "InternetGateway: deleted"
    let state := { state with InternetGatewayId := none }
    saveState state
    pure state
  else pure state

/-- Lines 356-363: the parameter objects built for one route, one per destination key the
route has, in key order. -/
def routeParamsOf (routeTable : RouteTable) (route : Route) : List DeleteRouteParams :=
  (route.filter fun kv =>
      ["DestinationCidrBlock", "DestinationIpv6CidrBlock"].contains kv.1).map
    fun kv => ⟨kv.1, kv.2, routeTable.RouteTableId⟩

/-- Lines 352-365: the `deleteRoute` calls issued for a described table. -/
def routesToDelete (routeTable : RouteTable) (routes : List Route) : List Call :=
  ((routes.filter fun route => !(["local"].map some).contains (route.lookup "GatewayId")).map
      fun route => routeParamsOf routeTable route).map
    fun routeParams => Call.deleteRoute routeParams.head?

/-- Lines 345-371. The state is neither changed nor saved here. -/
def removeRouteTable (p : Provider) (state : State) : Outcome State :=
  if truthy state.RouteTableId then do
    p.call (.describeRouteTables state.RouteTableId)
    match p.describeRouteTables with
    | some (routeTable :: _) =>
      match routeTable.Routes with
      | some (route :: routes) => p.callAll (routesToDelete routeTable (route :: routes))
      | _ => pure ()
    | _ => pure ()
    p.call (.deleteRouteTable state.RouteTableId)
    log "RouteTable: deleted"
    pure state
  else pure state

/-- Lines 381-391: the `deleteNetworkAclEntry` calls issued for a described ACL. -/
def entriesToDelete (state : State) (entries : List AclEntry) : List Call :=
  (entries.filter fun entry => decide (entry.RuleNumber < 32767) && decide (entry.RuleNumber > 0)).map
    fun entry => Call.deleteNetworkAclEntry entry.RuleNumber entry.Egress state.NetworkAclId

/-- Lines 372-400. -/
def removeNetworkAcl (p : Provider) (state : State) : Outcome State :=
  if truthy state.NetworkAclId then do
    p.call (.describeNetworkAcls state.NetworkAclId)
    match p.describeNetworkAcls with
    | some (acl :: _) =>
      match acl.Entries with
      | some (entry :: entries) => p.callAll (entriesToDelete state (entry :: entries))
      | _ => pure ()
    | _ => pure ()
    p.call (.deleteNetworkAcl state.NetworkAclId)
    log "NetworkAcl: deleted"
    let state := { state with NetworkAclId := none }
    saveState state
    pure state
  else pure state

/-- Lines 401-406. -/
def removeVpc (p : Provider) (state : State) : Outcome State :=
  if truthy state.VpcId then do
    p.call (.deleteVpc state.VpcId)
    log "VPC: deleted"
    let state := { state with VpcId := none }
    saveState state
    pure state
  else pure state

/-- Lines 315-406: the network teardown. -/
def removeNetwork (p : Provider) (state : State) : Outcome State := do
  let state ← removeRouteTableAssociation p state
  let state ← removeSubnet p state
  let state ← removeSecurityGroup p state
  let state ← removeInternetGateway p state
  let state ← removeRouteTable p state
  let state ← removeNetworkAcl p state
  removeVpc p state

/-- Source `remove` (lines 265-417); `state` is what `context.getState` returned. The
result is the fields assigned on `this`, all `null`. -/
def remove (p : Provider) (fuel : Nat) (input : Instance) (state : State) : Outcome Unit := do
  p.call (.listTasks input.serviceName)
  let taskArns := p.listTasks
  let state ← removeTaskDefinition p input state
  let state ← removeService p input state
  awaitTaskRemoval p fuel taskArns
  let _ ← removeNetwork p state
  log "Fargate service: removal complete"
  saveState {}

/-! ## get -/

/-- Source `get` (lines 419-460). -/
def get (p : Provider) (fuel : Nat) (input : Instance) (state : State) : Outcome Outputs := do
  log "Tasks: waiting for provisioning to finish"
  sleep 40000
  p.call (.listTasks input.serviceName)
  let taskArns := p.listTasks
  let tasks ← catchTasks (waitUntilTaskChangeFinishes p fuel 0 taskArns 0 10)
  log "Tasks: provision complete"
  let m ← collectMetadata p tasks
  let state := { state with containers := some m.containers, attachments := some m.attachments,
                            networkInterfaces := some m.networkInterfaces }
  saveState state
  pure ⟨state.service.map fun s => s.serviceArn, state.service.map fun s => s.serviceName,
    m.containers, m.attachments, m.networkInterfaces⟩

/-! ## Observations on a run -/

/-- The provider and sub-resource calls of a run, in the order issued. -/
def callsOf (events : List Event) : List Call :=
  events.filterMap fun e => match e with
    | .call c => some c
    | _ => none

/-- The states saved by a run, in order. -/
def savedStates (events : List Event) : List State :=
  events.filterMap fun e => match e with
    | .saveState s => some s
    | _ => none

/-- The number of polling rounds (`describeTasks` calls) of a run. -/
def describeRounds (events : List Event) : Nat :=
  ((callsOf events).filter fun c => match c with
    | .describeTasks _ => true
    | _ => false).length

/-! ## Environments, sample runs and expected behaviour -/

/-- A task whose desired status differs from the observed one. -/
def Task.unfinished (t : Task) : Bool := t.desiredStatus != t.lastStatus

/-- The tasks of a `describeTasks` response (none when the call failed or returned no
list). -/
def responseTasks : Except String TasksValue → List Task
  | .ok v => v.elems
  | .error _ => []

/-- The task ids requested in the `i`-th polling round after a start at round `round`
with `taskArns`: the ids with which the loop re-invokes itself. -/
def polledArns (p : Provider) : Nat → Nat → Option (List String) → Option (List String)
  | 0, _, taskArns => taskArns
  | i + 1, round, taskArns =>
    polledArns p i (round + 1)
      (some (((responseTasks (p.describeTasks round taskArns)).filter Task.unfinished).map
        fun t => t.taskArn))

/-- A provider whose single task never reaches its desired status. -/
def stuckProvider : Provider where
  fails := fun _ => false
  createVpc := some "vpc-1"
  createInternetGateway := some "igw-1"
  createSecurityGroup := some "sg-1"
  createNetworkAcl := some "acl-1"
  createRouteTable := some "rtb-1"
  createSubnet := some "subnet-1"
  associateRouteTable := some "rtbassoc-1"
  serviceDeploy := ⟨"arn:service", "service"⟩
  listTasks := some ["task-1"]
  describeTasks := fun _ _ => .ok (.list [⟨"task-1", "RUNNING", "PENDING", [], []⟩])
  describeNetworkInterfaces := fun _ => some []
  describeRouteTables := some []
  describeNetworkAcls := some []

/-- A provider on which every call succeeds. Its tasks reach their desired status in the
third polling round, apart from `task-1` which has it from the start; its route table has
one `local` route and two others; its ACL has entries 1, 100 and 32767. -/
def sampleProvider : Provider where
  fails := fun _ => false
  createVpc := some "vpc-1"
  createInternetGateway := some "igw-1"
  createSecurityGroup := some "sg-1"
  createNetworkAcl := some "acl-1"
  createRouteTable := some "rtb-1"
  createSubnet := some "subnet-1"
  associateRouteTable := some "rtbassoc-1"
  serviceDeploy := ⟨"arn:service", "service"⟩
  listTasks := some ["task-1", "task-2"]
  describeTasks := fun round taskArns => .ok (.list ((taskArns.getD []).map fun a =>
    ⟨a, "RUNNING", if decide (2 ≤ round) || a == "task-1" then "RUNNING" else "PENDING", [], []⟩))
  describeNetworkInterfaces := fun _ => some []
  describeRouteTables := some [⟨some "rtb-1", some [
    [("DestinationCidrBlock", "10.0.0.0/16"), ("GatewayId", "local")],
    [("DestinationCidrBlock", "0.0.0.0/0"), ("GatewayId", "igw-1")],
    [("DestinationIpv6CidrBlock", "::/0"), ("GatewayId", "igw-1")]]⟩]
  describeNetworkAcls := some [⟨some [⟨1, false⟩, ⟨100, false⟩, ⟨32767, false⟩]⟩]

/-- An instance without explicit network configuration. -/
def sampleInput : Instance :=
  ⟨"service", none, 1, true, none, ⟨"service-family", "1"⟩⟩

/-- The state of a fully provisioned instance: the last state that `deploy` saves for
`sampleInput` on `sampleProvider`, starting from the empty state. -/
def provisionedState : State where
  taskDefinition := some ⟨"service-family", "1"⟩
  service := some ⟨"arn:service", "service"⟩
  VpcId := some "vpc-1"
  InternetGatewayId := some "igw-1"
  SecurityGroupId := some "sg-1"
  NetworkAclId := some "acl-1"
  RouteTableId := some "rtb-1"
  SubnetId := some "subnet-1"
  RouteTableAssociationId := some "rtbassoc-1"
  containers := some []
  attachments := some []
  networkInterfaces := some []

/-- The listed tasks all have their desired status in polling round `m`, and not before:
each of the first `m - 1` responses is a list holding an unfinished task, and response `m`
is the list `last` of finished tasks. -/
def ConvergesInRound (p : Provider) (taskArns : Option (List String)) (m : Nat)
    (last : List Task) : Prop :=
  1 ≤ m ∧
  (∀ i, i + 1 < m → ∃ ts, p.describeTasks i (polledArns p i 0 taskArns) = .ok (.list ts) ∧
    ∃ t ∈ ts, t.desiredStatus ≠ t.lastStatus) ∧
  p.describeTasks (m - 1) (polledArns p (m - 1) 0 taskArns) = .ok (.list last) ∧
  ∀ t ∈ last, t.desiredStatus = t.lastStatus

/-- The environment lets the task wait of `remove` finish within `fuel` rounds: no task is
listed, or the listed tasks converge in some round `m ≤ fuel`. -/
def TasksSettle (p : Provider) (fuel : Nat) : Prop :=
  (p.listTasks.map fun l => l.length != 0).getD false = false ∨
  ∃ m last, m ≤ fuel ∧ ConvergesInRound p p.listTasks m last

/-- The `deleteRoute` calls issued for what `describeRouteTables` returned (lines 349-365):
those of the first table, when there is one and its `Routes` is a list. -/
def routeDeletions (p : Provider) : List Call :=
  match p.describeRouteTables with
  | some (routeTable :: _) => routesToDelete routeTable (routeTable.Routes.getD [])
  | _ => []

/-- The `deleteNetworkAclEntry` calls issued for what `describeNetworkAcls` returned
(lines 377-391): those of the first ACL, when there is one and its `Entries` is a list. -/
def aclEntryDeletions (p : Provider) (state : State) : List Call :=
  match p.describeNetworkAcls with
  | some (acl :: _) => entriesToDelete state (acl.Entries.getD [])
  | _ => []

/-- Task listing and polling calls. -/
def Call.isTaskQuery : Call → Bool
  | .listTasks _ => true
  | .describeTasks _ => true
  | _ => false

/-- The calls that remove, detach or disassociate something. -/
def Call.isRemoval : Call → Bool
  | .taskDefinitionRemove _ => true
  | .serviceRemove _ _ _ => true
  | .disassociateRouteTable _ => true
  | .deleteSubnet _ => true
  | .deleteSecurityGroup _ => true
  | .detachInternetGateway _ _ => true
  | .deleteInternetGateway _ => true
  | .deleteRoute _ => true
  | .deleteRouteTable _ => true
  | .deleteNetworkAclEntry _ _ _ => true
  | .deleteNetworkAcl _ => true
  | .deleteVpc _ => true
  | _ => false

/-- The calls of the sub-resource removals, for the populated keys of `s`. -/
def subResourceRemovalCalls (input : Instance) (s : State) : List Call :=
  (if s.taskDefinition.isSome then [.taskDefinitionRemove (input.serviceName ++ "-family")]
    else []) ++
  (match s.service with
    | some service => [.serviceRemove input.serviceName
        (if truthy input.cluster then input.cluster else none) service]
    | none => [])

/-- The calls of the network teardown for the populated keys of `s`, the route-table and
ACL descriptions included. -/
def networkTeardownCalls (p : Provider) (s : State) : List Call :=
  (if truthy s.RouteTableAssociationId then
      [.disassociateRouteTable s.RouteTableAssociationId] else []) ++
  (if truthy s.SubnetId then [.deleteSubnet s.SubnetId] else []) ++
  (if truthy s.SecurityGroupId then [.deleteSecurityGroup s.SecurityGroupId] else []) ++
  (if truthy s.InternetGatewayId then
      (if truthy s.VpcId then [.detachInternetGateway s.InternetGatewayId s.VpcId] else [])
        ++ [.deleteInternetGateway s.InternetGatewayId]
    else []) ++
  (if truthy s.RouteTableId then
      .describeRouteTables s.RouteTableId :: (routeDeletions p ++
        [.deleteRouteTable s.RouteTableId])
    else []) ++
  (if truthy s.NetworkAclId then
      .describeNetworkAcls s.NetworkAclId :: (aclEntryDeletions p s ++
        [.deleteNetworkAcl s.NetworkAclId])
    else []) ++
  (if truthy s.VpcId then [.deleteVpc s.VpcId] else [])

/-- The `deleteNetworkAclEntry` calls. -/
def Call.isAclEntryDeletion : Call → Bool
  | .deleteNetworkAclEntry _ _ _ => true
  | _ => false

/-- The `deleteRoute` calls. -/
def Call.isRouteDeletion : Call → Bool
  | .deleteRoute _ => true
  | _ => false

/-- The first `DestinationCidrBlock` or `DestinationIpv6CidrBlock` entry of a route, if it
has one. -/
def firstDestination (route : Route) : Option (String × String) :=
  route.find? fun kv => kv.1 == "DestinationCidrBlock" || kv.1 == "DestinationIpv6CidrBlock"

/-- The `deleteRoute` call expected for a route of a described table: it names the route's
first destination entry and the table id. -/
def expectedRouteDeletion (routeTable : RouteTable) (route : Route) : Call :=
  .deleteRoute ((firstDestination route).map fun kv => ⟨kv.1, kv.2, routeTable.RouteTableId⟩)

/-- As `sampleProvider`, with a route table whose second route leads to a gateway endpoint
and has a prefix list as its destination. -/
def prefixListProvider : Provider :=
  { sampleProvider with
    describeRouteTables := some [⟨some "rtb-1", some [
      [("DestinationCidrBlock", "10.0.0.0/16"), ("GatewayId", "local")],
      [("DestinationPrefixListId", "pl-1"), ("GatewayId", "vpce-1")]]⟩] }

/-- As `sampleProvider`, with a `describeTasks` response whose `tasks` is not a list. -/
def nonListProvider : Provider :=
  { sampleProvider with describeTasks := fun _ _ => .ok (.other "undefined") }

/-- The states saved after the first occurrence of the call `c`. -/
def savedAfter (c : Call) (events : List Event) : List State :=
  savedStates (events.dropWhile fun e => e != .call c)

/-- As `sampleProvider`, but the `deleteNetworkAcl` call fails. -/
def aclFailingProvider : Provider :=
  { sampleProvider with fails := fun c => c == .deleteNetworkAcl (some "acl-1") }

/-- The seven network resources of an instance, in the order `deploy` creates them. -/
inductive Role where
  | vpc
  | gateway
  | securityGroup
  | acl
  | routeTable
  | subnet
  | association
deriving DecidableEq, Repr

/-- The position of a role in the provisioning order, from 1 to 7. -/
def Role.step : Role → Nat
  | .vpc => 1
  | .gateway => 2
  | .securityGroup => 3
  | .acl => 4
  | .routeTable => 5
  | .subnet => 6
  | .association => 7

/-- The roles in provisioning order. -/
def Role.all : List Role :=
  [.vpc, .gateway, .securityGroup, .acl, .routeTable, .subnet, .association]

/-- The state key of a role. -/
def State.key (s : State) : Role → Option String
  | .vpc => s.VpcId
  | .gateway => s.InternetGatewayId
  | .securityGroup => s.SecurityGroupId
  | .acl => s.NetworkAclId
  | .routeTable => s.RouteTableId
  | .subnet => s.SubnetId
  | .association => s.RouteTableAssociationId

/-- The identifier the provider returns when the resource of a role is created. -/
def Provider.created (p : Provider) : Role → Option String
  | .vpc => p.createVpc
  | .gateway => p.createInternetGateway
  | .securityGroup => p.createSecurityGroup
  | .acl => p.createNetworkAcl
  | .routeTable => p.createRouteTable
  | .subnet => p.createSubnet
  | .association => p.associateRouteTable

/-- The role whose resource a call creates. -/
def Call.creates : Call → Option Role
  | .createVpc _ => some .vpc
  | .createInternetGateway => some .gateway
  | .createSecurityGroup _ _ _ => some .securityGroup
  | .createNetworkAcl _ => some .acl
  | .createRouteTable _ => some .routeTable
  | .createSubnet _ _ => some .subnet
  | .associateRouteTable _ _ => some .association
  | _ => none

/-- The role whose resource a call deletes. -/
def Call.deletes : Call → Option Role
  | .disassociateRouteTable _ => some .association
  | .deleteSubnet _ => some .subnet
  | .deleteSecurityGroup _ => some .securityGroup
  | .deleteInternetGateway _ => some .gateway
  | .deleteRouteTable _ => some .routeTable
  | .deleteNetworkAcl _ => some .acl
  | .deleteVpc _ => some .vpc
  | _ => none

/-- The network-provisioning step a call belongs to: the creation call of a role, and the
attach, authorize and route calls that complete it. -/
def Call.provisions : Call → Option Role
  | .createVpc _ => some .vpc
  | .createInternetGateway => some .gateway
  | .attachInternetGateway _ _ => some .gateway
  | .createSecurityGroup _ _ _ => some .securityGroup
  | .authorizeSecurityGroupIngress _ => some .securityGroup
  | .authorizeSecurityGroupEgress _ => some .securityGroup
  | .createNetworkAcl _ => some .acl
  | .createRouteTable _ => some .routeTable
  | .createRoute _ _ _ _ => some .routeTable
  | .createSubnet _ _ => some .subnet
  | .associateRouteTable _ _ => some .association
  | _ => none

/-- The number of the step a call opens: the creation call of a role opens the step of the
role, and the service deployment is what follows step 7. -/
def Call.opens : Call → Option Nat
  | .serviceDeploy _ _ _ _ _ _ => some 8
  | c => c.creates.map Role.step

/-- The roles created by a run, in order. -/
def createdRoles (events : List Event) : List Role :=
  (callsOf events).filterMap Call.creates

/-- The roles deleted by a run, in order. -/
def deletedRoles (events : List Event) : List Role :=
  (callsOf events).filterMap Call.deletes

/-- What every provisioning step does for its role: when it resolves, the key of the role
is populated and the other keys are as before; and it issues calls only when the key of
the role was not populated, all of them provisioning calls of that role. -/
def StepSpec (f : State → Outcome State) (r : Role) : Prop :=
  (∀ s s', (f s).result = .ok s' →
    truthy (s'.key r) = true ∧ ∀ r', r' ≠ r → s'.key r' = s.key r') ∧
  (∀ s, ∀ e ∈ (f s).events, truthy (s.key r) = false ∧
    ∀ c, e = .call c → c.provisions = some r)

/-- Every provisioning call of the event belongs to a role whose key is not populated in
`s`. -/
def Gated (s : State) (e : Event) : Prop :=
  ∀ c r, e = .call c → c.provisions = some r → truthy (s.key r) = false

/-- What the events after the network phase of `deploy` are: no provisioning call, and
saved states with the network keys of `s`. -/
def Settled (s : State) (e : Event) : Prop :=
  (∀ c, e = .call c → c.provisions = none) ∧
  (∀ s', e = .saveState s' → ∀ r, s'.key r = s.key r)

/-- The order in which `remove` deletes the network resources. -/
def Role.teardownOrder : List Role :=
  [.association, .subnet, .securityGroup, .gateway, .routeTable, .acl, .vpc]

/-- As `sampleProvider`, but the call that opens step `n` fails. -/
def failingAt (n : Nat) : Provider :=
  { sampleProvider with fails := fun c => c.opens == some n }

/-! ## Definitions for the polling contract, the metadata and the frame of deploy -/

/-- The calls `deployService` can issue: the service deployment with the given network
references, the task listing and polling, and the interface lookup. -/
def IsServiceCall (input : Instance) (securityGroups subnets : List (Option String))
    (c : Call) : Prop :=
  c = .serviceDeploy input.serviceName (input.td.family ++ ":" ++ input.td.revision)
      input.desiredCount (if input.exposePublicly then "ENABLED" else "DISABLED")
      securityGroups subnets ∨
  (∃ n, c = .listTasks n) ∨ (∃ a, c = .describeTasks a) ∨
  ∃ ids, c = .describeNetworkInterfaces ids

/-- An instance that brings its own security group and subnet. -/
def explicitInput : Instance :=
  ⟨"service", none, 1, true, some ⟨[some "sg-9"], [some "subnet-9"]⟩, ⟨"service-family", "1"⟩⟩

/-- The containers of the tasks, concatenated in task order. -/
def containersOf (ts : List Task) : List String := (ts.map fun t => t.containers).flatten

/-- The attachments of the tasks, concatenated in task order. -/
def attachmentsOf (ts : List Task) : List Attachment := (ts.map fun t => t.attachments).flatten

/-- The values of the attachment details named `networkInterfaceId`, in order; an
attachment without a details list has none. -/
def networkInterfaceIds (attachments : List Attachment) : List String :=
  (attachments.map fun a =>
    ((a.details.getD []).filter fun d => d.name = "networkInterfaceId").map fun d => d.value).flatten

/-- The metadata expected from a final task list: with `ids` the interface ids of the
tasks' attachments, the interfaces are those returned by the lookup of `ids`, or none when
there is no id or the lookup returns no list. -/
def metadataOf (p : Provider) (tasks : TasksValue) : Metadata :=
  ⟨containersOf tasks.elems, attachmentsOf tasks.elems,
    if networkInterfaceIds (attachmentsOf tasks.elems) = [] then []
    else (p.describeNetworkInterfaces (networkInterfaceIds (attachmentsOf tasks.elems))).getD []⟩

/-- The interface lookup calls. -/
def Call.isInterfaceLookup : Call → Bool
  | .describeNetworkInterfaces _ => true
  | _ => false

/-- A provider whose two tasks are running from the start, with containers and attachments:
one attachment names two interfaces among other details, one has no details list. -/
def metadataProvider : Provider :=
  { sampleProvider with
    describeTasks := fun _ _ => .ok (.list [
      ⟨"task-1", "RUNNING", "RUNNING", ["web", "sidecar"],
        [⟨"att-1", some [⟨"subnetId", "subnet-1"⟩, ⟨"networkInterfaceId", "eni-1"⟩,
          ⟨"networkInterfaceId", "eni-2"⟩]⟩]⟩,
      ⟨"task-2", "RUNNING", "RUNNING", ["worker"],
        [⟨"att-2", none⟩, ⟨"att-3", some [⟨"networkInterfaceId", "eni-3"⟩]⟩]⟩])
    describeNetworkInterfaces := fun ids => some (ids.map fun i => "interface of " ++ i) }

/-- A provider that lists no task. -/
def idleProvider : Provider := { sampleProvider with listTasks := some [] }

/-- The prerequisite identifiers of a dependent call are populated: the VPC id of the
gateway attachment and of the security group, ACL, route table and subnet creations; the
gateway and route table ids of a route creation; the route table and subnet ids of the
association; and, for the service deployment, one populated security group id and one
populated subnet id. A call without prerequisite identifiers counts as supplied. -/
def Call.wellSupplied : Call → Bool
  | .attachInternetGateway InternetGatewayId VpcId => truthy InternetGatewayId && truthy VpcId
  | .createSecurityGroup _ _ VpcId => truthy VpcId
  | .authorizeSecurityGroupIngress GroupId => truthy GroupId
  | .authorizeSecurityGroupEgress GroupId => truthy GroupId
  | .createNetworkAcl VpcId => truthy VpcId
  | .createRouteTable VpcId => truthy VpcId
  | .createRoute _ _ GatewayId RouteTableId => truthy GatewayId && truthy RouteTableId
  | .createSubnet _ VpcId => truthy VpcId
  | .associateRouteTable RouteTableId SubnetId => truthy RouteTableId && truthy SubnetId
  | .serviceDeploy _ _ _ _ securityGroups subnets =>
    securityGroups.length == 1 && subnets.length == 1 &&
      securityGroups.all truthy && subnets.all truthy
  | _ => true

/-- Every call of the event is well supplied. -/
def Supplied (e : Event) : Prop := ∀ c, e = .call c → c.wellSupplied = true

/-- The ids of the unfinished tasks of a response, which the loop asks for in the next
round. -/
def unfinishedArns (response : Except String TasksValue) : List String :=
  ((responseTasks response).filter Task.unfinished).map fun t => t.taskArn

/-- The provider describes only tasks it is asked for. -/
def Faithful (p : Provider) : Prop :=
  ∀ round taskArns ts, p.describeTasks round taskArns = .ok (.list ts) →
    ∀ t ∈ ts, t.taskArn ∈ taskArns.getD []

/-- A provider whose single task is pending in the first round and running from the second
round on. -/
def lateProvider : Provider :=
  { sampleProvider with
    listTasks := some ["task-1"]
    describeTasks := fun round taskArns => .ok (.list ((taskArns.getD []).map fun a =>
      ⟨a, "RUNNING", if decide (1 ≤ round) then "RUNNING" else "PENDING", [], []⟩)) }

/-! ## Definitions for the removal sequence, the provisioning steps and failing runs -/

/-- As `sampleProvider`, but the `describeTasks` call itself is rejected. -/
def throwingProvider : Provider :=
  { sampleProvider with describeTasks := fun _ _ => .error "describeTasks failed" }

/-- The route deletions expected for what `describeRouteTables` returned, in the words of
the specification: one for every route of the first described table whose gateway is not
`local`, naming the route's destination and the table. -/
def expectedRouteDeletions (p : Provider) : List Call :=
  match p.describeRouteTables with
  | some (routeTable :: _) =>
    ((routeTable.Routes.getD []).filter fun r => decide (r.lookup "GatewayId" ≠ some "local")).map
      (expectedRouteDeletion routeTable)
  | _ => []

/-- The ACL entry deletions expected for what `describeNetworkAcls` returned: one for every
entry of the first described ACL whose rule number lies strictly between 0 and 32767. -/
def expectedAclEntryDeletions (p : Provider) (s : State) : List Call :=
  match p.describeNetworkAcls with
  | some (acl :: _) =>
    ((acl.Entries.getD []).filter fun e => decide (0 < e.RuleNumber ∧ e.RuleNumber < 32767)).map
      fun e => .deleteNetworkAclEntry e.RuleNumber e.Egress s.NetworkAclId
  | _ => []

/-- The fixed removal sequence restricted to the populated keys of `s`: task definition,
service, association, subnet, security group, gateway (detached first when `VpcId` is
populated), routes then route table, ACL entries then ACL, VPC. -/
def expectedRemovals (p : Provider) (input : Instance) (s : State) : List Call :=
  (if s.taskDefinition.isSome then [.taskDefinitionRemove (input.serviceName ++ "-family")]
    else []) ++
  (match s.service with
    | some service => [.serviceRemove input.serviceName
        (if truthy input.cluster then input.cluster else none) service]
    | none => []) ++
  (if truthy s.RouteTableAssociationId then
    [.disassociateRouteTable s.RouteTableAssociationId] else []) ++
  (if truthy s.SubnetId then [.deleteSubnet s.SubnetId] else []) ++
  (if truthy s.SecurityGroupId then [.deleteSecurityGroup s.SecurityGroupId] else []) ++
  (if truthy s.InternetGatewayId then
    (if truthy s.VpcId then [.detachInternetGateway s.InternetGatewayId s.VpcId] else [])
      ++ [.deleteInternetGateway s.InternetGatewayId]
    else []) ++
  (if truthy s.RouteTableId then
    expectedRouteDeletions p ++ [.deleteRouteTable s.RouteTableId] else []) ++
  (if truthy s.NetworkAclId then
    expectedAclEntryDeletions p s ++ [.deleteNetworkAcl s.NetworkAclId] else []) ++
  (if truthy s.VpcId then [.deleteVpc s.VpcId] else [])

/-- The removal sequence with the two descriptions it needs: the route table is described
before its routes are deleted and the ACL before its entries are, each only when its key is
populated. -/
def expectedTeardown (p : Provider) (input : Instance) (s : State) : List Call :=
  (if s.taskDefinition.isSome then [.taskDefinitionRemove (input.serviceName ++ "-family")]
    else []) ++
  (match s.service with
    | some service => [.serviceRemove input.serviceName
        (if truthy input.cluster then input.cluster else none) service]
    | none => []) ++
  (if truthy s.RouteTableAssociationId then
    [.disassociateRouteTable s.RouteTableAssociationId] else []) ++
  (if truthy s.SubnetId then [.deleteSubnet s.SubnetId] else []) ++
  (if truthy s.SecurityGroupId then [.deleteSecurityGroup s.SecurityGroupId] else []) ++
  (if truthy s.InternetGatewayId then
    (if truthy s.VpcId then [.detachInternetGateway s.InternetGatewayId s.VpcId] else [])
      ++ [.deleteInternetGateway s.InternetGatewayId]
    else []) ++
  (if truthy s.RouteTableId then
    .describeRouteTables s.RouteTableId ::
      (expectedRouteDeletions p ++ [.deleteRouteTable s.RouteTableId]) else []) ++
  (if truthy s.NetworkAclId then
    .describeNetworkAcls s.NetworkAclId ::
      (expectedAclEntryDeletions p s ++ [.deleteNetworkAcl s.NetworkAclId]) else []) ++
  (if truthy s.VpcId then [.deleteVpc s.VpcId] else [])

/-- As `prefixListProvider`, but a `deleteRoute` call without parameters is rejected, as the
provider's client does for a call that lacks its required parameters. -/
def validatingProvider : Provider :=
  { prefixListProvider with fails := fun c => c == .deleteRoute none }

/-- The network-provisioning steps of `deploy` (lines 66-195), in order, each with its
role. -/
def networkSteps (p : Provider) (input : Instance) : List (Role × (State → Outcome State)) :=
  [(.vpc, ensureVpc p), (.gateway, ensureInternetGateway p),
   (.securityGroup, ensureSecurityGroup p input), (.acl, ensureNetworkAcl p),
   (.routeTable, ensureRouteTable p), (.subnet, ensureSubnet p),
   (.association, ensureRouteTableAssociation p)]

/-- The steps run one after the other, each on the state the one before resolved with. -/
def runSteps : List (Role × (State → Outcome State)) → State → Outcome State
  | [], s => pure s
  | x :: steps, s => Outcome.bind (x.2 s) (runSteps steps)

/-- The state saved last once `events` have happened, when `cur` was the state saved last
before them. -/
def lastSaved (cur : State) (events : List Event) : State :=
  ((savedStates events).getLast?).getD cur

/-- How a step of role `r` runs on a provider for which the steps `1..k` succeed and the
call that opens step `k + 1` fails: a step among the first `k` resolves, with the key of its
role populated, the other keys untouched, and its result is the state saved last; step
`k + 1`, when the key of its role is not populated, is rejected with the failure of its
opening call and saves nothing. -/
def StepRuns (k : Nat) (r : Role) (f : State → Outcome State) : Prop :=
  (r.step ≤ k → ∀ s, ∃ s', (f s).result = .ok s' ∧ truthy (s'.key r) = true ∧
    (∀ r', r' ≠ r → s'.key r' = s.key r') ∧ lastSaved s (f s).events = s') ∧
  (r.step = k + 1 → ∀ s, truthy (s.key r) = false →
    ∃ c, c.opens = some (k + 1) ∧ (f s).result = .rejected (.provider c) ∧
      savedStates (f s).events = [])

/-- The state a failed `remove` leaves behind when `deleteNetworkAcl` is rejected: the VPC,
the ACL and the route table id are still recorded. -/
def strandedState : State where
  VpcId := some "vpc-1"
  NetworkAclId := some "acl-1"
  RouteTableId := some "rtb-1"
  containers := some []
  attachments := some []
  networkInterfaces := some []

/-! ## Sequencing lemmas -/

@[simp] theorem bind_eq {α β : Type} (x : Outcome α) (f : α → Outcome β) :
    x >>= f = Outcome.bind x f := rfl

@[simp] theorem pure_eq {α : Type} (a : α) : (pure a : Outcome α) = ⟨[], .ok a⟩ := rfl

@[simp] theorem bind_ok {α β : Type} (es : List Event) (a : α) (f : α → Outcome β) :
    Outcome.bind ⟨es, .ok a⟩ f = ⟨es ++ (f a).events, (f a).result⟩ := rfl

@[simp] theorem bind_rejected {α β : Type} (es : List Event) (r : Rejection)
    (f : α → Outcome β) : Outcome.bind ⟨es, .rejected r⟩ f = ⟨es, .rejected r⟩ := rfl

@[simp] theorem bind_pending {α β : Type} (es : List Event) (f : α → Outcome β) :
    Outcome.bind (⟨es, .pending⟩ : Outcome α) f = ⟨es, .pending⟩ := rfl

theorem bind_of_ok {α β : Type} {x : Outcome α} {a : α} (h : x.result = .ok a)
    (f : α → Outcome β) : Outcome.bind x f = ⟨x.events ++ (f a).events, (f a).result⟩ := by
  unfold Outcome.bind
  rw [h]

theorem bind_result_ok {α β : Type} {x : Outcome α} {f : α → Outcome β} {b : β}
    (h : (Outcome.bind x f).result = .ok b) :
    ∃ a, x.result = .ok a ∧ (f a).result = .ok b := by
  unfold Outcome.bind at h
  cases hx : x.result with
  | ok a => rw [hx] at h; exact ⟨a, rfl, h⟩
  | rejected r => rw [hx] at h; cases h
  | pending => rw [hx] at h; cases h

theorem mem_bind_events {α β : Type} {x : Outcome α} {f : α → Outcome β} {e : Event}
    (h : e ∈ (Outcome.bind x f).events) :
    e ∈ x.events ∨ ∃ a, x.result = .ok a ∧ e ∈ (f a).events := by
  unfold Outcome.bind at h
  cases hx : x.result with
  | ok a =>
    rw [hx] at h
    rcases List.mem_append.1 h with h | h
    · exact Or.inl h
    · exact Or.inr ⟨a, rfl, h⟩
  | rejected r => rw [hx] at h; exact Or.inl h
  | pending => rw [hx] at h; exact Or.inl h

@[simp] theorem callsOf_nil : callsOf [] = [] := rfl

@[simp] theorem callsOf_append (xs ys : List Event) :
    callsOf (xs ++ ys) = callsOf xs ++ callsOf ys := by
  simp [callsOf]

@[simp] theorem callsOf_cons_call (c : Call) (es : List Event) :
    callsOf (.call c :: es) = c :: callsOf es := rfl

@[simp] theorem callsOf_cons_saveState (s : State) (es : List Event) :
    callsOf (.saveState s :: es) = callsOf es := rfl

@[simp] theorem callsOf_cons_log (m : String) (es : List Event) :
    callsOf (.log m :: es) = callsOf es := rfl

@[simp] theorem callsOf_cons_sleep (n : Nat) (es : List Event) :
    callsOf (.sleep n :: es) = callsOf es := rfl

@[simp] theorem describeRounds_nil : describeRounds [] = 0 := rfl

@[simp] theorem describeRounds_cons_describe (a : Option (List String)) (es : List Event) :
    describeRounds (.call (.describeTasks a) :: es) = describeRounds es + 1 := by
  simp [describeRounds]

@[simp] theorem describeRounds_cons_sleep (n : Nat) (es : List Event) :
    describeRounds (.sleep n :: es) = describeRounds es := rfl

/-! ## Polling lemmas -/

/-- One round of the loop whose response is a list with an unfinished task: the loop
sleeps and re-invokes itself with the unfinished ids and the same `currentTry`. -/
theorem waitUntil_step_unfinished (p : Provider) (fuel round : Nat)
    (taskArns : Option (List String)) (currentTry limit : Nat) (ts : List Task)
    (hresp : p.describeTasks round taskArns = .ok (.list ts))
    (htry : currentTry ≤ limit) (hun : ∃ t ∈ ts, t.desiredStatus ≠ t.lastStatus) :
    waitUntilTaskChangeFinishes p (fuel + 1) round taskArns currentTry limit =
      Outcome.bind ⟨[.call (.describeTasks taskArns), .sleep 10000], .ok ()⟩ fun _ =>
        waitUntilTaskChangeFinishes p fuel (round + 1)
          (some ((ts.filter Task.unfinished).map fun t => t.taskArn)) currentTry limit := by
  have hne : (ts.filter fun t => t.desiredStatus != t.lastStatus) ≠ [] := by
    obtain ⟨t, ht, hd⟩ := hun
    intro h
    have : t ∈ ts.filter fun t => t.desiredStatus != t.lastStatus :=
      List.mem_filter.2 ⟨ht, by simpa using hd⟩
    rw [h] at this
    cases this
  have hlen : (ts.filter fun t => t.desiredStatus != t.lastStatus).length ≠ 0 := by
    simpa using hne
  have hgt : ¬ currentTry > limit := by omega
  rw [waitUntilTaskChangeFinishes, hresp]
  simp only [emit, sleep, bind_ok, TasksValue.isArray, TasksValue.elems, postIncrement]
  simp [hgt, hlen]
  exact ⟨rfl, rfl⟩

/-- One round of the loop whose response is a list of finished tasks: the loop resolves
with that list. -/
theorem waitUntil_step_finished (p : Provider) (fuel round : Nat)
    (taskArns : Option (List String)) (currentTry limit : Nat) (ts : List Task)
    (hresp : p.describeTasks round taskArns = .ok (.list ts))
    (htry : currentTry ≤ limit) (hfin : ∀ t ∈ ts, t.desiredStatus = t.lastStatus) :
    waitUntilTaskChangeFinishes p (fuel + 1) round taskArns currentTry limit =
      ⟨[.call (.describeTasks taskArns)], .ok ts⟩ := by
  have hnil : (ts.filter fun t => t.desiredStatus != t.lastStatus) = [] := by
    apply List.filter_eq_nil_iff.2
    intro t ht
    simpa using hfin t ht
  have hgt : ¬ currentTry > limit := by omega
  rw [waitUntilTaskChangeFinishes, hresp]
  simp only [emit, bind_ok, TasksValue.isArray, TasksValue.elems]
  simp [hgt, hnil]

/-- While every response is a list with an unfinished task, the loop is still running
after any number of rounds: `currentTry` never grows, so the guard never fires. -/
theorem waitUntil_pending_of_unfinished (p : Provider) (limit : Nat)
    (h : ∀ round taskArns, ∃ ts, p.describeTasks round taskArns = .ok (.list ts) ∧
      ∃ t ∈ ts, t.desiredStatus ≠ t.lastStatus) :
    ∀ (fuel round : Nat) (taskArns : Option (List String)) (currentTry : Nat),
      currentTry ≤ limit →
      (waitUntilTaskChangeFinishes p fuel round taskArns currentTry limit).result = .pending ∧
      describeRounds
        (waitUntilTaskChangeFinishes p fuel round taskArns currentTry limit).events = fuel := by
  intro fuel
  induction fuel with
  | zero => intro round taskArns currentTry _; exact ⟨rfl, rfl⟩
  | succ n ih =>
    intro round taskArns currentTry htry
    obtain ⟨ts, hresp, hun⟩ := h round taskArns
    rw [waitUntil_step_unfinished p n round taskArns currentTry limit ts hresp htry hun]
    obtain ⟨h1, h2⟩ := ih (round + 1)
      (some ((ts.filter Task.unfinished).map fun t => t.taskArn)) currentTry htry
    simp [h1, h2]

/-- The loop resolves in round `k + 1` when the first `k` responses each hold an
unfinished task and response `k + 1` holds none. -/
theorem waitUntil_resolves_at (p : Provider) (limit : Nat) :
    ∀ (k fuel round : Nat) (taskArns : Option (List String)) (currentTry : Nat)
      (last : List Task),
      currentTry ≤ limit → k + 1 ≤ fuel →
      (∀ i, i < k → ∃ ts, p.describeTasks (round + i) (polledArns p i round taskArns)
          = .ok (.list ts) ∧ ∃ t ∈ ts, t.desiredStatus ≠ t.lastStatus) →
      p.describeTasks (round + k) (polledArns p k round taskArns) = .ok (.list last) →
      (∀ t ∈ last, t.desiredStatus = t.lastStatus) →
      (waitUntilTaskChangeFinishes p fuel round taskArns currentTry limit).result = .ok last ∧
      describeRounds
        (waitUntilTaskChangeFinishes p fuel round taskArns currentTry limit).events = k + 1 := by
  intro k
  induction k with
  | zero =>
    intro fuel round taskArns currentTry last htry hfuel _ hlast hfin
    obtain ⟨n, rfl⟩ : ∃ n, fuel = n + 1 := ⟨fuel - 1, by omega⟩
    rw [waitUntil_step_finished p n round taskArns currentTry limit last
      (by simpa [polledArns] using hlast) htry hfin]
    simp
  | succ k ih =>
    intro fuel round taskArns currentTry last htry hfuel hun hlast hfin
    obtain ⟨n, rfl⟩ : ∃ n, fuel = n + 1 := ⟨fuel - 1, by omega⟩
    obtain ⟨ts, hresp, hts⟩ := hun 0 (by omega)
    simp only [polledArns, Nat.add_zero] at hresp
    rw [waitUntil_step_unfinished p n round taskArns currentTry limit ts hresp htry hts]
    have hnext : ∀ i, polledArns p (i + 1) round taskArns =
        polledArns p i (round + 1) (some ((ts.filter Task.unfinished).map fun t => t.taskArn)) := by
      intro i
      simp [polledArns, hresp, responseTasks, TasksValue.elems]
    obtain ⟨h1, h2⟩ := ih n (round + 1)
      (some ((ts.filter Task.unfinished).map fun t => t.taskArn)) currentTry last htry
      (by omega)
      (by
        intro i hi
        obtain ⟨ts', h', hu'⟩ := hun (i + 1) (by omega)
        refine ⟨ts', ?_, hu'⟩
        rw [← hnext i, ← h']
        congr 1
        omega)
      (by
        rw [← hnext k, ← hlast]
        congr 1
        omega)
      hfin
    simp [h1, h2]

/-- C1 (the code fails the claim): with a task that never converges the loop does not
stop after `maxAttempts` rounds. After any number `fuel` of `describeTasks` rounds the
call is still pending, whatever the limit: the recursive call passes `currentTry++`, whose
value is the old `currentTry`, so the guard `currentTry > limit` is never true. -/
theorem waitUntilTaskChangeFinishes_never_stops (maxAttempts fuel : Nat) :
    (waitUntilTaskChangeFinishes stuckProvider fuel 0 (some ["task-1"]) 0 maxAttempts).result
      = .pending ∧
    describeRounds
      (waitUntilTaskChangeFinishes stuckProvider fuel 0 (some ["task-1"]) 0 maxAttempts).events
      = fuel :=
  waitUntil_pending_of_unfinished stuckProvider maxAttempts
    (fun _ _ => ⟨[⟨"task-1", "RUNNING", "PENDING", [], []⟩], rfl,
      ⟨"task-1", "RUNNING", "PENDING", [], []⟩, List.mem_singleton.2 rfl, by decide⟩)
    fuel 0 (some ["task-1"]) 0 (Nat.zero_le _)

/-- C10: if each of the first `m - 1` polling rounds returns a list holding an unfinished
task and round `m` returns a list `last` of finished tasks, with `1 ≤ m ≤ maxAttempts`,
then `waitUntilTaskChangeFinishes(taskArns, 0, maxAttempts)` makes exactly `m`
`describeTasks` calls and resolves with `last`. -/
theorem waitUntilTaskChangeFinishes_resolves_in_round (p : Provider)
    (taskArns : Option (List String)) (m maxAttempts fuel : Nat) (last : List Task)
    (hm : 1 ≤ m) (_hmax : m ≤ maxAttempts) (hfuel : m ≤ fuel)
    (hun : ∀ i, i + 1 < m → ∃ ts, p.describeTasks i (polledArns p i 0 taskArns)
        = .ok (.list ts) ∧ ∃ t ∈ ts, t.desiredStatus ≠ t.lastStatus)
    (hlast : p.describeTasks (m - 1) (polledArns p (m - 1) 0 taskArns) = .ok (.list last))
    (hfin : ∀ t ∈ last, t.desiredStatus = t.lastStatus) :
    (waitUntilTaskChangeFinishes p fuel 0 taskArns 0 maxAttempts).result = .ok last ∧
    describeRounds (waitUntilTaskChangeFinishes p fuel 0 taskArns 0 maxAttempts).events = m := by
  obtain ⟨k, rfl⟩ : ∃ k, m = k + 1 := ⟨m - 1, by omega⟩
  exact waitUntil_resolves_at p maxAttempts k fuel 0 taskArns 0 last (Nat.zero_le _) hfuel
    (fun i hi => by simpa using hun i (by omega))
    (by simpa using hlast) hfin

/-- C10 at a concrete provider: two tasks, the second one finished in round 3 of at most
10. -/
theorem waitUntilTaskChangeFinishes_resolves_in_round_witness :
    (waitUntilTaskChangeFinishes sampleProvider 3 0 (some ["task-1", "task-2"]) 0 10).result
      = .ok [⟨"task-2", "RUNNING", "RUNNING", [], []⟩] ∧
    describeRounds
      (waitUntilTaskChangeFinishes sampleProvider 3 0 (some ["task-1", "task-2"]) 0 10).events
      = 3 :=
  waitUntilTaskChangeFinishes_resolves_in_round sampleProvider (some ["task-1", "task-2"])
    3 10 3 [⟨"task-2", "RUNNING", "RUNNING", [], []⟩] (by decide) (by decide) (by decide)
    (by
      intro i hi
      have hi' : i = 0 ∨ i = 1 := by omega
      rcases hi' with rfl | rfl
      · exact ⟨[⟨"task-1", "RUNNING", "RUNNING", [], []⟩, ⟨"task-2", "RUNNING", "PENDING", [], []⟩],
          rfl, ⟨"task-2", "RUNNING", "PENDING", [], []⟩, by decide, by decide⟩
      · exact ⟨[⟨"task-2", "RUNNING", "PENDING", [], []⟩],
          rfl, ⟨"task-2", "RUNNING", "PENDING", [], []⟩, by decide, by decide⟩)
    rfl
    (by decide)

/-! ## Teardown lemmas -/

theorem call_ok (p : Provider) (hok : ∀ c, p.fails c = false) (c : Call) :
    p.call c = ⟨[.call c], .ok ()⟩ := by
  simp [Provider.call, hok]

@[simp] theorem callsOf_map_call (cs : List Call) : callsOf (cs.map Event.call) = cs := by
  induction cs with
  | nil => rfl
  | cons c cs ih => simp [ih]

theorem callAll_nil (p : Provider) : p.callAll [] = ⟨[], .ok ()⟩ := rfl

theorem callAll_ok (p : Provider) (hok : ∀ c, p.fails c = false) (cs : List Call) :
    p.callAll cs = ⟨cs.map Event.call, .ok ()⟩ := by
  have : cs.find? p.fails = none := by
    apply List.find?_eq_none.2
    intro c _
    simp [hok]
  simp [Provider.callAll, this]

theorem removeRouteTable_eq (p : Provider) (s : State) :
    removeRouteTable p s =
      if truthy s.RouteTableId then
        Outcome.bind (p.call (.describeRouteTables s.RouteTableId)) fun _ =>
        Outcome.bind (p.callAll (routeDeletions p)) fun _ =>
        Outcome.bind (p.call (.deleteRouteTable s.RouteTableId)) fun _ =>
        Outcome.bind (log "RouteTable: deleted") fun _ => ⟨[], .ok s⟩
      else ⟨[], .ok s⟩ := by
  unfold removeRouteTable routeDeletions
  split
  · simp only [bind_eq, pure_eq]
    congr 1
    funext _
    rcases hd : p.describeRouteTables with _ | ⟨_ | ⟨rt, rest⟩⟩
    · rfl
    · rfl
    · simp only
      rcases hr : rt.Routes with _ | ⟨_ | ⟨r, rs⟩⟩ <;> simp [callAll_nil, routesToDelete]
  · rfl

theorem removeNetworkAcl_eq (p : Provider) (s : State) :
    removeNetworkAcl p s =
      if truthy s.NetworkAclId then
        Outcome.bind (p.call (.describeNetworkAcls s.NetworkAclId)) fun _ =>
        Outcome.bind (p.callAll (aclEntryDeletions p s)) fun _ =>
        Outcome.bind (p.call (.deleteNetworkAcl s.NetworkAclId)) fun _ =>
        Outcome.bind (log "NetworkAcl: deleted") fun _ =>
        Outcome.bind (saveState { s with NetworkAclId := none }) fun _ =>
          ⟨[], .ok { s with NetworkAclId := none }⟩
      else ⟨[], .ok s⟩ := by
  unfold removeNetworkAcl aclEntryDeletions
  split
  · simp only [bind_eq, pure_eq]
    congr 1
    funext _
    rcases hd : p.describeNetworkAcls with _ | ⟨_ | ⟨acl, rest⟩⟩
    · rfl
    · rfl
    · simp only
      rcases hr : acl.Entries with _ | ⟨_ | ⟨r, rs⟩⟩ <;> simp [callAll_nil, entriesToDelete]
  · rfl

theorem removeTaskDefinition_ok (p : Provider) (hok : ∀ c, p.fails c = false)
    (input : Instance) (s : State) :
    (removeTaskDefinition p input s).result = .ok { s with taskDefinition := none } ∧
    callsOf (removeTaskDefinition p input s).events
      = if s.taskDefinition.isSome then [.taskDefinitionRemove (input.serviceName ++ "-family")]
        else [] := by
  unfold removeTaskDefinition
  split
  · simp [call_ok p hok, saveState, emit, *]
  · rename_i h
    have : s.taskDefinition = none := by simpa using h
    simp [h, ← this]

theorem removeService_ok (p : Provider) (hok : ∀ c, p.fails c = false)
    (input : Instance) (s : State) :
    (removeService p input s).result = .ok { s with service := none } ∧
    callsOf (removeService p input s).events
      = match s.service with
        | some service => [.serviceRemove input.serviceName
            (if truthy input.cluster then input.cluster else none) service]
        | none => [] := by
  unfold removeService
  split
  · simp [call_ok p hok, saveState, emit, *]
  · rename_i h
    simp [← h]

theorem removeRouteTableAssociation_ok (p : Provider) (hok : ∀ c, p.fails c = false)
    (s : State) :
    (removeRouteTableAssociation p s).result
      = .ok { s with RouteTableAssociationId :=
          (if truthy s.RouteTableAssociationId then none else s.RouteTableAssociationId) } ∧
    callsOf (removeRouteTableAssociation p s).events
      = if truthy s.RouteTableAssociationId then
          [.disassociateRouteTable s.RouteTableAssociationId] else [] := by
  unfold removeRouteTableAssociation
  split <;> simp [call_ok p hok, log, saveState, emit, *]

theorem removeSubnet_ok (p : Provider) (hok : ∀ c, p.fails c = false) (s : State) :
    (removeSubnet p s).result
      = .ok { s with SubnetId := if truthy s.SubnetId then none else s.SubnetId } ∧
    callsOf (removeSubnet p s).events
      = if truthy s.SubnetId then [.deleteSubnet s.SubnetId] else [] := by
  unfold removeSubnet
  split <;> simp [call_ok p hok, log, saveState, emit, *]

theorem removeSecurityGroup_ok (p : Provider) (hok : ∀ c, p.fails c = false) (s : State) :
    (removeSecurityGroup p s).result
      = .ok { s with SecurityGroupId :=
          (if truthy s.SecurityGroupId then none else s.SecurityGroupId) } ∧
    callsOf (removeSecurityGroup p s).events
      = if truthy s.SecurityGroupId then [.deleteSecurityGroup s.SecurityGroupId] else [] := by
  unfold removeSecurityGroup
  split <;> simp [call_ok p hok, log, saveState, emit, *]

theorem removeInternetGateway_ok (p : Provider) (hok : ∀ c, p.fails c = false) (s : State) :
    (removeInternetGateway p s).result
      = .ok { s with InternetGatewayId :=
          (if truthy s.InternetGatewayId then none else s.InternetGatewayId) } ∧
    callsOf (removeInternetGateway p s).events
      = if truthy s.InternetGatewayId then
          (if truthy s.VpcId then [.detachInternetGateway s.InternetGatewayId s.VpcId] else [])
            ++ [.deleteInternetGateway s.InternetGatewayId]
        else [] := by
  unfold removeInternetGateway
  split
  · split <;> simp [call_ok p hok, log, saveState, emit, *]
  · simp [*]

theorem removeRouteTable_ok (p : Provider) (hok : ∀ c, p.fails c = false) (s : State) :
    (removeRouteTable p s).result = .ok s ∧
    callsOf (removeRouteTable p s).events
      = if truthy s.RouteTableId then
          .describeRouteTables s.RouteTableId :: (routeDeletions p ++
            [.deleteRouteTable s.RouteTableId])
        else [] := by
  rw [removeRouteTable_eq]
  split <;> simp [call_ok p hok, callAll_ok p hok, log, emit, *]

theorem removeNetworkAcl_ok (p : Provider) (hok : ∀ c, p.fails c = false) (s : State) :
    (removeNetworkAcl p s).result
      = .ok { s with NetworkAclId := if truthy s.NetworkAclId then none else s.NetworkAclId } ∧
    callsOf (removeNetworkAcl p s).events
      = if truthy s.NetworkAclId then
          .describeNetworkAcls s.NetworkAclId :: (aclEntryDeletions p s ++
            [.deleteNetworkAcl s.NetworkAclId])
        else [] := by
  rw [removeNetworkAcl_eq]
  split <;> simp [call_ok p hok, callAll_ok p hok, log, saveState, emit, *]

theorem removeVpc_ok (p : Provider) (hok : ∀ c, p.fails c = false) (s : State) :
    (removeVpc p s).result = .ok { s with VpcId := if truthy s.VpcId then none else s.VpcId } ∧
    callsOf (removeVpc p s).events = if truthy s.VpcId then [.deleteVpc s.VpcId] else [] := by
  unfold removeVpc
  split <;> simp [call_ok p hok, log, saveState, emit, *]

theorem removeNetwork_ok (p : Provider) (hok : ∀ c, p.fails c = false) (s : State) :
    (∃ s', (removeNetwork p s).result = .ok s') ∧
    callsOf (removeNetwork p s).events = networkTeardownCalls p s := by
  unfold removeNetwork networkTeardownCalls
  simp only [bind_eq]
  rw [bind_of_ok (removeRouteTableAssociation_ok p hok _).1,
    bind_of_ok (removeSubnet_ok p hok _).1,
    bind_of_ok (removeSecurityGroup_ok p hok _).1,
    bind_of_ok (removeInternetGateway_ok p hok _).1,
    bind_of_ok (removeRouteTable_ok p hok _).1,
    bind_of_ok (removeNetworkAcl_ok p hok _).1]
  refine ⟨⟨_, (removeVpc_ok p hok _).1⟩, ?_⟩
  simp only [callsOf_append, (removeRouteTableAssociation_ok p hok _).2,
    (removeSubnet_ok p hok _).2, (removeSecurityGroup_ok p hok _).2,
    (removeInternetGateway_ok p hok _).2, (removeRouteTable_ok p hok _).2,
    (removeNetworkAcl_ok p hok _).2, (removeVpc_ok p hok _).2, List.append_assoc]
  rfl

theorem waitUntil_calls (p : Provider) (limit : Nat) :
    ∀ (fuel round : Nat) (taskArns : Option (List String)) (currentTry : Nat),
      ∀ c ∈ callsOf (waitUntilTaskChangeFinishes p fuel round taskArns currentTry limit).events,
        ∃ a, c = .describeTasks a := by
  intro fuel
  induction fuel with
  | zero => intro round taskArns currentTry c hc; simp [waitUntilTaskChangeFinishes] at hc
  | succ n ih =>
    intro round taskArns currentTry c hc
    rw [waitUntilTaskChangeFinishes] at hc
    split at hc
    · simp at hc
      exact ⟨_, hc⟩
    · simp only [emit, bind_ok, callsOf_append, callsOf_cons_call, callsOf_nil] at hc
      split at hc
      · simp [reject] at hc
        exact ⟨_, hc⟩
      · split at hc
        · simp only [sleep, emit, bind_ok, callsOf_append, callsOf_cons_sleep, callsOf_nil,
            List.mem_append, List.mem_singleton, List.nil_append] at hc
          rcases hc with hc | hc
          · exact ⟨_, hc⟩
          · exact ih _ _ _ c hc
        · simp at hc
          exact ⟨_, hc⟩

theorem awaitTaskRemoval_calls (p : Provider) (fuel : Nat) (taskArns : Option (List String)) :
    ∀ c ∈ callsOf (awaitTaskRemoval p fuel taskArns).events, ∃ a, c = .describeTasks a := by
  intro c hc
  unfold awaitTaskRemoval at hc
  split at hc
  · simp only [bind_eq, log, emit, bind_ok, callsOf_append, callsOf_cons_log, callsOf_nil,
      List.nil_append] at hc
    have hc' : c ∈ callsOf
        (waitUntilTaskChangeFinishes p fuel 0 taskArns 0 5).events := by
      unfold Outcome.bind at hc
      split at hc <;> simpa using hc
    exact waitUntil_calls p 5 fuel 0 taskArns 0 c hc'
  · simp at hc

theorem awaitTaskRemoval_ok_of_settle (p : Provider) (fuel : Nat)
    (h : TasksSettle p fuel) : (awaitTaskRemoval p fuel p.listTasks).result = .ok () := by
  unfold awaitTaskRemoval
  split
  · rename_i hc
    rcases h with h | ⟨m, last, hm, h1, hun, hlast, hfin⟩
    · rw [h] at hc
      cases hc
    · obtain ⟨k, rfl⟩ : ∃ k, m = k + 1 := ⟨m - 1, by omega⟩
      have hres := (waitUntil_resolves_at p 5 k fuel 0 p.listTasks 0 last (Nat.zero_le _) hm
        (fun i hi => by simpa using hun i (by omega)) (by simpa using hlast) hfin).1
      simp only [bind_eq, log, emit, bind_ok]
      rw [bind_of_ok hres]
  · rfl

theorem remove_calls (p : Provider) (hok : ∀ c, p.fails c = false) (fuel : Nat)
    (input : Instance) (s : State)
    (hwait : (awaitTaskRemoval p fuel p.listTasks).result = .ok ()) :
    (remove p fuel input s).result = .ok () ∧
    callsOf (remove p fuel input s).events =
      .listTasks input.serviceName :: (subResourceRemovalCalls input s ++
        (callsOf (awaitTaskRemoval p fuel p.listTasks).events ++
          networkTeardownCalls p s)) := by
  unfold remove
  simp only [bind_eq]
  obtain ⟨⟨s', hs'⟩, hcalls⟩ := removeNetwork_ok p hok
    { s with taskDefinition := none, service := none }
  rw [call_ok p hok, bind_ok, bind_of_ok (removeTaskDefinition_ok p hok _ _).1,
    bind_of_ok (removeService_ok p hok _ _).1, bind_of_ok hwait, bind_of_ok hs']
  refine ⟨rfl, ?_⟩
  simp only [callsOf_append, callsOf_cons_call, callsOf_nil, List.cons_append, List.nil_append,
    (removeTaskDefinition_ok p hok _ _).2, (removeService_ok p hok _ _).2, hcalls, log,
    saveState, emit, bind_ok, callsOf_cons_log, callsOf_cons_saveState, List.append_nil,
    List.append_assoc, subResourceRemovalCalls, networkTeardownCalls]
  rfl

theorem filter_ite_nil {α : Type} (f : α → Bool) (c : Prop) [Decidable c] (l : List α) :
    List.filter f (if c then l else []) = if c then List.filter f l else [] := by
  split <;> rfl

theorem routeDeletions_forall (p : Provider) :
    ∀ c ∈ routeDeletions p, ∃ params, c = .deleteRoute params := by
  intro c hc
  unfold routeDeletions at hc
  split at hc
  · simp only [routesToDelete, List.mem_map] at hc
    obtain ⟨ps, -, rfl⟩ := hc
    exact ⟨_, rfl⟩
  · cases hc

theorem aclEntryDeletions_forall (p : Provider) (s : State) :
    ∀ c ∈ aclEntryDeletions p s, ∃ n e, c = .deleteNetworkAclEntry n e s.NetworkAclId := by
  intro c hc
  unfold aclEntryDeletions at hc
  split at hc
  · simp only [entriesToDelete, List.mem_map] at hc
    obtain ⟨e, -, rfl⟩ := hc
    exact ⟨_, _, rfl⟩
  · cases hc

theorem filter_isRemoval_routeDeletions (p : Provider) :
    (routeDeletions p).filter Call.isRemoval = routeDeletions p := by
  apply List.filter_eq_self.2
  intro c hc
  obtain ⟨ps, rfl⟩ := routeDeletions_forall p c hc
  rfl

theorem filter_isRemoval_aclEntryDeletions (p : Provider) (s : State) :
    (aclEntryDeletions p s).filter Call.isRemoval = aclEntryDeletions p s := by
  apply List.filter_eq_self.2
  intro c hc
  obtain ⟨n, e, rfl⟩ := aclEntryDeletions_forall p s c hc
  rfl

theorem filter_notTaskQuery_routeDeletions (p : Provider) :
    (routeDeletions p).filter (fun c => !c.isTaskQuery) = routeDeletions p := by
  apply List.filter_eq_self.2
  intro c hc
  obtain ⟨ps, rfl⟩ := routeDeletions_forall p c hc
  rfl

theorem filter_notTaskQuery_aclEntryDeletions (p : Provider) (s : State) :
    (aclEntryDeletions p s).filter (fun c => !c.isTaskQuery) = aclEntryDeletions p s := by
  apply List.filter_eq_self.2
  intro c hc
  obtain ⟨n, e, rfl⟩ := aclEntryDeletions_forall p s c hc
  rfl

theorem filter_isRemoval_await (p : Provider) (fuel : Nat) (taskArns : Option (List String)) :
    (callsOf (awaitTaskRemoval p fuel taskArns).events).filter Call.isRemoval = [] := by
  apply List.filter_eq_nil_iff.2
  intro c hc
  obtain ⟨a, rfl⟩ := awaitTaskRemoval_calls p fuel taskArns c hc
  simp [Call.isRemoval]

theorem filter_notTaskQuery_await (p : Provider) (fuel : Nat)
    (taskArns : Option (List String)) :
    (callsOf (awaitTaskRemoval p fuel taskArns).events).filter (fun c => !c.isTaskQuery)
      = [] := by
  apply List.filter_eq_nil_iff.2
  intro c hc
  obtain ⟨a, rfl⟩ := awaitTaskRemoval_calls p fuel taskArns c hc
  simp [Call.isTaskQuery]

theorem sampleProvider_settles : TasksSettle sampleProvider 3 := by
  refine Or.inr ⟨3, [⟨"task-2", "RUNNING", "RUNNING", [], []⟩], le_refl _, by decide, ?_, rfl,
    by decide⟩
  intro i hi
  have hi' : i = 0 ∨ i = 1 := by omega
  rcases hi' with rfl | rfl
  · exact ⟨[⟨"task-1", "RUNNING", "RUNNING", [], []⟩, ⟨"task-2", "RUNNING", "PENDING", [], []⟩],
      rfl, ⟨"task-2", "RUNNING", "PENDING", [], []⟩, by decide, by decide⟩
  · exact ⟨[⟨"task-2", "RUNNING", "PENDING", [], []⟩],
      rfl, ⟨"task-2", "RUNNING", "PENDING", [], []⟩, by decide, by decide⟩

theorem head?_filter_eq_find? {α : Type} (f : α → Bool) (l : List α) :
    (l.filter f).head? = l.find? f := by
  induction l with
  | nil => rfl
  | cons a l ih =>
    by_cases h : f a = true
    · simp [List.filter_cons, List.find?_cons, h]
    · simp [List.filter_cons, List.find?_cons, h, ih]

theorem routesToDelete_eq (routeTable : RouteTable) (routes : List Route) :
    routesToDelete routeTable routes =
      (routes.filter fun r => decide (r.lookup "GatewayId" ≠ some "local")).map
        (expectedRouteDeletion routeTable) := by
  unfold routesToDelete expectedRouteDeletion firstDestination routeParamsOf
  rw [List.map_map]
  congr 1
  · funext r
    simp only [Function.comp, List.head?_map, head?_filter_eq_find?]
    congr 3
    funext kv
    simp
    rfl
  · congr 1
    funext r
    simp

theorem entriesToDelete_eq (s : State) (entries : List AclEntry) :
    entriesToDelete s entries =
      (entries.filter fun e => decide (0 < e.RuleNumber ∧ e.RuleNumber < 32767)).map
        fun e => .deleteNetworkAclEntry e.RuleNumber e.Egress s.NetworkAclId := by
  unfold entriesToDelete
  congr 1
  congr 1
  funext e
  simp [Bool.and_comm]

theorem filter_eq_nil_of_forall {α : Type} (f : α → Bool) (l : List α)
    (h : ∀ a ∈ l, f a = false) : l.filter f = [] := by
  apply List.filter_eq_nil_iff.2
  intro a ha
  simp [h a ha]

theorem filter_eq_self_of_forall {α : Type} (f : α → Bool) (l : List α)
    (h : ∀ a ∈ l, f a = true) : l.filter f = l :=
  List.filter_eq_self.2 h

theorem aclEntryDeletions_of_description (p : Provider) (s : State) (acl : NetworkAcl)
    (rest : List NetworkAcl) (entries : List AclEntry)
    (hdesc : p.describeNetworkAcls = some (acl :: rest)) (hent : acl.Entries = some entries) :
    aclEntryDeletions p s =
      (entries.filter fun e => decide (0 < e.RuleNumber ∧ e.RuleNumber < 32767)).map
        fun e => .deleteNetworkAclEntry e.RuleNumber e.Egress s.NetworkAclId := by
  unfold aclEntryDeletions
  rw [hdesc]
  simp only [hent, Option.getD_some]
  exact entriesToDelete_eq s entries

theorem filter_isAclEntryDeletion_await (p : Provider) (fuel : Nat)
    (taskArns : Option (List String)) :
    (callsOf (awaitTaskRemoval p fuel taskArns).events).filter Call.isAclEntryDeletion = [] := by
  apply filter_eq_nil_of_forall
  intro c hc
  obtain ⟨a, rfl⟩ := awaitTaskRemoval_calls p fuel taskArns c hc
  rfl

theorem filter_isAclEntryDeletion_routeDeletions (p : Provider) :
    (routeDeletions p).filter Call.isAclEntryDeletion = [] := by
  apply filter_eq_nil_of_forall
  intro c hc
  obtain ⟨ps, rfl⟩ := routeDeletions_forall p c hc
  rfl

theorem filter_isAclEntryDeletion_aclEntryDeletions (p : Provider) (s : State) :
    (aclEntryDeletions p s).filter Call.isAclEntryDeletion = aclEntryDeletions p s := by
  apply filter_eq_self_of_forall
  intro c hc
  obtain ⟨n, e, rfl⟩ := aclEntryDeletions_forall p s c hc
  rfl

/-- C2 (as amended): when `remove` reaches a populated `NetworkAclId` and the described ACL
has the entry list `entries`, the `deleteNetworkAclEntry` calls it issues are exactly one per
entry with `0 < RuleNumber < 32767`, in order, each with the entry's rule number and
direction and the state's ACL id, and all of them come before `deleteNetworkAcl`. For entries
1, 100 and 32767 these are the deletions of rules 1 and 100; only rule 32767 is left. -/
theorem remove_deletes_acl_entries_between_bounds (p : Provider) (fuel : Nat)
    (input : Instance) (s : State) (acl : NetworkAcl) (rest : List NetworkAcl)
    (entries : List AclEntry) (hok : ∀ c, p.fails c = false) (hsettle : TasksSettle p fuel)
    (hkey : truthy s.NetworkAclId = true)
    (hdesc : p.describeNetworkAcls = some (acl :: rest)) (hent : acl.Entries = some entries) :
    (callsOf (remove p fuel input s).events).filter Call.isAclEntryDeletion =
      ((entries.filter fun e => decide (0 < e.RuleNumber ∧ e.RuleNumber < 32767)).map
        fun e => .deleteNetworkAclEntry e.RuleNumber e.Egress s.NetworkAclId) ∧
    (∃ pre post, callsOf (remove p fuel input s).events
        = pre ++ .deleteNetworkAcl s.NetworkAclId :: post ∧
      post.filter Call.isAclEntryDeletion = []) ∧
    (∀ e₁ e₂ e₃, entries = [⟨1, e₁⟩, ⟨100, e₂⟩, ⟨32767, e₃⟩] →
      (callsOf (remove p fuel input s).events).filter Call.isAclEntryDeletion =
        [.deleteNetworkAclEntry 1 e₁ s.NetworkAclId,
         .deleteNetworkAclEntry 100 e₂ s.NetworkAclId]) := by
  obtain ⟨-, hcalls⟩ :=
    remove_calls p hok fuel input s (awaitTaskRemoval_ok_of_settle p fuel hsettle)
  have hfilter : (callsOf (remove p fuel input s).events).filter Call.isAclEntryDeletion =
      ((entries.filter fun e => decide (0 < e.RuleNumber ∧ e.RuleNumber < 32767)).map
        fun e => .deleteNetworkAclEntry e.RuleNumber e.Egress s.NetworkAclId) := by
    rw [hcalls, ← aclEntryDeletions_of_description p s acl rest entries hdesc hent]
    simp only [List.filter_cons, List.filter_append, filter_isAclEntryDeletion_await,
      subResourceRemovalCalls, networkTeardownCalls, filter_ite_nil,
      filter_isAclEntryDeletion_routeDeletions, filter_isAclEntryDeletion_aclEntryDeletions,
      List.filter_nil, List.nil_append, List.append_assoc, hkey]
    cases s.service <;> simp [Call.isAclEntryDeletion]
  refine ⟨hfilter, ?_, ?_⟩
  · refine ⟨.listTasks input.serviceName :: (subResourceRemovalCalls input s ++
        (callsOf (awaitTaskRemoval p fuel p.listTasks).events ++
          ((if truthy s.RouteTableAssociationId then
              [.disassociateRouteTable s.RouteTableAssociationId] else []) ++
          (if truthy s.SubnetId then [.deleteSubnet s.SubnetId] else []) ++
          (if truthy s.SecurityGroupId then [.deleteSecurityGroup s.SecurityGroupId] else []) ++
          (if truthy s.InternetGatewayId then
              (if truthy s.VpcId then
                [.detachInternetGateway s.InternetGatewayId s.VpcId] else [])
                ++ [.deleteInternetGateway s.InternetGatewayId]
            else []) ++
          (if truthy s.RouteTableId then
              .describeRouteTables s.RouteTableId :: (routeDeletions p ++
                [.deleteRouteTable s.RouteTableId])
            else []) ++
          (.describeNetworkAcls s.NetworkAclId :: aclEntryDeletions p s)))),
      if truthy s.VpcId then [.deleteVpc s.VpcId] else [], ?_, ?_⟩
    · rw [hcalls]
      simp [networkTeardownCalls, hkey, List.append_assoc]
    · split <;> rfl
  · rintro e₁ e₂ e₃ rfl
    rw [hfilter]
    simp

/-- C2 on the sample provider, whose ACL has the entries 1, 100 and 32767. -/
theorem remove_deletes_acl_entries_between_bounds_witness :
    (∀ c, sampleProvider.fails c = false) ∧ TasksSettle sampleProvider 3 ∧
    truthy provisionedState.NetworkAclId = true ∧
    (callsOf (remove sampleProvider 3 sampleInput provisionedState).events).filter
        Call.isAclEntryDeletion =
      [.deleteNetworkAclEntry 1 false (some "acl-1"),
       .deleteNetworkAclEntry 100 false (some "acl-1")] :=
  ⟨fun _ => rfl, sampleProvider_settles, rfl,
    (remove_deletes_acl_entries_between_bounds sampleProvider 3 sampleInput provisionedState
      ⟨some [⟨1, false⟩, ⟨100, false⟩, ⟨32767, false⟩]⟩ []
      [⟨1, false⟩, ⟨100, false⟩, ⟨32767, false⟩] (fun _ => rfl) sampleProvider_settles
      rfl rfl rfl).2.2 false false false rfl⟩

/-- C2 as stated fails: for an ACL with entries 1, 100 and 32767 `remove` deletes rule 1 as
well as rule 100, so rule 100 is not the only entry deleted. -/
theorem remove_deletes_acl_rule_one :
    Call.deleteNetworkAclEntry 1 false (some "acl-1") ∈
      callsOf (remove sampleProvider 3 sampleInput provisionedState).events ∧
    (callsOf (remove sampleProvider 3 sampleInput provisionedState).events).filter
        Call.isAclEntryDeletion ≠ [.deleteNetworkAclEntry 100 false (some "acl-1")] := by
  decide

/-- C4 (the code fails the claim): `remove` deletes the route table without clearing
`RouteTableId` or saving the state. On a fully provisioned state the two states saved
after `deleteRouteTable` and before the final empty state still hold the id of the deleted
table; and when the next step fails (`deleteNetworkAcl` is rejected), the last saved state
keeps `RouteTableId` populated although `deleteRouteTable` has been issued and succeeded. -/
theorem remove_saves_RouteTableId_after_deleteRouteTable :
    (savedAfter (.deleteRouteTable (some "rtb-1"))
        (remove sampleProvider 3 sampleInput provisionedState).events).map
      (fun s => s.RouteTableId) = [some "rtb-1", some "rtb-1", none] ∧
    (remove aclFailingProvider 3 sampleInput provisionedState).result
      = .rejected (.provider (.deleteNetworkAcl (some "acl-1"))) ∧
    Event.call (.deleteRouteTable (some "rtb-1")) ∈
      (remove aclFailingProvider 3 sampleInput provisionedState).events ∧
    ((savedStates (remove aclFailingProvider 3 sampleInput provisionedState).events).getLast?.map
      fun s => s.RouteTableId) = some (some "rtb-1") := by
  decide

/-- C8 (the code fails the claim): when the polling call rejects with the current tasks
value (here a `tasks` that is not a list), `deploy` and `get` carry on and resolve, but
`remove` is rejected with that value and issues none of its network removal calls. -/
theorem remove_rejects_when_polling_rejects :
    (remove nonListProvider 3 sampleInput provisionedState).result
      = .rejected (.tasks (.other "undefined")) ∧
    (callsOf (remove nonListProvider 3 sampleInput provisionedState).events).filter
        Call.isRemoval
      = [.taskDefinitionRemove "service-family",
         .serviceRemove "service" none ⟨"arn:service", "service"⟩] ∧
    (deploy nonListProvider 3 sampleInput {}).result
      = .ok ⟨some "arn:service", some "service", [], [], []⟩ ∧
    (get nonListProvider 3 sampleInput provisionedState).result
      = .ok ⟨some "arn:service", some "service", [], [], []⟩ := by
  decide

/-! ## Provisioning lemmas -/

theorem ensureVpc_skip (p : Provider) (s : State) (h : truthy s.VpcId = true) :
    ensureVpc p s = ⟨[], .ok s⟩ := by
  simp [ensureVpc, h]

theorem ensureVpc_created (p : Provider) (s : State) (h : truthy s.VpcId = false)
    (hcall : p.fails (.createVpc "10.0.0.0/16") = false) (hid : truthy p.createVpc = true) :
    ensureVpc p s =
      ⟨[.call (.createVpc "10.0.0.0/16"), .log "VPC: created",
        .saveState { s with VpcId := p.createVpc }], .ok { s with VpcId := p.createVpc }⟩ := by
  simp [ensureVpc, h, hid, Provider.call, hcall, log, saveState, emit]

theorem ensureVpc_failed (p : Provider) (s : State) (h : truthy s.VpcId = false)
    (hcall : p.fails (.createVpc "10.0.0.0/16") = true) :
    ensureVpc p s = ⟨[.call (.createVpc "10.0.0.0/16")],
      .rejected (.provider (.createVpc "10.0.0.0/16"))⟩ := by
  simp [ensureVpc, h, Provider.call, hcall]

theorem ensureInternetGateway_skip (p : Provider) (s : State)
    (h : truthy s.InternetGatewayId = true) : ensureInternetGateway p s = ⟨[], .ok s⟩ := by
  simp [ensureInternetGateway, h]

theorem ensureInternetGateway_created (p : Provider) (s : State)
    (h : truthy s.InternetGatewayId = false)
    (hcall : p.fails .createInternetGateway = false)
    (hattach : p.fails (.attachInternetGateway p.createInternetGateway s.VpcId) = false)
    (hid : truthy p.createInternetGateway = true) :
    ensureInternetGateway p s =
      ⟨[.call .createInternetGateway, .log "Internet Gateway: created",
        .saveState { s with InternetGatewayId := p.createInternetGateway },
        .call (.attachInternetGateway p.createInternetGateway s.VpcId),
        .log "Internet Gateway: attached to VPC"],
        .ok { s with InternetGatewayId := p.createInternetGateway }⟩ := by
  simp [ensureInternetGateway, h, hid, Provider.call, hcall, hattach, log, saveState, emit]

theorem ensureInternetGateway_failed (p : Provider) (s : State)
    (h : truthy s.InternetGatewayId = false)
    (hcall : p.fails .createInternetGateway = true) :
    ensureInternetGateway p s = ⟨[.call .createInternetGateway],
      .rejected (.provider .createInternetGateway)⟩ := by
  simp [ensureInternetGateway, h, Provider.call, hcall]

theorem ensureSecurityGroup_skip (p : Provider) (input : Instance) (s : State)
    (h : truthy s.SecurityGroupId = true) : ensureSecurityGroup p input s = ⟨[], .ok s⟩ := by
  simp [ensureSecurityGroup, h]

theorem ensureSecurityGroup_created (p : Provider) (input : Instance) (s : State)
    (h : truthy s.SecurityGroupId = false)
    (hcall : p.fails (.createSecurityGroup (input.serviceName ++ " security group")
      (input.serviceName ++ "-security-group") s.VpcId) = false)
    (hin : p.fails (.authorizeSecurityGroupIngress p.createSecurityGroup) = false)
    (heg : p.fails (.authorizeSecurityGroupEgress p.createSecurityGroup) = false)
    (hid : truthy p.createSecurityGroup = true) :
    ensureSecurityGroup p input s =
      ⟨[.call (.createSecurityGroup (input.serviceName ++ " security group")
          (input.serviceName ++ "-security-group") s.VpcId),
        .log "Security Group: created",
        .saveState { s with SecurityGroupId := p.createSecurityGroup },
        .call (.authorizeSecurityGroupIngress p.createSecurityGroup),
        .log "SecurityGroupIngress: rule created",
        .call (.authorizeSecurityGroupEgress p.createSecurityGroup),
        .log "SecurityGroupEgress: rule created"],
        .ok { s with SecurityGroupId := p.createSecurityGroup }⟩ := by
  simp [ensureSecurityGroup, h, hid, Provider.call, hcall, hin, heg, log, saveState, emit]

theorem ensureSecurityGroup_failed (p : Provider) (input : Instance) (s : State)
    (h : truthy s.SecurityGroupId = false)
    (hcall : p.fails (.createSecurityGroup (input.serviceName ++ " security group")
      (input.serviceName ++ "-security-group") s.VpcId) = true) :
    ensureSecurityGroup p input s =
      ⟨[.call (.createSecurityGroup (input.serviceName ++ " security group")
          (input.serviceName ++ "-security-group") s.VpcId)],
        .rejected (.provider (.createSecurityGroup (input.serviceName ++ " security group")
          (input.serviceName ++ "-security-group") s.VpcId))⟩ := by
  simp [ensureSecurityGroup, h, Provider.call, hcall]

theorem ensureNetworkAcl_skip (p : Provider) (s : State) (h : truthy s.NetworkAclId = true) :
    ensureNetworkAcl p s = ⟨[], .ok s⟩ := by
  simp [ensureNetworkAcl, h]

theorem ensureNetworkAcl_created (p : Provider) (s : State) (h : truthy s.NetworkAclId = false)
    (hcall : p.fails (.createNetworkAcl s.VpcId) = false)
    (hid : truthy p.createNetworkAcl = true) :
    ensureNetworkAcl p s =
      ⟨[.call (.createNetworkAcl s.VpcId), .log "NetworkAcl: created",
        .saveState { s with NetworkAclId := p.createNetworkAcl }],
        .ok { s with NetworkAclId := p.createNetworkAcl }⟩ := by
  simp [ensureNetworkAcl, h, hid, Provider.call, hcall, log, saveState, emit]

theorem ensureNetworkAcl_failed (p : Provider) (s : State) (h : truthy s.NetworkAclId = false)
    (hcall : p.fails (.createNetworkAcl s.VpcId) = true) :
    ensureNetworkAcl p s = ⟨[.call (.createNetworkAcl s.VpcId)],
      .rejected (.provider (.createNetworkAcl s.VpcId))⟩ := by
  simp [ensureNetworkAcl, h, Provider.call, hcall]

theorem ensureRouteTable_skip (p : Provider) (s : State) (h : truthy s.RouteTableId = true) :
    ensureRouteTable p s = ⟨[], .ok s⟩ := by
  simp [ensureRouteTable, h]

theorem ensureRouteTable_created (p : Provider) (s : State) (h : truthy s.RouteTableId = false)
    (hcall : p.fails (.createRouteTable s.VpcId) = false)
    (hr4 : p.fails (.createRoute "DestinationCidrBlock" "0.0.0.0/0" s.InternetGatewayId
      p.createRouteTable) = false)
    (hr6 : p.fails (.createRoute "DestinationIpv6CidrBlock" "::/0" s.InternetGatewayId
      p.createRouteTable) = false)
    (hid : truthy p.createRouteTable = true) :
    ensureRouteTable p s =
      ⟨[.call (.createRouteTable s.VpcId), .log "RouteTable: created",
        .saveState { s with RouteTableId := p.createRouteTable },
        .call (.createRoute "DestinationCidrBlock" "0.0.0.0/0" s.InternetGatewayId
          p.createRouteTable),
        .call (.createRoute "DestinationIpv6CidrBlock" "::/0" s.InternetGatewayId
          p.createRouteTable),
        .log "RouteTable: routes created"],
        .ok { s with RouteTableId := p.createRouteTable }⟩ := by
  simp [ensureRouteTable, h, hid, Provider.call, hcall, hr4, hr6, log, saveState, emit]

theorem ensureRouteTable_failed (p : Provider) (s : State) (h : truthy s.RouteTableId = false)
    (hcall : p.fails (.createRouteTable s.VpcId) = true) :
    ensureRouteTable p s = ⟨[.call (.createRouteTable s.VpcId)],
      .rejected (.provider (.createRouteTable s.VpcId))⟩ := by
  simp [ensureRouteTable, h, Provider.call, hcall]

theorem ensureSubnet_skip (p : Provider) (s : State) (h : truthy s.SubnetId = true) :
    ensureSubnet p s = ⟨[], .ok s⟩ := by
  simp [ensureSubnet, h]

theorem ensureSubnet_created (p : Provider) (s : State) (h : truthy s.SubnetId = false)
    (hcall : p.fails (.createSubnet "10.0.0.0/16" s.VpcId) = false)
    (hid : truthy p.createSubnet = true) :
    ensureSubnet p s =
      ⟨[.call (.createSubnet "10.0.0.0/16" s.VpcId), .log "Subnet: created",
        .saveState { s with SubnetId := p.createSubnet }],
        .ok { s with SubnetId := p.createSubnet }⟩ := by
  simp [ensureSubnet, h, hid, Provider.call, hcall, log, saveState, emit]

theorem ensureSubnet_failed (p : Provider) (s : State) (h : truthy s.SubnetId = false)
    (hcall : p.fails (.createSubnet "10.0.0.0/16" s.VpcId) = true) :
    ensureSubnet p s = ⟨[.call (.createSubnet "10.0.0.0/16" s.VpcId)],
      .rejected (.provider (.createSubnet "10.0.0.0/16" s.VpcId))⟩ := by
  simp [ensureSubnet, h, Provider.call, hcall]

theorem ensureRouteTableAssociation_skip (p : Provider) (s : State)
    (h : truthy s.RouteTableAssociationId = true) :
    ensureRouteTableAssociation p s = ⟨[], .ok s⟩ := by
  simp [ensureRouteTableAssociation, h]

theorem ensureRouteTableAssociation_created (p : Provider) (s : State)
    (h : truthy s.RouteTableAssociationId = false)
    (hcall : p.fails (.associateRouteTable s.RouteTableId s.SubnetId) = false)
    (hid : truthy p.associateRouteTable = true) :
    ensureRouteTableAssociation p s =
      ⟨[.call (.associateRouteTable s.RouteTableId s.SubnetId),
        .log "Subnet: route table associated",
        .saveState { s with RouteTableAssociationId := p.associateRouteTable }],
        .ok { s with RouteTableAssociationId := p.associateRouteTable }⟩ := by
  simp [ensureRouteTableAssociation, h, hid, Provider.call, hcall, log, saveState, emit]

theorem ensureRouteTableAssociation_failed (p : Provider) (s : State)
    (h : truthy s.RouteTableAssociationId = false)
    (hcall : p.fails (.associateRouteTable s.RouteTableId s.SubnetId) = true) :
    ensureRouteTableAssociation p s =
      ⟨[.call (.associateRouteTable s.RouteTableId s.SubnetId)],
        .rejected (.provider (.associateRouteTable s.RouteTableId s.SubnetId))⟩ := by
  simp [ensureRouteTableAssociation, h, Provider.call, hcall]

theorem mem_callsOf {c : Call} {es : List Event} : c ∈ callsOf es ↔ Event.call c ∈ es := by
  induction es with
  | nil => simp
  | cons e es ih =>
    cases e <;> simp [ih]

theorem mem_savedStates {s : State} {es : List Event} :
    s ∈ savedStates es ↔ Event.saveState s ∈ es := by
  induction es with
  | nil => simp [savedStates]
  | cons e es ih =>
    cases e <;> simp_all [savedStates, List.filterMap_cons]

theorem forall_bind_events {α β : Type} {P : Event → Prop} {x : Outcome α}
    {f : α → Outcome β} (hx : ∀ e ∈ x.events, P e)
    (hf : ∀ a, x.result = .ok a → ∀ e ∈ (f a).events, P e) :
    ∀ e ∈ (Outcome.bind x f).events, P e := by
  intro e he
  rcases mem_bind_events he with h | ⟨a, ha, h⟩
  · exact hx e h
  · exact hf a ha e h

theorem ensureVpc_result (p : Provider) (s s' : State) (h : (ensureVpc p s).result = .ok s') :
    s' = { s with VpcId := s'.VpcId } ∧ truthy s'.VpcId = true := by
  unfold ensureVpc at h
  by_cases hk : truthy s.VpcId = true
  · simp [hk] at h
    subst h
    exact ⟨rfl, hk⟩
  · cases hc : p.fails (.createVpc "10.0.0.0/16") <;> cases hid : truthy p.createVpc <;>
      simp [hk, Provider.call, hc, hid, reject, log, saveState, emit] at h
    subst h
    exact ⟨rfl, hid⟩

theorem ensureVpc_events (p : Provider) (s : State) :
    ∀ e ∈ (ensureVpc p s).events, truthy s.VpcId = false ∧
      ∀ c, e = .call c → c.provisions = some .vpc := by
  intro e he
  unfold ensureVpc at he
  by_cases hk : truthy s.VpcId = true
  · simp [hk] at he
  · cases hc : p.fails (.createVpc "10.0.0.0/16") <;> cases hid : truthy p.createVpc <;>
      simp [hk, Provider.call, hc, hid, reject, log, saveState, emit] at he <;>
      refine ⟨by simpa using hk, ?_⟩ <;> intro c hcall <;> subst hcall <;> simp_all [Call.provisions]

theorem ensureInternetGateway_result (p : Provider) (s s' : State)
    (h : (ensureInternetGateway p s).result = .ok s') :
    s' = { s with InternetGatewayId := s'.InternetGatewayId } ∧ truthy s'.InternetGatewayId = true := by
  unfold ensureInternetGateway at h
  by_cases hk : truthy s.InternetGatewayId = true
  · simp [hk] at h
    subst h
    exact ⟨rfl, hk⟩
  · cases hid : truthy p.createInternetGateway <;>
      cases hc0 : p.fails .createInternetGateway <;>
      cases hc1 : p.fails (.attachInternetGateway p.createInternetGateway s.VpcId) <;>
      simp [hk, Provider.call, hc0, hc1, hid, reject, log, saveState, emit] at h
    subst h
    exact ⟨rfl, hid⟩

theorem ensureInternetGateway_events (p : Provider) (s : State) :
    ∀ e ∈ (ensureInternetGateway p s).events, truthy s.InternetGatewayId = false ∧
      ∀ c, e = .call c → c.provisions = some .gateway := by
  intro e he
  unfold ensureInternetGateway at he
  by_cases hk : truthy s.InternetGatewayId = true
  · simp [hk] at he
  · cases hid : truthy p.createInternetGateway <;>
      cases hc0 : p.fails .createInternetGateway <;>
      cases hc1 : p.fails (.attachInternetGateway p.createInternetGateway s.VpcId) <;>
      simp [hk, Provider.call, hc0, hc1, hid, reject, log, saveState, emit] at he <;>
      refine ⟨by simpa using hk, ?_⟩ <;> intro c hcall <;> subst hcall <;>
      first
        | rfl
        | (simp at he; subst he; rfl)
        | (simp at he; rcases he with rfl | rfl <;> rfl)

theorem ensureSecurityGroup_result (p : Provider) (input : Instance) (s s' : State)
    (h : (ensureSecurityGroup p input s).result = .ok s') :
    s' = { s with SecurityGroupId := s'.SecurityGroupId } ∧ truthy s'.SecurityGroupId = true := by
  unfold ensureSecurityGroup at h
  by_cases hk : truthy s.SecurityGroupId = true
  · simp [hk] at h
    subst h
    exact ⟨rfl, hk⟩
  · cases hid : truthy p.createSecurityGroup <;>
      cases hc0 : p.fails (.createSecurityGroup (input.serviceName ++ " security group")
      (input.serviceName ++ "-security-group") s.VpcId) <;>
      cases hc1 : p.fails (.authorizeSecurityGroupIngress p.createSecurityGroup) <;>
      cases hc2 : p.fails (.authorizeSecurityGroupEgress p.createSecurityGroup) <;>
      simp [hk, Provider.call, hc0, hc1, hc2, hid, reject, log, saveState, emit] at h
    subst h
    exact ⟨rfl, hid⟩

theorem ensureSecurityGroup_events (p : Provider) (input : Instance) (s : State) :
    ∀ e ∈ (ensureSecurityGroup p input s).events, truthy s.SecurityGroupId = false ∧
      ∀ c, e = .call c → c.provisions = some .securityGroup := by
  intro e he
  unfold ensureSecurityGroup at he
  by_cases hk : truthy s.SecurityGroupId = true
  · simp [hk] at he
  · cases hid : truthy p.createSecurityGroup <;>
      cases hc0 : p.fails (.createSecurityGroup (input.serviceName ++ " security group")
      (input.serviceName ++ "-security-group") s.VpcId) <;>
      cases hc1 : p.fails (.authorizeSecurityGroupIngress p.createSecurityGroup) <;>
      cases hc2 : p.fails (.authorizeSecurityGroupEgress p.createSecurityGroup) <;>
      simp [hk, Provider.call, hc0, hc1, hc2, hid, reject, log, saveState, emit] at he <;>
      refine ⟨by simpa using hk, ?_⟩ <;> intro c hcall <;> subst hcall <;>
      first
        | rfl
        | (simp at he; subst he; rfl)
        | (simp at he; rcases he with rfl | rfl <;> rfl)
        | (simp at he; rcases he with rfl | rfl | rfl <;> rfl)

theorem ensureNetworkAcl_result (p : Provider) (s s' : State)
    (h : (ensureNetworkAcl p s).result = .ok s') :
    s' = { s with NetworkAclId := s'.NetworkAclId } ∧ truthy s'.NetworkAclId = true := by
  unfold ensureNetworkAcl at h
  by_cases hk : truthy s.NetworkAclId = true
  · simp [hk] at h
    subst h
    exact ⟨rfl, hk⟩
  · cases hid : truthy p.createNetworkAcl <;>
      cases hc0 : p.fails (.createNetworkAcl s.VpcId) <;>
      simp [hk, Provider.call, hc0, hid, reject, log, saveState, emit] at h
    subst h
    exact ⟨rfl, hid⟩

theorem ensureNetworkAcl_events (p : Provider) (s : State) :
    ∀ e ∈ (ensureNetworkAcl p s).events, truthy s.NetworkAclId = false ∧
      ∀ c, e = .call c → c.provisions = some .acl := by
  intro e he
  unfold ensureNetworkAcl at he
  by_cases hk : truthy s.NetworkAclId = true
  · simp [hk] at he
  · cases hid : truthy p.createNetworkAcl <;>
      cases hc0 : p.fails (.createNetworkAcl s.VpcId) <;>
      simp [hk, Provider.call, hc0, hid, reject, log, saveState, emit] at he <;>
      refine ⟨by simpa using hk, ?_⟩ <;> intro c hcall <;> subst hcall <;>
      first
        | rfl
        | (simp at he; subst he; rfl)

theorem ensureRouteTable_result (p : Provider) (s s' : State)
    (h : (ensureRouteTable p s).result = .ok s') :
    s' = { s with RouteTableId := s'.RouteTableId } ∧ truthy s'.RouteTableId = true := by
  unfold ensureRouteTable at h
  by_cases hk : truthy s.RouteTableId = true
  · simp [hk] at h
    subst h
    exact ⟨rfl, hk⟩
  · cases hid : truthy p.createRouteTable <;>
      cases hc0 : p.fails (.createRouteTable s.VpcId) <;>
      cases hc1 : p.fails (.createRoute "DestinationCidrBlock" "0.0.0.0/0" s.InternetGatewayId
      p.createRouteTable) <;>
      cases hc2 : p.fails (.createRoute "DestinationIpv6CidrBlock" "::/0" s.InternetGatewayId
      p.createRouteTable) <;>
      simp [hk, Provider.call, hc0, hc1, hc2, hid, reject, log, saveState, emit] at h
    subst h
    exact ⟨rfl, hid⟩

theorem ensureRouteTable_events (p : Provider) (s : State) :
    ∀ e ∈ (ensureRouteTable p s).events, truthy s.RouteTableId = false ∧
      ∀ c, e = .call c → c.provisions = some .routeTable := by
  intro e he
  unfold ensureRouteTable at he
  by_cases hk : truthy s.RouteTableId = true
  · simp [hk] at he
  · cases hid : truthy p.createRouteTable <;>
      cases hc0 : p.fails (.createRouteTable s.VpcId) <;>
      cases hc1 : p.fails (.createRoute "DestinationCidrBlock" "0.0.0.0/0" s.InternetGatewayId
      p.createRouteTable) <;>
      cases hc2 : p.fails (.createRoute "DestinationIpv6CidrBlock" "::/0" s.InternetGatewayId
      p.createRouteTable) <;>
      simp [hk, Provider.call, hc0, hc1, hc2, hid, reject, log, saveState, emit] at he <;>
      refine ⟨by simpa using hk, ?_⟩ <;> intro c hcall <;> subst hcall <;>
      first
        | rfl
        | (simp at he; subst he; rfl)
        | (simp at he; rcases he with rfl | rfl <;> rfl)
        | (simp at he; rcases he with rfl | rfl | rfl <;> rfl)

theorem ensureSubnet_result (p : Provider) (s s' : State)
    (h : (ensureSubnet p s).result = .ok s') :
    s' = { s with SubnetId := s'.SubnetId } ∧ truthy s'.SubnetId = true := by
  unfold ensureSubnet at h
  by_cases hk : truthy s.SubnetId = true
  · simp [hk] at h
    subst h
    exact ⟨rfl, hk⟩
  · cases hid : truthy p.createSubnet <;>
      cases hc0 : p.fails (.createSubnet "10.0.0.0/16" s.VpcId) <;>
      simp [hk, Provider.call, hc0, hid, reject, log, saveState, emit] at h
    subst h
    exact ⟨rfl, hid⟩

theorem ensureSubnet_events (p : Provider) (s : State) :
    ∀ e ∈ (ensureSubnet p s).events, truthy s.SubnetId = false ∧
      ∀ c, e = .call c → c.provisions = some .subnet := by
  intro e he
  unfold ensureSubnet at he
  by_cases hk : truthy s.SubnetId = true
  · simp [hk] at he
  · cases hid : truthy p.createSubnet <;>
      cases hc0 : p.fails (.createSubnet "10.0.0.0/16" s.VpcId) <;>
      simp [hk, Provider.call, hc0, hid, reject, log, saveState, emit] at he <;>
      refine ⟨by simpa using hk, ?_⟩ <;> intro c hcall <;> subst hcall <;>
      first
        | rfl
        | (simp at he; subst he; rfl)

theorem ensureRouteTableAssociation_result (p : Provider) (s s' : State)
    (h : (ensureRouteTableAssociation p s).result = .ok s') :
    s' = { s with RouteTableAssociationId := s'.RouteTableAssociationId } ∧ truthy s'.RouteTableAssociationId = true := by
  unfold ensureRouteTableAssociation at h
  by_cases hk : truthy s.RouteTableAssociationId = true
  · simp [hk] at h
    subst h
    exact ⟨rfl, hk⟩
  · cases hid : truthy p.associateRouteTable <;>
      cases hc0 : p.fails (.associateRouteTable s.RouteTableId s.SubnetId) <;>
      simp [hk, Provider.call, hc0, hid, reject, log, saveState, emit] at h
    subst h
    exact ⟨rfl, hid⟩

theorem ensureRouteTableAssociation_events (p : Provider) (s : State) :
    ∀ e ∈ (ensureRouteTableAssociation p s).events, truthy s.RouteTableAssociationId = false ∧
      ∀ c, e = .call c → c.provisions = some .association := by
  intro e he
  unfold ensureRouteTableAssociation at he
  by_cases hk : truthy s.RouteTableAssociationId = true
  · simp [hk] at he
  · cases hid : truthy p.associateRouteTable <;>
      cases hc0 : p.fails (.associateRouteTable s.RouteTableId s.SubnetId) <;>
      simp [hk, Provider.call, hc0, hid, reject, log, saveState, emit] at he <;>
      refine ⟨by simpa using hk, ?_⟩ <;> intro c hcall <;> subst hcall <;>
      first
        | rfl
        | (simp at he; subst he; rfl)

theorem ensureVpc_spec (p : Provider) : StepSpec (ensureVpc p) .vpc := by
  refine ⟨fun s s' h => ?_, fun s e he => ensureVpc_events p s e he⟩
  obtain ⟨h1, h2⟩ := ensureVpc_result p s s' h
  refine ⟨h2, fun r' hr' => ?_⟩
  rw [h1]
  cases r' <;> first | rfl | exact absurd rfl hr'

theorem ensureInternetGateway_spec (p : Provider) : StepSpec (ensureInternetGateway p) .gateway := by
  refine ⟨fun s s' h => ?_, fun s e he => ensureInternetGateway_events p s e he⟩
  obtain ⟨h1, h2⟩ := ensureInternetGateway_result p s s' h
  refine ⟨h2, fun r' hr' => ?_⟩
  rw [h1]
  cases r' <;> first | rfl | exact absurd rfl hr'

theorem ensureSecurityGroup_spec (p : Provider) (input : Instance) : StepSpec (ensureSecurityGroup p input) .securityGroup := by
  refine ⟨fun s s' h => ?_, fun s e he => ensureSecurityGroup_events p input s e he⟩
  obtain ⟨h1, h2⟩ := ensureSecurityGroup_result p input s s' h
  refine ⟨h2, fun r' hr' => ?_⟩
  rw [h1]
  cases r' <;> first | rfl | exact absurd rfl hr'

theorem ensureNetworkAcl_spec (p : Provider) : StepSpec (ensureNetworkAcl p) .acl := by
  refine ⟨fun s s' h => ?_, fun s e he => ensureNetworkAcl_events p s e he⟩
  obtain ⟨h1, h2⟩ := ensureNetworkAcl_result p s s' h
  refine ⟨h2, fun r' hr' => ?_⟩
  rw [h1]
  cases r' <;> first | rfl | exact absurd rfl hr'

theorem ensureRouteTable_spec (p : Provider) : StepSpec (ensureRouteTable p) .routeTable := by
  refine ⟨fun s s' h => ?_, fun s e he => ensureRouteTable_events p s e he⟩
  obtain ⟨h1, h2⟩ := ensureRouteTable_result p s s' h
  refine ⟨h2, fun r' hr' => ?_⟩
  rw [h1]
  cases r' <;> first | rfl | exact absurd rfl hr'

theorem ensureSubnet_spec (p : Provider) : StepSpec (ensureSubnet p) .subnet := by
  refine ⟨fun s s' h => ?_, fun s e he => ensureSubnet_events p s e he⟩
  obtain ⟨h1, h2⟩ := ensureSubnet_result p s s' h
  refine ⟨h2, fun r' hr' => ?_⟩
  rw [h1]
  cases r' <;> first | rfl | exact absurd rfl hr'

theorem ensureRouteTableAssociation_spec (p : Provider) : StepSpec (ensureRouteTableAssociation p) .association := by
  refine ⟨fun s s' h => ?_, fun s e he => ensureRouteTableAssociation_events p s e he⟩
  obtain ⟨h1, h2⟩ := ensureRouteTableAssociation_result p s s' h
  refine ⟨h2, fun r' hr' => ?_⟩
  rw [h1]
  cases r' <;> first | rfl | exact absurd rfl hr'

theorem gated_bind {β : Type} {f : State → Outcome State} {r : Role} (hf : StepSpec f r)
    (s : State) (g : State → Outcome β) (hg : ∀ s1, ∀ e ∈ (g s1).events, Gated s1 e) :
    ∀ e ∈ (Outcome.bind (f s) g).events, Gated s e := by
  apply forall_bind_events
  · intro e he c r' hc hr'
    obtain ⟨h1, h2⟩ := hf.2 s e he
    rw [h2 c hc] at hr'
    cases hr'
    exact h1
  · intro s1 hs1 e he c r' hc hr'
    obtain ⟨ht, hk⟩ := hf.1 s s1 hs1
    have hg' := hg s1 e he c r' hc hr'
    by_cases hrr : r' = r
    · subst hrr
      rw [ht] at hg'
      cases hg'
    · rw [← hk r' hrr]
      exact hg'

theorem ensureNetwork_gated (p : Provider) (input : Instance) (s : State) :
    ∀ e ∈ (ensureNetwork p input s).events, Gated s e := by
  unfold ensureNetwork
  cases input.awsVpcConfiguration with
  | some cfg => intro e he; cases he
  | none =>
    simp only [bind_eq]
    refine gated_bind (ensureVpc_spec p) s _ fun s1 => ?_
    refine gated_bind (ensureInternetGateway_spec p) s1 _ fun s2 => ?_
    refine gated_bind (ensureSecurityGroup_spec p input) s2 _ fun s3 => ?_
    refine gated_bind (ensureNetworkAcl_spec p) s3 _ fun s4 => ?_
    refine gated_bind (ensureRouteTable_spec p) s4 _ fun s5 => ?_
    refine gated_bind (ensureSubnet_spec p) s5 _ fun s6 => ?_
    refine gated_bind (ensureRouteTableAssociation_spec p) s6 _ fun s7 => ?_
    intro e he
    cases he

theorem ensureNetwork_result (p : Provider) (input : Instance) (s s' : State)
    (securityGroups subnets : List (Option String))
    (hnone : input.awsVpcConfiguration = none)
    (h : (ensureNetwork p input s).result = .ok (securityGroups, subnets, s')) :
    (∀ r, truthy (s'.key r) = true) ∧ securityGroups = [s'.SecurityGroupId] ∧
      subnets = [s'.SubnetId] := by
  unfold ensureNetwork at h
  rw [hnone] at h
  simp only [bind_eq] at h
  obtain ⟨s1, h1, h⟩ := bind_result_ok h
  obtain ⟨s2, h2, h⟩ := bind_result_ok h
  obtain ⟨s3, h3, h⟩ := bind_result_ok h
  obtain ⟨s4, h4, h⟩ := bind_result_ok h
  obtain ⟨s5, h5, h⟩ := bind_result_ok h
  obtain ⟨s6, h6, h⟩ := bind_result_ok h
  obtain ⟨s7, h7, h⟩ := bind_result_ok h
  simp only [pure_eq, Result.ok.injEq, Prod.mk.injEq] at h
  obtain ⟨rfl, rfl, rfl⟩ := h
  obtain ⟨t1, -⟩ := (ensureVpc_spec p).1 _ _ h1
  obtain ⟨t2, k2⟩ := (ensureInternetGateway_spec p).1 _ _ h2
  obtain ⟨t3, k3⟩ := (ensureSecurityGroup_spec p input).1 _ _ h3
  obtain ⟨t4, k4⟩ := (ensureNetworkAcl_spec p).1 _ _ h4
  obtain ⟨t5, k5⟩ := (ensureRouteTable_spec p).1 _ _ h5
  obtain ⟨t6, k6⟩ := (ensureSubnet_spec p).1 _ _ h6
  obtain ⟨t7, k7⟩ := (ensureRouteTableAssociation_spec p).1 _ _ h7
  refine ⟨fun r => ?_, rfl, rfl⟩
  cases r
  · rw [k7 _ (by decide), k6 _ (by decide), k5 _ (by decide), k4 _ (by decide),
      k3 _ (by decide), k2 _ (by decide)]
    exact t1
  · rw [k7 _ (by decide), k6 _ (by decide), k5 _ (by decide), k4 _ (by decide),
      k3 _ (by decide)]
    exact t2
  · rw [k7 _ (by decide), k6 _ (by decide), k5 _ (by decide), k4 _ (by decide)]
    exact t3
  · rw [k7 _ (by decide), k6 _ (by decide), k5 _ (by decide)]
    exact t4
  · rw [k7 _ (by decide), k6 _ (by decide)]
    exact t5
  · rw [k7 _ (by decide)]
    exact t6
  · exact t7

theorem ensureNetwork_skip (p : Provider) (input : Instance) (s : State)
    (hnone : input.awsVpcConfiguration = none) (hkeys : ∀ r, truthy (s.key r) = true) :
    ensureNetwork p input s = ⟨[], .ok ([s.SecurityGroupId], [s.SubnetId], s)⟩ := by
  unfold ensureNetwork
  rw [hnone]
  simp only [bind_eq]
  rw [ensureVpc_skip p s (hkeys .vpc), bind_ok,
    ensureInternetGateway_skip p s (hkeys .gateway), bind_ok,
    ensureSecurityGroup_skip p input s (hkeys .securityGroup), bind_ok,
    ensureNetworkAcl_skip p s (hkeys .acl), bind_ok,
    ensureRouteTable_skip p s (hkeys .routeTable), bind_ok,
    ensureSubnet_skip p s (hkeys .subnet), bind_ok,
    ensureRouteTableAssociation_skip p s (hkeys .association), bind_ok]
  rfl

theorem waitUntil_events (p : Provider) (limit : Nat) :
    ∀ (fuel round : Nat) (taskArns : Option (List String)) (currentTry : Nat),
      ∀ e ∈ (waitUntilTaskChangeFinishes p fuel round taskArns currentTry limit).events,
        (∃ a, e = .call (.describeTasks a)) ∨ e = .sleep 10000 := by
  intro fuel
  induction fuel with
  | zero => intro round taskArns currentTry e he; simp [waitUntilTaskChangeFinishes] at he
  | succ n ih =>
    intro round taskArns currentTry e he
    rw [waitUntilTaskChangeFinishes] at he
    split at he
    · simp at he
      exact Or.inl ⟨_, he⟩
    · simp only [emit, bind_ok, List.singleton_append, List.mem_cons] at he
      rcases he with he | he
      · exact Or.inl ⟨_, he⟩
      · split at he
        · simp [reject] at he
        · split at he
          · simp only [sleep, emit, bind_ok, List.singleton_append, List.mem_cons] at he
            rcases he with he | he
            · exact Or.inr he
            · exact ih _ _ _ e he
          · simp at he

theorem catchTasks_events (x : Outcome (List Task)) : (catchTasks x).events = x.events := by
  unfold catchTasks
  split <;> rfl

theorem collectMetadata_events (p : Provider) (tasks : TasksValue) :
    ∀ e ∈ (collectMetadata p tasks).events, ∃ ids, e = .call (.describeNetworkInterfaces ids) := by
  intro e he
  unfold collectMetadata at he
  split at he
  · simp only at he
    split at he
    · simp only [bind_eq, pure_eq, Provider.call] at he
      unfold Outcome.bind at he
      split at he <;> simp at he <;> exact ⟨_, he⟩
    · simp at he
  · simp at he

theorem settled_call (s : State) (p : Provider) (c : Call) (hc : c.provisions = none) :
    ∀ e ∈ (p.call c).events, Settled s e := by
  intro e he
  simp only [Provider.call, List.mem_singleton] at he
  subst he
  exact ⟨fun c' h => (by cases h; exact hc), fun s' h => by cases h⟩

theorem settled_log (s : State) (msg : String) : ∀ e ∈ (log msg).events, Settled s e := by
  intro e he
  simp only [log, emit, List.mem_singleton] at he
  subst he
  exact ⟨fun c' h => (by cases h), fun s' h => by cases h⟩

theorem settled_sleep (s : State) (ms : Nat) : ∀ e ∈ (sleep ms).events, Settled s e := by
  intro e he
  simp only [sleep, emit, List.mem_singleton] at he
  subst he
  exact ⟨fun c' h => (by cases h), fun s' h => by cases h⟩

theorem settled_saveState (s t : State) (ht : ∀ r, t.key r = s.key r) :
    ∀ e ∈ (saveState t).events, Settled s e := by
  intro e he
  simp only [saveState, emit, List.mem_singleton] at he
  subst he
  exact ⟨fun c' h => (by cases h), fun s' h => (by cases h; exact ht)⟩

theorem deployService_settled (p : Provider) (fuel : Nat) (input : Instance)
    (securityGroups subnets : List (Option String)) (s : State) :
    ∀ e ∈ (deployService p fuel input securityGroups subnets s).events, Settled s e := by
  unfold deployService
  simp only [bind_eq]
  refine forall_bind_events (settled_call s p _ rfl) fun _ _ => ?_
  refine forall_bind_events (settled_saveState s _ fun r => by cases r <;> rfl) fun _ _ => ?_
  refine forall_bind_events (settled_log s _) fun _ _ => ?_
  refine forall_bind_events (settled_sleep s _) fun _ _ => ?_
  refine forall_bind_events (settled_call s p _ rfl) fun _ _ => ?_
  refine forall_bind_events ?_ fun tasks _ => ?_
  · intro e he
    rw [catchTasks_events] at he
    rcases waitUntil_events p 10 fuel 0 p.listTasks 0 e he with ⟨a, rfl⟩ | rfl
    · exact ⟨fun c' h => (by cases h; rfl), fun s' h => by cases h⟩
    · exact ⟨fun c' h => (by cases h), fun s' h => by cases h⟩
  refine forall_bind_events (settled_log s _) fun _ _ => ?_
  refine forall_bind_events ?_ fun m _ => ?_
  · intro e he
    obtain ⟨ids, rfl⟩ := collectMetadata_events p tasks e he
    exact ⟨fun c' h => (by cases h; rfl), fun s' h => by cases h⟩
  refine forall_bind_events (settled_saveState s _ fun r => by cases r <;> rfl) fun _ _ => ?_
  refine forall_bind_events (settled_log s _) fun _ _ => ?_
  intro e he
  cases he

theorem deployService_saved_ne (p : Provider) (fuel : Nat) (input : Instance)
    (securityGroups subnets : List (Option String)) (s : State)
    (hcall : p.fails (.serviceDeploy input.serviceName
      (input.td.family ++ ":" ++ input.td.revision) input.desiredCount
      (if input.exposePublicly then "ENABLED" else "DISABLED") securityGroups subnets) = false) :
    savedStates (deployService p fuel input securityGroups subnets s).events ≠ [] := by
  unfold deployService
  simp only [bind_eq, Provider.call, hcall, saveState, emit, bind_ok]
  simp [savedStates]

theorem deployService_call_of_ok (p : Provider) (fuel : Nat) (input : Instance)
    (securityGroups subnets : List (Option String)) (s : State) (out : Outputs)
    (h : (deployService p fuel input securityGroups subnets s).result = .ok out) :
    p.fails (.serviceDeploy input.serviceName
      (input.td.family ++ ":" ++ input.td.revision) input.desiredCount
      (if input.exposePublicly then "ENABLED" else "DISABLED") securityGroups subnets) = false := by
  unfold deployService at h
  simp only [bind_eq] at h
  obtain ⟨_, h1, -⟩ := bind_result_ok h
  cases hc : p.fails (.serviceDeploy input.serviceName
      (input.td.family ++ ":" ++ input.td.revision) input.desiredCount
      (if input.exposePublicly then "ENABLED" else "DISABLED") securityGroups subnets)
  · rfl
  · simp [Provider.call, hc] at h1

theorem deploy_eq (p : Provider) (fuel : Nat) (input : Instance) (s : State) :
    deploy p fuel input s =
      Outcome.bind (saveState { s with taskDefinition := some input.td }) fun _ =>
      Outcome.bind (ensureNetwork p input { s with taskDefinition := some input.td }) fun x =>
      deployService p fuel input x.1 x.2.1 x.2.2 := rfl

theorem deploy_gated (p : Provider) (fuel : Nat) (input : Instance) (s : State) :
    ∀ e ∈ (deploy p fuel input s).events, Gated s e := by
  rw [deploy_eq]
  refine forall_bind_events ?_ fun _ _ => ?_
  · intro e he c r hc
    simp only [saveState, emit, List.mem_singleton] at he
    subst he
    cases hc
  refine forall_bind_events ?_ fun x _ => ?_
  · intro e he c r hc hr
    have := ensureNetwork_gated p input _ e he c r hc hr
    cases r <;> exact this
  · intro e he c r hc hr
    have := (deployService_settled p fuel input x.1 x.2.1 x.2.2 e he).1 c hc
    rw [this] at hr
    cases hr

theorem getLast?_mem_right {α : Type} {A B : List α} {x : α}
    (h : (A ++ B).getLast? = some x) (hB : B ≠ []) : x ∈ B := by
  rw [List.getLast?_append] at h
  cases hb : B.getLast? with
  | none => exact absurd (List.getLast?_eq_none_iff.1 hb) hB
  | some b =>
    rw [hb] at h
    simp at h
    subst h
    exact List.mem_of_getLast?_eq_some hb

theorem savedStates_append (xs ys : List Event) :
    savedStates (xs ++ ys) = savedStates xs ++ savedStates ys := by
  simp [savedStates]

/-- The last state saved by a `deploy` whose network phase resolved with `s7` and whose
service deployment call succeeded has the network keys of `s7`. -/
theorem deploy_lastSaved (p : Provider) (fuel : Nat) (input : Instance) (s s7 s1 : State)
    (securityGroups subnets : List (Option String))
    (hnet : (ensureNetwork p input { s with taskDefinition := some input.td }).result
      = .ok (securityGroups, subnets, s7))
    (hcall : p.fails (.serviceDeploy input.serviceName
      (input.td.family ++ ":" ++ input.td.revision) input.desiredCount
      (if input.exposePublicly then "ENABLED" else "DISABLED") securityGroups subnets) = false)
    (hlast : (savedStates (deploy p fuel input s).events).getLast? = some s1) :
    ∀ r, s1.key r = s7.key r := by
  rw [deploy_eq, saveState, emit, bind_ok, bind_of_ok hnet] at hlast
  simp only [← List.append_assoc] at hlast
  rw [savedStates_append] at hlast
  have hmem := getLast?_mem_right hlast
    (deployService_saved_ne p fuel input securityGroups subnets s7 hcall)
  exact (deployService_settled p fuel input securityGroups subnets s7 _
    (mem_savedStates.1 hmem)).2 s1 rfl

theorem key_taskDefinition (s : State) (td : Option TaskDefinition) (r : Role) :
    ({ s with taskDefinition := td } : State).key r = s.key r := by
  cases r <;> rfl

theorem provisions_of_creates {c : Call} {r : Role} (h : c.creates = some r) :
    c.provisions = some r := by
  cases c <;> simp_all [Call.creates, Call.provisions]

theorem createdRoles_append (xs ys : List Event) :
    createdRoles (xs ++ ys) = createdRoles xs ++ createdRoles ys := by
  simp [createdRoles]

theorem deployService_createdRoles (p : Provider) (fuel : Nat) (input : Instance)
    (securityGroups subnets : List (Option String)) (s : State) :
    createdRoles (deployService p fuel input securityGroups subnets s).events = [] := by
  unfold createdRoles
  apply List.filterMap_eq_nil_iff.2
  intro c hc
  have := (deployService_settled p fuel input securityGroups subnets s _
    (mem_callsOf.1 hc)).1 c rfl
  cases h : c.creates with
  | none => rfl
  | some r => rw [provisions_of_creates h] at this; cases this

theorem deploy_createdRoles (p : Provider) (fuel : Nat) (input : Instance) (s : State) :
    createdRoles (deploy p fuel input s).events =
      createdRoles (ensureNetwork p input { s with taskDefinition := some input.td }).events := by
  rw [deploy_eq, saveState, emit, bind_ok]
  cases h : (ensureNetwork p input { s with taskDefinition := some input.td }).result with
  | ok x =>
    rw [bind_of_ok h]
    simp only [createdRoles_append, deployService_createdRoles, List.append_nil]
    rfl
  | rejected r =>
    unfold Outcome.bind
    rw [h]
    rfl
  | pending =>
    unfold Outcome.bind
    rw [h]
    rfl

/-- C5: when a first `deploy` without explicit network configuration completes, the state
it saved last has all seven network keys populated, and a second `deploy` started from that
state, whatever the provider does then, issues no network-provisioning call (no create,
attach, authorize, route or associate call) and saves only states with the same seven
network identifiers. -/
theorem second_deploy_creates_nothing (p₁ p₂ : Provider) (fuel₁ fuel₂ : Nat)
    (input : Instance) (s₀ s₁ : State) (out : Outputs)
    (hnone : input.awsVpcConfiguration = none)
    (hdone : (deploy p₁ fuel₁ input s₀).result = .ok out)
    (hlast : (savedStates (deploy p₁ fuel₁ input s₀).events).getLast? = some s₁) :
    (∀ r, truthy (s₁.key r) = true) ∧
    (∀ c ∈ callsOf (deploy p₂ fuel₂ input s₁).events, c.provisions = none) ∧
    savedStates (deploy p₂ fuel₂ input s₁).events ≠ [] ∧
    (∀ s ∈ savedStates (deploy p₂ fuel₂ input s₁).events, ∀ r, s.key r = s₁.key r) := by
  have hkeys : ∀ r, truthy (s₁.key r) = true := by
    have h := hdone
    rw [deploy_eq] at h
    obtain ⟨_, -, h⟩ := bind_result_ok h
    obtain ⟨⟨sg, sn, s7⟩, hnet, hsvc⟩ := bind_result_ok h
    have hcall := deployService_call_of_ok p₁ fuel₁ input sg sn s7 out hsvc
    intro r
    rw [deploy_lastSaved p₁ fuel₁ input s₀ s7 s₁ sg sn hnet hcall hlast r]
    exact (ensureNetwork_result p₁ input _ s7 sg sn hnone hnet).1 r
  refine ⟨hkeys, ?_, ?_, ?_⟩
  · intro c hc
    cases h : c.provisions with
    | none => rfl
    | some r =>
      have := deploy_gated p₂ fuel₂ input s₁ _ (mem_callsOf.1 hc) c r rfl h
      rw [hkeys r] at this
      cases this
  · rw [deploy_eq, saveState, emit, bind_ok]
    simp [savedStates]
  · intro s hs r
    rw [deploy_eq, saveState, emit, bind_ok,
      ensureNetwork_skip p₂ input _ hnone (fun r => by rw [key_taskDefinition]; exact hkeys r), bind_ok] at hs
    have hs' := mem_savedStates.1 hs
    simp only [List.singleton_append, List.nil_append, List.mem_cons] at hs'
    rcases hs' with hs' | hs'
    · cases hs'
      cases r <;> rfl
    · have := (deployService_settled p₂ fuel₂ input _ _ _ _ hs').2 s rfl r
      rw [this]
      cases r <;> rfl

/-- C5 on the sample provider, from the empty state. -/
theorem second_deploy_creates_nothing_witness :
    sampleInput.awsVpcConfiguration = none ∧
    (deploy sampleProvider 3 sampleInput {}).result
      = .ok ⟨some "arn:service", some "service", [], [], []⟩ ∧
    (savedStates (deploy sampleProvider 3 sampleInput {}).events).getLast?
      = some provisionedState ∧
    ((∀ r, truthy (provisionedState.key r) = true) ∧
    (∀ c ∈ callsOf (deploy sampleProvider 3 sampleInput provisionedState).events,
      c.provisions = none) ∧
    savedStates (deploy sampleProvider 3 sampleInput provisionedState).events ≠ [] ∧
    (∀ s ∈ savedStates (deploy sampleProvider 3 sampleInput provisionedState).events,
      ∀ r, s.key r = provisionedState.key r)) :=
  ⟨rfl, by decide, by decide,
    second_deploy_creates_nothing sampleProvider sampleProvider 3 3 sampleInput {}
      provisionedState ⟨some "arn:service", some "service", [], [], []⟩ rfl (by decide)
      (by decide)⟩

theorem ensureVpc_ok (p : Provider) (hok : ∀ c, p.fails c = false)
    (hid : truthy p.createVpc = true) (s : State) :
    (∃ s', (ensureVpc p s).result = .ok s' ∧ ∀ r, r ≠ .vpc → s'.key r = s.key r) ∧
    createdRoles (ensureVpc p s).events = [Role.vpc].filter fun r => !truthy (s.key r) := by
  by_cases hk : truthy s.VpcId = true
  · rw [ensureVpc_skip p s hk]
    exact ⟨⟨s, rfl, fun _ _ => rfl⟩, by simp [createdRoles, State.key, hk]⟩
  · have hk' : truthy s.VpcId = false := by simpa using hk
    rw [ensureVpc_created p s hk' (hok _) hid]
    refine ⟨⟨_, rfl, fun r hr => ?_⟩, by simp [createdRoles, Call.creates, State.key, hk']⟩
    cases r <;> first | rfl | exact absurd rfl hr

theorem ensureInternetGateway_ok (p : Provider) (hok : ∀ c, p.fails c = false)
    (hid : truthy p.createInternetGateway = true) (s : State) :
    (∃ s', (ensureInternetGateway p s).result = .ok s' ∧ ∀ r, r ≠ .gateway → s'.key r = s.key r) ∧
    createdRoles (ensureInternetGateway p s).events = [Role.gateway].filter fun r => !truthy (s.key r) := by
  by_cases hk : truthy s.InternetGatewayId = true
  · rw [ensureInternetGateway_skip p s hk]
    exact ⟨⟨s, rfl, fun _ _ => rfl⟩, by simp [createdRoles, State.key, hk]⟩
  · have hk' : truthy s.InternetGatewayId = false := by simpa using hk
    rw [ensureInternetGateway_created p s hk' (hok _) (hok _) hid]
    refine ⟨⟨_, rfl, fun r hr => ?_⟩, by simp [createdRoles, Call.creates, State.key, hk']⟩
    cases r <;> first | rfl | exact absurd rfl hr

theorem ensureSecurityGroup_ok (p : Provider) (input : Instance) (hok : ∀ c, p.fails c = false)
    (hid : truthy p.createSecurityGroup = true) (s : State) :
    (∃ s', (ensureSecurityGroup p input s).result = .ok s' ∧ ∀ r, r ≠ .securityGroup → s'.key r = s.key r) ∧
    createdRoles (ensureSecurityGroup p input s).events = [Role.securityGroup].filter fun r => !truthy (s.key r) := by
  by_cases hk : truthy s.SecurityGroupId = true
  · rw [ensureSecurityGroup_skip p input s hk]
    exact ⟨⟨s, rfl, fun _ _ => rfl⟩, by simp [createdRoles, State.key, hk]⟩
  · have hk' : truthy s.SecurityGroupId = false := by simpa using hk
    rw [ensureSecurityGroup_created p input s hk' (hok _) (hok _) (hok _) hid]
    refine ⟨⟨_, rfl, fun r hr => ?_⟩, by simp [createdRoles, Call.creates, State.key, hk']⟩
    cases r <;> first | rfl | exact absurd rfl hr

theorem ensureNetworkAcl_ok (p : Provider) (hok : ∀ c, p.fails c = false)
    (hid : truthy p.createNetworkAcl = true) (s : State) :
    (∃ s', (ensureNetworkAcl p s).result = .ok s' ∧ ∀ r, r ≠ .acl → s'.key r = s.key r) ∧
    createdRoles (ensureNetworkAcl p s).events = [Role.acl].filter fun r => !truthy (s.key r) := by
  by_cases hk : truthy s.NetworkAclId = true
  · rw [ensureNetworkAcl_skip p s hk]
    exact ⟨⟨s, rfl, fun _ _ => rfl⟩, by simp [createdRoles, State.key, hk]⟩
  · have hk' : truthy s.NetworkAclId = false := by simpa using hk
    rw [ensureNetworkAcl_created p s hk' (hok _) hid]
    refine ⟨⟨_, rfl, fun r hr => ?_⟩, by simp [createdRoles, Call.creates, State.key, hk']⟩
    cases r <;> first | rfl | exact absurd rfl hr

theorem ensureRouteTable_ok (p : Provider) (hok : ∀ c, p.fails c = false)
    (hid : truthy p.createRouteTable = true) (s : State) :
    (∃ s', (ensureRouteTable p s).result = .ok s' ∧ ∀ r, r ≠ .routeTable → s'.key r = s.key r) ∧
    createdRoles (ensureRouteTable p s).events = [Role.routeTable].filter fun r => !truthy (s.key r) := by
  by_cases hk : truthy s.RouteTableId = true
  · rw [ensureRouteTable_skip p s hk]
    exact ⟨⟨s, rfl, fun _ _ => rfl⟩, by simp [createdRoles, State.key, hk]⟩
  · have hk' : truthy s.RouteTableId = false := by simpa using hk
    rw [ensureRouteTable_created p s hk' (hok _) (hok _) (hok _) hid]
    refine ⟨⟨_, rfl, fun r hr => ?_⟩, by simp [createdRoles, Call.creates, State.key, hk']⟩
    cases r <;> first | rfl | exact absurd rfl hr

theorem ensureSubnet_ok (p : Provider) (hok : ∀ c, p.fails c = false)
    (hid : truthy p.createSubnet = true) (s : State) :
    (∃ s', (ensureSubnet p s).result = .ok s' ∧ ∀ r, r ≠ .subnet → s'.key r = s.key r) ∧
    createdRoles (ensureSubnet p s).events = [Role.subnet].filter fun r => !truthy (s.key r) := by
  by_cases hk : truthy s.SubnetId = true
  · rw [ensureSubnet_skip p s hk]
    exact ⟨⟨s, rfl, fun _ _ => rfl⟩, by simp [createdRoles, State.key, hk]⟩
  · have hk' : truthy s.SubnetId = false := by simpa using hk
    rw [ensureSubnet_created p s hk' (hok _) hid]
    refine ⟨⟨_, rfl, fun r hr => ?_⟩, by simp [createdRoles, Call.creates, State.key, hk']⟩
    cases r <;> first | rfl | exact absurd rfl hr

theorem ensureRouteTableAssociation_ok (p : Provider) (hok : ∀ c, p.fails c = false)
    (hid : truthy p.associateRouteTable = true) (s : State) :
    (∃ s', (ensureRouteTableAssociation p s).result = .ok s' ∧ ∀ r, r ≠ .association → s'.key r = s.key r) ∧
    createdRoles (ensureRouteTableAssociation p s).events = [Role.association].filter fun r => !truthy (s.key r) := by
  by_cases hk : truthy s.RouteTableAssociationId = true
  · rw [ensureRouteTableAssociation_skip p s hk]
    exact ⟨⟨s, rfl, fun _ _ => rfl⟩, by simp [createdRoles, State.key, hk]⟩
  · have hk' : truthy s.RouteTableAssociationId = false := by simpa using hk
    rw [ensureRouteTableAssociation_created p s hk' (hok _) hid]
    refine ⟨⟨_, rfl, fun r hr => ?_⟩, by simp [createdRoles, Call.creates, State.key, hk']⟩
    cases r <;> first | rfl | exact absurd rfl hr

theorem ensureNetwork_ok (p : Provider) (input : Instance) (s : State)
    (hnone : input.awsVpcConfiguration = none) (hok : ∀ c, p.fails c = false)
    (hids : ∀ r, truthy (p.created r) = true) :
    (∃ x, (ensureNetwork p input s).result = .ok x) ∧
    createdRoles (ensureNetwork p input s).events
      = Role.all.filter fun r => !truthy (s.key r) := by
  unfold ensureNetwork
  rw [hnone]
  simp only [bind_eq]
  obtain ⟨⟨s1, h1, k1⟩, e1⟩ := ensureVpc_ok p hok (hids .vpc) s
  obtain ⟨⟨s2, h2, k2⟩, e2⟩ := ensureInternetGateway_ok p hok (hids .gateway) s1
  obtain ⟨⟨s3, h3, k3⟩, e3⟩ := ensureSecurityGroup_ok p input hok (hids .securityGroup) s2
  obtain ⟨⟨s4, h4, k4⟩, e4⟩ := ensureNetworkAcl_ok p hok (hids .acl) s3
  obtain ⟨⟨s5, h5, k5⟩, e5⟩ := ensureRouteTable_ok p hok (hids .routeTable) s4
  obtain ⟨⟨s6, h6, k6⟩, e6⟩ := ensureSubnet_ok p hok (hids .subnet) s5
  obtain ⟨⟨s7, h7, -⟩, e7⟩ := ensureRouteTableAssociation_ok p hok (hids .association) s6
  rw [bind_of_ok h1, bind_of_ok h2, bind_of_ok h3, bind_of_ok h4, bind_of_ok h5,
    bind_of_ok h6, bind_of_ok h7]
  refine ⟨⟨_, rfl⟩, ?_⟩
  simp only [createdRoles_append, e1, e2, e3, e4, e5, e6, e7, pure_eq]
  simp only [List.filter_cons, List.filter_nil, Role.all,
    k6 _ (show Role.association ≠ Role.subnet by decide),
    k5 _ (show Role.association ≠ Role.routeTable by decide),
    k5 _ (show Role.subnet ≠ Role.routeTable by decide),
    k4 _ (show Role.association ≠ Role.acl by decide),
    k4 _ (show Role.subnet ≠ Role.acl by decide),
    k4 _ (show Role.routeTable ≠ Role.acl by decide),
    k3 _ (show Role.association ≠ Role.securityGroup by decide),
    k3 _ (show Role.subnet ≠ Role.securityGroup by decide),
    k3 _ (show Role.routeTable ≠ Role.securityGroup by decide),
    k3 _ (show Role.acl ≠ Role.securityGroup by decide),
    k2 _ (show Role.association ≠ Role.gateway by decide),
    k2 _ (show Role.subnet ≠ Role.gateway by decide),
    k2 _ (show Role.routeTable ≠ Role.gateway by decide),
    k2 _ (show Role.acl ≠ Role.gateway by decide),
    k2 _ (show Role.securityGroup ≠ Role.gateway by decide),
    k1 _ (show Role.association ≠ Role.vpc by decide),
    k1 _ (show Role.subnet ≠ Role.vpc by decide),
    k1 _ (show Role.routeTable ≠ Role.vpc by decide),
    k1 _ (show Role.acl ≠ Role.vpc by decide),
    k1 _ (show Role.securityGroup ≠ Role.vpc by decide),
    k1 _ (show Role.gateway ≠ Role.vpc by decide)]
  cases truthy (s.key .vpc) <;> cases truthy (s.key .gateway) <;>
    cases truthy (s.key .securityGroup) <;> cases truthy (s.key .acl) <;>
    cases truthy (s.key .routeTable) <;> cases truthy (s.key .subnet) <;>
    cases truthy (s.key .association) <;> rfl

theorem deploy_createdRoles_ok (p : Provider) (fuel : Nat) (input : Instance) (s : State)
    (hnone : input.awsVpcConfiguration = none) (hok : ∀ c, p.fails c = false)
    (hids : ∀ r, truthy (p.created r) = true) :
    createdRoles (deploy p fuel input s).events
      = Role.all.filter fun r => !truthy (s.key r) := by
  rw [deploy_createdRoles, (ensureNetwork_ok p input _ hnone hok hids).2]
  apply List.filter_congr
  intro r _
  rw [key_taskDefinition]

theorem filterMap_ite_nil {α β : Type} (f : α → Option β) (c : Prop) [Decidable c]
    (l : List α) :
    List.filterMap f (if c then l else []) = if c then List.filterMap f l else [] := by
  split <;> rfl

theorem filter_cons_append {α : Type} (f : α → Bool) (a : α) (l : List α) :
    List.filter f (a :: l) = (if f a = true then [a] else []) ++ List.filter f l := by
  by_cases h : f a = true <;> simp [List.filter_cons, h]

theorem filterMap_deletes_await (p : Provider) (fuel : Nat) (taskArns : Option (List String)) :
    (callsOf (awaitTaskRemoval p fuel taskArns).events).filterMap Call.deletes = [] := by
  apply List.filterMap_eq_nil_iff.2
  intro c hc
  obtain ⟨a, rfl⟩ := awaitTaskRemoval_calls p fuel taskArns c hc
  rfl

theorem filterMap_deletes_routeDeletions (p : Provider) :
    (routeDeletions p).filterMap Call.deletes = [] := by
  apply List.filterMap_eq_nil_iff.2
  intro c hc
  obtain ⟨ps, rfl⟩ := routeDeletions_forall p c hc
  rfl

theorem filterMap_deletes_aclEntryDeletions (p : Provider) (s : State) :
    (aclEntryDeletions p s).filterMap Call.deletes = [] := by
  apply List.filterMap_eq_nil_iff.2
  intro c hc
  obtain ⟨n, e, rfl⟩ := aclEntryDeletions_forall p s c hc
  rfl

/-- The roles deleted by a `remove` that completes: those whose key is populated, in the
teardown order. -/
theorem remove_deletedRoles (p : Provider) (fuel : Nat) (input : Instance) (s : State)
    (hok : ∀ c, p.fails c = false) (hsettle : TasksSettle p fuel) :
    deletedRoles (remove p fuel input s).events
      = Role.teardownOrder.filter fun r => truthy (s.key r) := by
  unfold deletedRoles
  rw [(remove_calls p hok fuel input s (awaitTaskRemoval_ok_of_settle p fuel hsettle)).2]
  simp only [Role.teardownOrder, filter_cons_append, List.filter_nil, List.append_nil,
    State.key]
  simp only [List.filterMap_cons, List.filterMap_append, filterMap_deletes_await,
    subResourceRemovalCalls, networkTeardownCalls, filterMap_ite_nil,
    filterMap_deletes_routeDeletions, filterMap_deletes_aclEntryDeletions,
    List.filterMap_nil, List.nil_append, List.append_nil, List.append_assoc, Call.deletes]
  cases s.service <;> cases truthy s.VpcId <;> simp <;> rfl

/-- C3 (as amended): for an instance provisioned by a `deploy` without explicit network
configuration from a state with no network key, every provider call succeeding with a
non-empty identifier, `deploy` creates the seven roles in the order VPC, gateway, security
group, ACL, route table, subnet, association, and the state it saved last has all seven
keys populated; a `remove` from that state on which every provider call succeeds and the
wait for the listed tasks finishes completes and deletes the same seven roles, each once,
in the order association, subnet, security group, gateway, route table, ACL, VPC: a
permutation of the reversed creation order. -/
theorem remove_deletes_created_roles_in_teardown_order (p₁ p₂ : Provider)
    (fuel₁ fuel₂ : Nat) (input : Instance) (s₀ s₁ : State)
    (hnone : input.awsVpcConfiguration = none)
    (hfresh : ∀ r, truthy (s₀.key r) = false)
    (hok₁ : ∀ c, p₁.fails c = false) (hids : ∀ r, truthy (p₁.created r) = true)
    (hlast : (savedStates (deploy p₁ fuel₁ input s₀).events).getLast? = some s₁)
    (hok₂ : ∀ c, p₂.fails c = false) (hsettle : TasksSettle p₂ fuel₂) :
    createdRoles (deploy p₁ fuel₁ input s₀).events
      = [.vpc, .gateway, .securityGroup, .acl, .routeTable, .subnet, .association] ∧
    (∀ r, truthy (s₁.key r) = true) ∧
    (remove p₂ fuel₂ input s₁).result = .ok () ∧
    deletedRoles (remove p₂ fuel₂ input s₁).events
      = [.association, .subnet, .securityGroup, .gateway, .routeTable, .acl, .vpc] ∧
    (deletedRoles (remove p₂ fuel₂ input s₁).events).Perm
      (createdRoles (deploy p₁ fuel₁ input s₀).events).reverse := by
  have hcreated : createdRoles (deploy p₁ fuel₁ input s₀).events = Role.all := by
    rw [deploy_createdRoles_ok p₁ fuel₁ input s₀ hnone hok₁ hids]
    apply List.filter_eq_self.2
    intro r _
    simp [hfresh r]
  have hkeys : ∀ r, truthy (s₁.key r) = true := by
    obtain ⟨⟨sg, sn, s7⟩, hnet⟩ := (ensureNetwork_ok p₁ input
      { s₀ with taskDefinition := some input.td } hnone hok₁ hids).1
    intro r
    rw [deploy_lastSaved p₁ fuel₁ input s₀ s7 s₁ sg sn hnet (hok₁ _) hlast r]
    exact (ensureNetwork_result p₁ input _ s7 sg sn hnone hnet).1 r
  have hdeleted : deletedRoles (remove p₂ fuel₂ input s₁).events = Role.teardownOrder := by
    rw [remove_deletedRoles p₂ fuel₂ input s₁ hok₂ hsettle]
    apply List.filter_eq_self.2
    intro r _
    exact hkeys r
  refine ⟨hcreated, hkeys,
    (remove_calls p₂ hok₂ fuel₂ input s₁ (awaitTaskRemoval_ok_of_settle p₂ fuel₂ hsettle)).1,
    hdeleted, ?_⟩
  rw [hdeleted, hcreated]
  decide

/-- C3 on the sample provider, from the empty state. -/
theorem remove_deletes_created_roles_in_teardown_order_witness :
    createdRoles (deploy sampleProvider 3 sampleInput {}).events
      = [.vpc, .gateway, .securityGroup, .acl, .routeTable, .subnet, .association] ∧
    (∀ r, truthy (provisionedState.key r) = true) ∧
    (remove sampleProvider 3 sampleInput provisionedState).result = .ok () ∧
    deletedRoles (remove sampleProvider 3 sampleInput provisionedState).events
      = [.association, .subnet, .securityGroup, .gateway, .routeTable, .acl, .vpc] ∧
    (deletedRoles (remove sampleProvider 3 sampleInput provisionedState).events).Perm
      (createdRoles (deploy sampleProvider 3 sampleInput {}).events).reverse :=
  remove_deletes_created_roles_in_teardown_order sampleProvider sampleProvider 3 3
    sampleInput {} provisionedState rfl (fun r => by cases r <;> rfl) (fun _ => rfl)
    (fun r => by cases r <;> rfl) (by decide) (fun _ => rfl) sampleProvider_settles

/-- C3 as stated fails: on a fully provisioned instance the delete sequence of `remove` is
not the reverse of the create sequence of `deploy` (the reverse would delete route table
and ACL before security group and gateway). -/
theorem remove_order_is_not_reverse_of_deploy :
    (savedStates (deploy sampleProvider 3 sampleInput {}).events).getLast?
      = some provisionedState ∧
    deletedRoles (remove sampleProvider 3 sampleInput provisionedState).events
      ≠ (createdRoles (deploy sampleProvider 3 sampleInput {}).events).reverse := by
  decide

/-! ## Rejection in the first round -/

theorem describeRounds_append (xs ys : List Event) :
    describeRounds (xs ++ ys) = describeRounds xs + describeRounds ys := by
  simp [describeRounds]

theorem describeRounds_pos (p : Provider) (fuel round : Nat) (taskArns : Option (List String))
    (currentTry limit : Nat) :
    1 ≤ describeRounds
      (waitUntilTaskChangeFinishes p (fuel + 1) round taskArns currentTry limit).events := by
  rw [waitUntilTaskChangeFinishes]
  split
  · simp
  · simp only [emit, bind_ok, List.singleton_append, describeRounds_cons_describe]
    omega

/-- When the `describeTasks` call of the first round returns the value `tasks`, the call is
rejected in that round if and only if `currentTry > limit` or `tasks` is not a list, and
then with `tasks` itself after that single call. -/
theorem waitUntil_first_round_of_response (p : Provider)
    (fuel round : Nat) (taskArns : Option (List String)) (currentTry limit : Nat)
    (tasks : TasksValue) (hresp : p.describeTasks round taskArns = .ok tasks) :
    (((∃ v, (waitUntilTaskChangeFinishes p (fuel + 1) round taskArns currentTry limit).result
          = .rejected v) ∧
        describeRounds
          (waitUntilTaskChangeFinishes p (fuel + 1) round taskArns currentTry limit).events = 1)
      ↔ (currentTry > limit ∨ tasks.isArray = false)) ∧
    ((currentTry > limit ∨ tasks.isArray = false) →
      waitUntilTaskChangeFinishes p (fuel + 1) round taskArns currentTry limit
        = ⟨[.call (.describeTasks taskArns)], .rejected (.tasks tasks)⟩) := by
  have hguard : (currentTry > limit ∨ tasks.isArray = false) →
      waitUntilTaskChangeFinishes p (fuel + 1) round taskArns currentTry limit
        = ⟨[.call (.describeTasks taskArns)], .rejected (.tasks tasks)⟩ := by
    intro h
    rw [waitUntilTaskChangeFinishes, hresp]
    have hc : (decide (currentTry > limit) || !tasks.isArray) = true := by
      rcases h with h | h
      · simp [h]
      · simp [h]
    simp only [emit, bind_ok, hc, if_true, reject]
    rfl
  refine ⟨⟨?_, fun h => ?_⟩, hguard⟩
  · rintro ⟨⟨v, hv⟩, hrounds⟩
    by_contra hno
    have hle : currentTry ≤ limit := by
      by_contra h
      exact hno (Or.inl (by omega))
    cases tasks with
    | other v' => exact hno (Or.inr rfl)
    | list ts =>
      by_cases hun : ∃ t ∈ ts, t.desiredStatus ≠ t.lastStatus
      · rw [waitUntil_step_unfinished p fuel round taskArns currentTry limit ts hresp hle hun]
          at hv hrounds
        cases fuel with
        | zero => simp [waitUntilTaskChangeFinishes] at hv
        | succ n =>
          have hpos := describeRounds_pos p n (round + 1)
            (some ((ts.filter Task.unfinished).map fun t => t.taskArn)) currentTry limit
          simp only [bind_ok, describeRounds_append, describeRounds_cons_describe,
            describeRounds_cons_sleep, describeRounds_nil] at hrounds
          omega
      · have hfin : ∀ t ∈ ts, t.desiredStatus = t.lastStatus := by
          intro t ht
          by_contra h
          exact hun ⟨t, ht, h⟩
        rw [waitUntil_step_finished p fuel round taskArns currentTry limit ts hresp hle hfin]
          at hv
        cases hv
  · rw [hguard h]
    exact ⟨⟨_, rfl⟩, by simp⟩

/-! ## Explicit network configuration -/

theorem deployService_calls (p : Provider) (fuel : Nat) (input : Instance)
    (securityGroups subnets : List (Option String)) (s : State) :
    ∀ e ∈ (deployService p fuel input securityGroups subnets s).events,
      ∀ c, e = .call c → IsServiceCall input securityGroups subnets c := by
  have hcall : ∀ c₀, IsServiceCall input securityGroups subnets c₀ →
      ∀ e ∈ (p.call c₀).events, ∀ c, e = .call c →
        IsServiceCall input securityGroups subnets c := by
    intro c₀ h₀ e he c hc
    simp only [Provider.call, List.mem_singleton] at he
    subst he
    cases hc
    exact h₀
  have hsave : ∀ t, ∀ e ∈ (saveState t).events, ∀ c, e = .call c →
      IsServiceCall input securityGroups subnets c := by
    intro t e he c hc
    simp only [saveState, emit, List.mem_singleton] at he
    subst he
    cases hc
  have hlog : ∀ m, ∀ e ∈ (log m).events, ∀ c, e = .call c →
      IsServiceCall input securityGroups subnets c := by
    intro m e he c hc
    simp only [log, emit, List.mem_singleton] at he
    subst he
    cases hc
  have hsleep : ∀ m, ∀ e ∈ (sleep m).events, ∀ c, e = .call c →
      IsServiceCall input securityGroups subnets c := by
    intro m e he c hc
    simp only [sleep, emit, List.mem_singleton] at he
    subst he
    cases hc
  unfold deployService
  simp only [bind_eq]
  refine forall_bind_events (hcall _ (Or.inl rfl)) fun _ _ => ?_
  refine forall_bind_events (hsave _) fun _ _ => ?_
  refine forall_bind_events (hlog _) fun _ _ => ?_
  refine forall_bind_events (hsleep _) fun _ _ => ?_
  refine forall_bind_events (hcall _ (Or.inr (Or.inl ⟨_, rfl⟩))) fun _ _ => ?_
  refine forall_bind_events ?_ fun tasks _ => ?_
  · intro e he c hc
    rw [catchTasks_events] at he
    rcases waitUntil_events p 10 fuel 0 p.listTasks 0 e he with ⟨a, rfl⟩ | rfl
    · cases hc
      exact Or.inr (Or.inr (Or.inl ⟨_, rfl⟩))
    · cases hc
  refine forall_bind_events (hlog _) fun _ _ => ?_
  refine forall_bind_events ?_ fun m _ => ?_
  · intro e he c hc
    obtain ⟨ids, rfl⟩ := collectMetadata_events p tasks e he
    cases hc
    exact Or.inr (Or.inr (Or.inr ⟨_, rfl⟩))
  refine forall_bind_events (hsave _) fun _ _ => ?_
  refine forall_bind_events (hlog _) fun _ _ => ?_
  intro e he
  cases he

theorem deployService_first_call (p : Provider) (fuel : Nat) (input : Instance)
    (securityGroups subnets : List (Option String)) (s : State) :
    (callsOf (deployService p fuel input securityGroups subnets s).events).head? =
      some (.serviceDeploy input.serviceName (input.td.family ++ ":" ++ input.td.revision)
        input.desiredCount (if input.exposePublicly then "ENABLED" else "DISABLED")
        securityGroups subnets) := by
  unfold deployService
  simp only [bind_eq, Provider.call]
  unfold Outcome.bind
  split <;> simp

/-- C14: when the instance supplies `awsVpcConfiguration`, then from every state and
whatever the provider does, `deploy` issues no network-provisioning call, every state it
saves has the seven network keys of the starting state, its first call is the service
deployment with the caller's `securityGroups` and `subnets`, and no service deployment with
other network references is issued. -/
theorem deploy_with_explicit_network (p : Provider) (fuel : Nat) (input : Instance)
    (s : State) (cfg : AwsVpcConfiguration) (hcfg : input.awsVpcConfiguration = some cfg) :
    (∀ c ∈ callsOf (deploy p fuel input s).events, c.provisions = none) ∧
    (∀ s' ∈ savedStates (deploy p fuel input s).events, ∀ r, s'.key r = s.key r) ∧
    (callsOf (deploy p fuel input s).events).head? =
      some (.serviceDeploy input.serviceName (input.td.family ++ ":" ++ input.td.revision)
        input.desiredCount (if input.exposePublicly then "ENABLED" else "DISABLED")
        cfg.securityGroups cfg.subnets) ∧
    (∀ n td d ip sg sn, Call.serviceDeploy n td d ip sg sn ∈ callsOf (deploy p fuel input s).events →
      sg = cfg.securityGroups ∧ sn = cfg.subnets) := by
  have hnet : ensureNetwork p input { s with taskDefinition := some input.td } =
      ⟨[], .ok (cfg.securityGroups, cfg.subnets, { s with taskDefinition := some input.td })⟩ := by
    unfold ensureNetwork
    rw [hcfg]
    rfl
  have hev : (deploy p fuel input s).events =
      .saveState { s with taskDefinition := some input.td } ::
        (deployService p fuel input cfg.securityGroups cfg.subnets
          { s with taskDefinition := some input.td }).events := by
    rw [deploy_eq, saveState, emit, bind_ok, hnet, bind_ok]
    rfl
  rw [hev]
  refine ⟨?_, ?_, ?_, ?_⟩
  · intro c hc
    simp only [callsOf_cons_saveState] at hc
    exact (deployService_settled p fuel input _ _ _ _ (mem_callsOf.1 hc)).1 c rfl
  · intro s' hs' r
    have h := mem_savedStates.1 hs'
    simp only [List.mem_cons] at h
    rcases h with h | h
    · cases h
      exact key_taskDefinition s _ r
    · rw [(deployService_settled p fuel input _ _ _ _ h).2 s' rfl r]
      exact key_taskDefinition s _ r
  · simp only [callsOf_cons_saveState]
    exact deployService_first_call p fuel input _ _ _
  · intro n td d ip sg sn hc
    simp only [callsOf_cons_saveState] at hc
    rcases deployService_calls p fuel input _ _ _ _ (mem_callsOf.1 hc) _ rfl with
      h | ⟨_, h⟩ | ⟨_, h⟩ | ⟨_, h⟩
    · cases h
      exact ⟨rfl, rfl⟩
    · cases h
    · cases h
    · cases h

/-- C14 on the sample provider, from the empty state: the first call is the service
deployment with the caller's network references, and no resource is provisioned. -/
theorem deploy_with_explicit_network_witness :
    explicitInput.awsVpcConfiguration = some ⟨[some "sg-9"], [some "subnet-9"]⟩ ∧
    (callsOf (deploy sampleProvider 3 explicitInput {}).events).head? =
      some (.serviceDeploy "service" "service-family:1" 1 "ENABLED"
        [some "sg-9"] [some "subnet-9"]) ∧
    (callsOf (deploy sampleProvider 3 explicitInput {}).events).all
      (fun c => c.provisions.isNone) = true :=
  ⟨rfl,
    (deploy_with_explicit_network sampleProvider 3 explicitInput {}
      ⟨[some "sg-9"], [some "subnet-9"]⟩ rfl).2.2.1,
    List.all_eq_true.2 fun c hc => by
      rw [(deploy_with_explicit_network sampleProvider 3 explicitInput {}
        ⟨[some "sg-9"], [some "subnet-9"]⟩ rfl).1 c hc]
      rfl⟩

/-! ## Metadata of the final task list -/

theorem foldl_append_eq_flatten {α β : Type} (f : α → List β) (l : List α) (acc : List β) :
    l.foldl (fun prev current => prev ++ f current) acc = acc ++ (l.map f).flatten := by
  induction l generalizing acc with
  | nil => simp
  | cons a l ih => simp [ih]

theorem interfaceIdsOf_eq (attachments : List Attachment) :
    interfaceIdsOf attachments = networkInterfaceIds attachments := by
  unfold interfaceIdsOf networkInterfaceIds
  rw [foldl_append_eq_flatten (fun a : Attachment =>
    ((a.details.getD []).filter fun d => d.name == "networkInterfaceId").map fun d => d.value)]
  simp
  rfl

theorem collectMetadata_eq (p : Provider) (tasks : TasksValue) :
    collectMetadata p tasks =
      if networkInterfaceIds (attachmentsOf tasks.elems) = [] then
        ⟨[], .ok (metadataOf p tasks)⟩
      else
        ⟨[.call (.describeNetworkInterfaces (networkInterfaceIds (attachmentsOf tasks.elems)))],
          if p.fails (.describeNetworkInterfaces
              (networkInterfaceIds (attachmentsOf tasks.elems))) then
            .rejected (.provider (.describeNetworkInterfaces
              (networkInterfaceIds (attachmentsOf tasks.elems))))
          else .ok (metadataOf p tasks)⟩ := by
  unfold collectMetadata metadataOf
  cases tasks with
  | other v => simp [TasksValue.isArray, TasksValue.elems, containersOf, attachmentsOf,
      networkInterfaceIds]
  | list ts =>
    cases ts with
    | nil => simp [TasksValue.isArray, TasksValue.elems, containersOf, attachmentsOf,
        networkInterfaceIds]
    | cons t ts =>
      simp only [TasksValue.isArray, TasksValue.elems, List.length_cons, Bool.true_and]
      have hc : ((t :: ts).foldl (fun prev current => prev ++ current.containers) [])
          = containersOf (t :: ts) := by
        rw [foldl_append_eq_flatten (fun t : Task => t.containers)]
        rfl
      have ha : ((t :: ts).foldl (fun prev current => prev ++ current.attachments) [])
          = attachmentsOf (t :: ts) := by
        rw [foldl_append_eq_flatten (fun t : Task => t.attachments)]
        rfl
      rw [hc, ha, interfaceIdsOf_eq]
      by_cases hids : networkInterfaceIds (attachmentsOf (t :: ts)) = []
      · simp [hids]
      · have hlen : (networkInterfaceIds (attachmentsOf (t :: ts))).length ≠ 0 := by
          simpa using hids
        simp only [hids, if_false]
        cases hf : p.fails (.describeNetworkInterfaces
          (networkInterfaceIds (attachmentsOf (t :: ts)))) <;>
          simp [hlen, Provider.call, hf]

theorem collectMetadata_ok (p : Provider) (hok : ∀ c, p.fails c = false) (tasks : TasksValue) :
    collectMetadata p tasks =
      ⟨if networkInterfaceIds (attachmentsOf tasks.elems) = [] then []
        else [.call (.describeNetworkInterfaces
          (networkInterfaceIds (attachmentsOf tasks.elems)))],
        .ok (metadataOf p tasks)⟩ := by
  rw [collectMetadata_eq]
  split <;> simp [hok]

theorem filter_isInterfaceLookup_catch (p : Provider) (fuel : Nat)
    (taskArns : Option (List String)) (limit : Nat) :
    (callsOf (catchTasks (waitUntilTaskChangeFinishes p fuel 0 taskArns 0 limit)).events).filter
      Call.isInterfaceLookup = [] := by
  rw [catchTasks_events]
  apply filter_eq_nil_of_forall
  intro c hc
  obtain ⟨a, rfl⟩ := waitUntil_calls p limit fuel 0 taskArns 0 c hc
  rfl

/-- C15: let `tasks` be the final task list that `deploy` and `get` work with (the result of
the polling call, or the value it was rejected with) and let every provider call succeed.
Then the gathered containers and attachments are the concatenations, in task order, of the
tasks' containers and attachments; the interface ids are the values of the attachment
details named `networkInterfaceId`; `describeNetworkInterfaces` is called once with all the
ids when there is at least one, and not at all otherwise; and the network interfaces are
what that lookup returns, or the empty list when there are no ids, when the lookup returns
no list, or when the task list is empty or not a list. -/
theorem metadata_of_final_tasks (p : Provider) (fuel : Nat) (input : Instance) (s : State)
    (securityGroups subnets : List (Option String)) (tasks : TasksValue)
    (hok : ∀ c, p.fails c = false)
    (htasks : (catchTasks (waitUntilTaskChangeFinishes p fuel 0 p.listTasks 0 10)).result
      = .ok tasks) :
    ((get p fuel input s).result = .ok
        ⟨s.service.map fun o => o.serviceArn, s.service.map fun o => o.serviceName,
          containersOf tasks.elems, attachmentsOf tasks.elems,
          (metadataOf p tasks).networkInterfaces⟩ ∧
      (callsOf (get p fuel input s).events).filter Call.isInterfaceLookup =
        if networkInterfaceIds (attachmentsOf tasks.elems) = [] then []
        else [.describeNetworkInterfaces (networkInterfaceIds (attachmentsOf tasks.elems))]) ∧
    ((deployService p fuel input securityGroups subnets s).result = .ok
        ⟨some p.serviceDeploy.serviceArn, some p.serviceDeploy.serviceName,
          containersOf tasks.elems, attachmentsOf tasks.elems,
          (metadataOf p tasks).networkInterfaces⟩ ∧
      (callsOf (deployService p fuel input securityGroups subnets s).events).filter
          Call.isInterfaceLookup =
        if networkInterfaceIds (attachmentsOf tasks.elems) = [] then []
        else [.describeNetworkInterfaces (networkInterfaceIds (attachmentsOf tasks.elems))]) ∧
    ((metadataOf p tasks).networkInterfaces =
        if networkInterfaceIds (attachmentsOf tasks.elems) = [] then []
        else (p.describeNetworkInterfaces
          (networkInterfaceIds (attachmentsOf tasks.elems))).getD []) ∧
    (tasks.isArray = false ∨ tasks.elems = [] →
      metadataOf p tasks = ⟨[], [], []⟩) := by
  refine ⟨⟨?_, ?_⟩, ⟨?_, ?_⟩, rfl, ?_⟩
  · unfold get
    simp only [bind_eq, pure_eq, log, sleep, saveState, emit, bind_ok, call_ok p hok]
    rw [bind_of_ok htasks]
    simp only [bind_ok, collectMetadata_ok p hok]
    rfl
  · unfold get
    simp only [bind_eq, pure_eq, log, sleep, saveState, emit, bind_ok, call_ok p hok]
    rw [bind_of_ok htasks]
    simp only [bind_ok, collectMetadata_ok p hok, callsOf_append, List.filter_append,
      List.cons_append, List.nil_append, callsOf_cons_call, List.filter_cons,
      callsOf_cons_log, callsOf_cons_sleep, callsOf_cons_saveState, callsOf_nil,
      filter_isInterfaceLookup_catch p fuel p.listTasks 10]
    by_cases hids : networkInterfaceIds (attachmentsOf tasks.elems) = []
    · simp [hids, Call.isInterfaceLookup]
    · simp [hids, Call.isInterfaceLookup]
  · unfold deployService
    simp only [bind_eq, pure_eq, log, sleep, saveState, emit, bind_ok, call_ok p hok]
    rw [bind_of_ok htasks]
    simp only [bind_ok, collectMetadata_ok p hok]
    rfl
  · unfold deployService
    simp only [bind_eq, pure_eq, log, sleep, saveState, emit, bind_ok, call_ok p hok]
    rw [bind_of_ok htasks]
    simp only [bind_ok, collectMetadata_ok p hok, callsOf_append, List.filter_append,
      List.cons_append, List.nil_append, callsOf_cons_call, List.filter_cons,
      callsOf_cons_log, callsOf_cons_sleep, callsOf_cons_saveState, callsOf_nil,
      filter_isInterfaceLookup_catch p fuel p.listTasks 10]
    by_cases hids : networkInterfaceIds (attachmentsOf tasks.elems) = []
    · simp [hids, Call.isInterfaceLookup]
    · simp [hids, Call.isInterfaceLookup]
  · intro h
    have he : tasks.elems = [] := by
      rcases h with h | h
      · cases tasks with
        | list ts => cases h
        | other v => rfl
      · exact h
    simp [metadataOf, he, containersOf, attachmentsOf, networkInterfaceIds]

/-- C15 on a provider whose two tasks carry three interface ids. -/
theorem metadata_of_final_tasks_witness :
    (get metadataProvider 3 sampleInput provisionedState).result = .ok
        ⟨some "arn:service", some "service", ["web", "sidecar", "worker"],
          [⟨"att-1", some [⟨"subnetId", "subnet-1"⟩, ⟨"networkInterfaceId", "eni-1"⟩,
            ⟨"networkInterfaceId", "eni-2"⟩]⟩, ⟨"att-2", none⟩,
            ⟨"att-3", some [⟨"networkInterfaceId", "eni-3"⟩]⟩],
          ["interface of eni-1", "interface of eni-2", "interface of eni-3"]⟩ ∧
    (callsOf (get metadataProvider 3 sampleInput provisionedState).events).filter
        Call.isInterfaceLookup = [.describeNetworkInterfaces ["eni-1", "eni-2", "eni-3"]] :=
  (metadata_of_final_tasks metadataProvider 3 sampleInput provisionedState [] []
    (.list [
      ⟨"task-1", "RUNNING", "RUNNING", ["web", "sidecar"],
        [⟨"att-1", some [⟨"subnetId", "subnet-1"⟩, ⟨"networkInterfaceId", "eni-1"⟩,
          ⟨"networkInterfaceId", "eni-2"⟩]⟩]⟩,
      ⟨"task-2", "RUNNING", "RUNNING", ["worker"],
        [⟨"att-2", none⟩, ⟨"att-3", some [⟨"networkInterfaceId", "eni-3"⟩]⟩]⟩])
    (fun _ => rfl) (by decide)).1

/-! ## Idempotent removal -/

theorem remove_lastSaved (p : Provider) (hok : ∀ c, p.fails c = false) (fuel : Nat)
    (input : Instance) (s : State)
    (hwait : (awaitTaskRemoval p fuel p.listTasks).result = .ok ()) :
    (savedStates (remove p fuel input s).events).getLast? = some {} := by
  unfold remove
  simp only [bind_eq]
  obtain ⟨⟨s', hs'⟩, -⟩ := removeNetwork_ok p hok
    { s with taskDefinition := none, service := none }
  rw [call_ok p hok, bind_ok, bind_of_ok (removeTaskDefinition_ok p hok _ _).1,
    bind_of_ok (removeService_ok p hok _ _).1, bind_of_ok hwait, bind_of_ok hs']
  simp only [log, saveState, emit, bind_ok, savedStates_append, List.getLast?_append]
  simp [savedStates]

/-- C16: when every provider call succeeds and the task wait finishes, `remove` completes
and the last state it saves is the empty state; and a second `remove` started from the
empty state, when the task listing succeeds and lists no task, issues that listing and
nothing else (no sub-resource removal, no detach, disassociate or delete call), saves the
empty state again and completes. -/
theorem remove_is_idempotent (p₁ p₂ : Provider) (fuel₁ fuel₂ : Nat) (input : Instance)
    (s : State) (hok₁ : ∀ c, p₁.fails c = false) (hsettle₁ : TasksSettle p₁ fuel₁)
    (hlist : p₂.fails (.listTasks input.serviceName) = false)
    (hnotasks : (p₂.listTasks.map fun l => l.length != 0).getD false = false) :
    (remove p₁ fuel₁ input s).result = .ok () ∧
    (savedStates (remove p₁ fuel₁ input s).events).getLast? = some {} ∧
    remove p₂ fuel₂ input {} =
      ⟨[.call (.listTasks input.serviceName), .log "Fargate service: removal complete",
        .saveState {}], .ok ()⟩ := by
  have hwait := awaitTaskRemoval_ok_of_settle p₁ fuel₁ hsettle₁
  refine ⟨(remove_calls p₁ hok₁ fuel₁ input s hwait).1,
    remove_lastSaved p₁ hok₁ fuel₁ input s hwait, ?_⟩
  simp [remove, removeTaskDefinition, removeService, awaitTaskRemoval, hnotasks,
    removeNetwork, removeRouteTableAssociation, removeSubnet, removeSecurityGroup,
    removeInternetGateway, removeRouteTable, removeNetworkAcl, removeVpc, truthy,
    Provider.call, hlist, log, saveState, emit]

/-- C16 on the sample provider, with no task listed for the second run. -/
theorem remove_is_idempotent_witness :
    (remove sampleProvider 3 sampleInput provisionedState).result = .ok () ∧
    (savedStates (remove sampleProvider 3 sampleInput provisionedState).events).getLast?
      = some {} ∧
    remove idleProvider 0 sampleInput {} =
      ⟨[.call (.listTasks sampleInput.serviceName), .log "Fargate service: removal complete",
        .saveState {}], .ok ()⟩ :=
  remove_is_idempotent sampleProvider idleProvider 3 0 sampleInput provisionedState
    (fun _ => rfl) sampleProvider_settles rfl rfl

/-! ## Prerequisite identifiers -/

theorem supplied_call (p : Provider) (c : Call) (hc : c.wellSupplied = true) :
    ∀ e ∈ (p.call c).events, Supplied e := by
  intro e he c' hc'
  simp only [Provider.call, List.mem_singleton] at he
  subst he
  cases hc'
  exact hc

theorem supplied_log (msg : String) : ∀ e ∈ (log msg).events, Supplied e := by
  intro e he c' hc'
  simp only [log, emit, List.mem_singleton] at he
  subst he
  cases hc'

theorem supplied_saveState (s : State) : ∀ e ∈ (saveState s).events, Supplied e := by
  intro e he c' hc'
  simp only [saveState, emit, List.mem_singleton] at he
  subst he
  cases hc'

theorem supplied_nil {α : Type} (r : Result α) :
    ∀ e ∈ (⟨[], r⟩ : Outcome α).events, Supplied e := by
  intro e he
  cases he

theorem ensureVpc_supplied (p : Provider) (s : State) :
    ∀ e ∈ (ensureVpc p s).events, Supplied e := by
  unfold ensureVpc
  simp only [bind_eq, pure_eq]
  split
  · refine forall_bind_events (supplied_call p _ rfl) fun _ _ => ?_
    split
    · exact supplied_nil _
    · refine forall_bind_events (supplied_log _) fun _ _ => ?_
      refine forall_bind_events (supplied_saveState _) fun _ _ => ?_
      exact supplied_nil _
  · exact supplied_nil _

theorem ensureInternetGateway_supplied (p : Provider) (s : State)
    (hv : truthy s.VpcId = true) :
    ∀ e ∈ (ensureInternetGateway p s).events, Supplied e := by
  unfold ensureInternetGateway
  simp only [bind_eq, pure_eq]
  split
  · refine forall_bind_events (supplied_call p _ rfl) fun _ _ => ?_
    split
    · exact supplied_nil _
    · rename_i hid
      refine forall_bind_events (supplied_log _) fun _ _ => ?_
      refine forall_bind_events (supplied_saveState _) fun _ _ => ?_
      refine forall_bind_events (supplied_call p _ ?_) fun _ _ => ?_
      · simpa [Call.wellSupplied, hv] using hid
      refine forall_bind_events (supplied_log _) fun _ _ => ?_
      exact supplied_nil _
  · exact supplied_nil _

theorem ensureSecurityGroup_supplied (p : Provider) (input : Instance) (s : State)
    (hv : truthy s.VpcId = true) :
    ∀ e ∈ (ensureSecurityGroup p input s).events, Supplied e := by
  unfold ensureSecurityGroup
  simp only [bind_eq, pure_eq]
  split
  · refine forall_bind_events (supplied_call p _ hv) fun _ _ => ?_
    split
    · exact supplied_nil _
    · rename_i hid
      have hid' : truthy p.createSecurityGroup = true := by simpa using hid
      refine forall_bind_events (supplied_log _) fun _ _ => ?_
      refine forall_bind_events (supplied_saveState _) fun _ _ => ?_
      refine forall_bind_events (supplied_call p _ hid') fun _ _ => ?_
      refine forall_bind_events (supplied_log _) fun _ _ => ?_
      refine forall_bind_events (supplied_call p _ hid') fun _ _ => ?_
      refine forall_bind_events (supplied_log _) fun _ _ => ?_
      exact supplied_nil _
  · exact supplied_nil _

theorem ensureNetworkAcl_supplied (p : Provider) (s : State) (hv : truthy s.VpcId = true) :
    ∀ e ∈ (ensureNetworkAcl p s).events, Supplied e := by
  unfold ensureNetworkAcl
  simp only [bind_eq, pure_eq]
  split
  · refine forall_bind_events (supplied_call p _ hv) fun _ _ => ?_
    split
    · exact supplied_nil _
    · refine forall_bind_events (supplied_log _) fun _ _ => ?_
      refine forall_bind_events (supplied_saveState _) fun _ _ => ?_
      exact supplied_nil _
  · exact supplied_nil _

theorem ensureRouteTable_supplied (p : Provider) (s : State) (hv : truthy s.VpcId = true)
    (hg : truthy s.InternetGatewayId = true) :
    ∀ e ∈ (ensureRouteTable p s).events, Supplied e := by
  unfold ensureRouteTable
  simp only [bind_eq, pure_eq]
  split
  · refine forall_bind_events (supplied_call p _ hv) fun _ _ => ?_
    split
    · exact supplied_nil _
    · rename_i hid
      have hid' : truthy p.createRouteTable = true := by simpa using hid
      refine forall_bind_events (supplied_log _) fun _ _ => ?_
      refine forall_bind_events (supplied_saveState _) fun _ _ => ?_
      refine forall_bind_events (supplied_call p _ ?_) fun _ _ => ?_
      · simp [Call.wellSupplied, hg, hid']
      refine forall_bind_events (supplied_call p _ ?_) fun _ _ => ?_
      · simp [Call.wellSupplied, hg, hid']
      refine forall_bind_events (supplied_log _) fun _ _ => ?_
      exact supplied_nil _
  · exact supplied_nil _

theorem ensureSubnet_supplied (p : Provider) (s : State) (hv : truthy s.VpcId = true) :
    ∀ e ∈ (ensureSubnet p s).events, Supplied e := by
  unfold ensureSubnet
  simp only [bind_eq, pure_eq]
  split
  · refine forall_bind_events (supplied_call p _ hv) fun _ _ => ?_
    split
    · exact supplied_nil _
    · refine forall_bind_events (supplied_log _) fun _ _ => ?_
      refine forall_bind_events (supplied_saveState _) fun _ _ => ?_
      exact supplied_nil _
  · exact supplied_nil _

theorem ensureRouteTableAssociation_supplied (p : Provider) (s : State)
    (hr : truthy s.RouteTableId = true) (hs : truthy s.SubnetId = true) :
    ∀ e ∈ (ensureRouteTableAssociation p s).events, Supplied e := by
  unfold ensureRouteTableAssociation
  simp only [bind_eq, pure_eq]
  split
  · refine forall_bind_events (supplied_call p _ ?_) fun _ _ => ?_
    · simp [Call.wellSupplied, hr, hs]
    split
    · exact supplied_nil _
    · refine forall_bind_events (supplied_log _) fun _ _ => ?_
      refine forall_bind_events (supplied_saveState _) fun _ _ => ?_
      exact supplied_nil _
  · exact supplied_nil _

theorem ensureNetwork_supplied (p : Provider) (input : Instance) (s : State)
    (hnone : input.awsVpcConfiguration = none) :
    ∀ e ∈ (ensureNetwork p input s).events, Supplied e := by
  unfold ensureNetwork
  rw [hnone]
  simp only [bind_eq]
  refine forall_bind_events (ensureVpc_supplied p s) fun s1 h1 => ?_
  obtain ⟨t1, -⟩ := (ensureVpc_spec p).1 _ _ h1
  refine forall_bind_events (ensureInternetGateway_supplied p s1 t1) fun s2 h2 => ?_
  obtain ⟨t2, k2⟩ := (ensureInternetGateway_spec p).1 _ _ h2
  have v2 : truthy s2.VpcId = true := by
    have := k2 .vpc (by decide)
    simp only [State.key] at this t1
    rw [this]
    exact t1
  refine forall_bind_events (ensureSecurityGroup_supplied p input s2 v2) fun s3 h3 => ?_
  obtain ⟨-, k3⟩ := (ensureSecurityGroup_spec p input).1 _ _ h3
  have v3 : truthy s3.VpcId = true := by
    have := k3 .vpc (by decide)
    simp only [State.key] at this
    rw [this]
    exact v2
  have g3 : truthy s3.InternetGatewayId = true := by
    have := k3 .gateway (by decide)
    simp only [State.key] at this t2
    rw [this]
    exact t2
  refine forall_bind_events (ensureNetworkAcl_supplied p s3 v3) fun s4 h4 => ?_
  obtain ⟨-, k4⟩ := (ensureNetworkAcl_spec p).1 _ _ h4
  have v4 : truthy s4.VpcId = true := by
    have := k4 .vpc (by decide)
    simp only [State.key] at this
    rw [this]
    exact v3
  have g4 : truthy s4.InternetGatewayId = true := by
    have := k4 .gateway (by decide)
    simp only [State.key] at this
    rw [this]
    exact g3
  refine forall_bind_events (ensureRouteTable_supplied p s4 v4 g4) fun s5 h5 => ?_
  obtain ⟨t5, k5⟩ := (ensureRouteTable_spec p).1 _ _ h5
  have v5 : truthy s5.VpcId = true := by
    have := k5 .vpc (by decide)
    simp only [State.key] at this
    rw [this]
    exact v4
  refine forall_bind_events (ensureSubnet_supplied p s5 v5) fun s6 h6 => ?_
  obtain ⟨t6, k6⟩ := (ensureSubnet_spec p).1 _ _ h6
  have r6 : truthy s6.RouteTableId = true := by
    have := k6 .routeTable (by decide)
    simp only [State.key] at this t5
    rw [this]
    exact t5
  refine forall_bind_events (ensureRouteTableAssociation_supplied p s6 r6 t6) fun s7 _ => ?_
  exact supplied_nil _

/-- C17: in a `deploy` without explicit network configuration, from every state and
whatever the provider does, every call is issued with its prerequisite identifiers
populated: the gateway attachment and the security group, ACL, route table and subnet
creations get a populated VPC id, both route creations get a populated gateway id and
route table id, the association gets a populated route table id and subnet id, and the
service deployment gets one populated security group id and one populated subnet id. -/
theorem deploy_supplies_prerequisites (p : Provider) (fuel : Nat) (input : Instance)
    (s : State) (hnone : input.awsVpcConfiguration = none) :
    ∀ c ∈ callsOf (deploy p fuel input s).events, c.wellSupplied = true := by
  intro c hc
  have hall : ∀ e ∈ (deploy p fuel input s).events, Supplied e := by
    rw [deploy_eq]
    refine forall_bind_events (supplied_saveState _) fun _ _ => ?_
    refine forall_bind_events (ensureNetwork_supplied p input _ hnone) fun x hx => ?_
    obtain ⟨hkeys, hsg, hsn⟩ := ensureNetwork_result p input _ x.2.2 x.1 x.2.1 hnone hx
    intro e he c' hc'
    rcases deployService_calls p fuel input _ _ _ e he c' hc' with
      h | ⟨_, h⟩ | ⟨_, h⟩ | ⟨_, h⟩
    · have h1 := hkeys .securityGroup
      have h2 := hkeys .subnet
      simp only [State.key] at h1 h2
      rw [h, hsg, hsn]
      simp [Call.wellSupplied, h1, h2]
    · rw [h]; rfl
    · rw [h]; rfl
    · rw [h]; rfl
  exact hall _ (mem_callsOf.1 hc) c rfl

/-- C17 on the sample provider, from the empty state. -/
theorem deploy_supplies_prerequisites_witness :
    (callsOf (deploy sampleProvider 3 sampleInput {}).events).all Call.wellSupplied = true :=
  List.all_eq_true.2 (deploy_supplies_prerequisites sampleProvider 3 sampleInput {} rfl)

/-! ## What the polling call returns -/

theorem polledArns_succ (p : Provider) :
    ∀ (i round : Nat) (taskArns : Option (List String)),
      polledArns p (i + 1) round taskArns =
        some (unfinishedArns (p.describeTasks (round + i) (polledArns p i round taskArns))) := by
  intro i
  induction i with
  | zero => intro round taskArns; rfl
  | succ i ih =>
    intro round taskArns
    have h := ih (round + 1)
      (some (unfinishedArns (p.describeTasks round taskArns)))
    have e : round + 1 + i = round + (i + 1) := by omega
    rw [e] at h
    exact h

theorem polledArns_shrink (p : Provider) (hp : Faithful p) (round : Nat)
    (taskArns : Option (List String)) (a : String) :
    ∀ i j, i ≤ j → a ∈ (polledArns p j round taskArns).getD [] →
      a ∈ (polledArns p i round taskArns).getD [] := by
  intro i j hij
  induction j with
  | zero =>
    have : i = 0 := by omega
    subst this
    exact id
  | succ j ih =>
    intro ha
    by_cases h : i = j + 1
    · subst h
      exact ha
    · apply ih (by omega)
      rw [polledArns_succ] at ha
      simp only [Option.getD_some, unfinishedArns, List.mem_map, List.mem_filter] at ha
      obtain ⟨t, ⟨ht, -⟩, rfl⟩ := ha
      cases hr : p.describeTasks (round + j) (polledArns p j round taskArns) with
      | error e => rw [hr] at ht; cases ht
      | ok v =>
        rw [hr] at ht
        cases v with
        | other x => cases ht
        | list ts => exact hp _ _ ts hr t ht

theorem sampleProvider_faithful : Faithful sampleProvider := by
  intro round taskArns ts h t ht
  simp only [sampleProvider, Except.ok.injEq, TasksValue.list.injEq] at h
  subst h
  simp only [List.mem_map] at ht
  obtain ⟨a, ha, rfl⟩ := ht
  exact ha

theorem sampleProvider_converges :
    ConvergesInRound sampleProvider (some ["task-1", "task-2"]) 3
      [⟨"task-2", "RUNNING", "RUNNING", [], []⟩] := by
  refine ⟨by decide, ?_, rfl, by decide⟩
  intro i hi
  have hi' : i = 0 ∨ i = 1 := by omega
  rcases hi' with rfl | rfl
  · exact ⟨[⟨"task-1", "RUNNING", "RUNNING", [], []⟩, ⟨"task-2", "RUNNING", "PENDING", [], []⟩],
      rfl, ⟨"task-2", "RUNNING", "PENDING", [], []⟩, by decide, by decide⟩
  · exact ⟨[⟨"task-2", "RUNNING", "PENDING", [], []⟩],
      rfl, ⟨"task-2", "RUNNING", "PENDING", [], []⟩, by decide, by decide⟩

/-- C18 as stated fails: a single task that is pending in the first round and running in
the second makes the loop resolve after one retry with a list that holds every requested
task, although not all tasks were converged in the first round. -/
theorem waitUntilTaskChangeFinishes_retry_returns_all_tasks :
    lateProvider.describeTasks 0 (some ["task-1"])
      = .ok (.list [⟨"task-1", "RUNNING", "PENDING", [], []⟩]) ∧
    (waitUntilTaskChangeFinishes lateProvider 2 0 (some ["task-1"]) 0 10).result
      = .ok [⟨"task-1", "RUNNING", "RUNNING", [], []⟩] ∧
    describeRounds
      (waitUntilTaskChangeFinishes lateProvider 2 0 (some ["task-1"]) 0 10).events = 2 :=
  ⟨rfl, by decide, by decide⟩

/-! ## Rejection in the first round, the provider error included -/

theorem waitUntil_first_round_of_error (p : Provider) (fuel round : Nat)
    (taskArns : Option (List String)) (currentTry limit : Nat) (e : String)
    (hresp : p.describeTasks round taskArns = .error e) :
    waitUntilTaskChangeFinishes p (fuel + 1) round taskArns currentTry limit
      = ⟨[.call (.describeTasks taskArns)], .rejected (.error e)⟩ := by
  rw [waitUntilTaskChangeFinishes, hresp]

/-- C11 (as amended): a call of `waitUntilTaskChangeFinishes` is rejected in its first round
(rejected after a single `describeTasks` call) if and only if that `describeTasks` call is
itself rejected, or it returns a tasks value and `currentTry > limit` or the value is not a
list. In the first case the call is rejected with the provider's error; in the second it is
rejected with the tasks value itself. In both cases the only event is that one
`describeTasks` call: no sleep, no further call. -/
theorem waitUntilTaskChangeFinishes_first_round_rejection (p : Provider)
    (fuel round : Nat) (taskArns : Option (List String)) (currentTry limit : Nat) :
    (((∃ v, (waitUntilTaskChangeFinishes p (fuel + 1) round taskArns currentTry limit).result
          = .rejected v) ∧
        describeRounds
          (waitUntilTaskChangeFinishes p (fuel + 1) round taskArns currentTry limit).events = 1)
      ↔ ((∃ e, p.describeTasks round taskArns = .error e) ∨
          ∃ tasks, p.describeTasks round taskArns = .ok tasks ∧
            (currentTry > limit ∨ tasks.isArray = false))) ∧
    (∀ e, p.describeTasks round taskArns = .error e →
      waitUntilTaskChangeFinishes p (fuel + 1) round taskArns currentTry limit
        = ⟨[.call (.describeTasks taskArns)], .rejected (.error e)⟩) ∧
    (∀ tasks, p.describeTasks round taskArns = .ok tasks →
      (currentTry > limit ∨ tasks.isArray = false) →
      waitUntilTaskChangeFinishes p (fuel + 1) round taskArns currentTry limit
        = ⟨[.call (.describeTasks taskArns)], .rejected (.tasks tasks)⟩) := by
  refine ⟨?_, fun e he => waitUntil_first_round_of_error p fuel round taskArns currentTry limit
    e he, fun tasks ht h =>
      (waitUntil_first_round_of_response p fuel round taskArns currentTry limit tasks ht).2 h⟩
  cases hresp : p.describeTasks round taskArns with
  | error e =>
    rw [waitUntil_first_round_of_error p fuel round taskArns currentTry limit e hresp]
    exact ⟨fun _ => Or.inl ⟨e, rfl⟩, fun _ => ⟨⟨_, rfl⟩, by simp⟩⟩
  | ok tasks =>
    rw [(waitUntil_first_round_of_response p fuel round taskArns currentTry limit tasks
      hresp).1]
    constructor
    · intro h
      exact Or.inr ⟨tasks, rfl, h⟩
    · rintro (⟨e, he⟩ | ⟨tasks', ht, h⟩)
      · cases he
      · cases ht
        exact h

/-- C11 on a provider whose `tasks` is not a list, and on one whose `describeTasks` call is
rejected. -/
theorem waitUntilTaskChangeFinishes_first_round_rejection_witness :
    waitUntilTaskChangeFinishes nonListProvider (2 + 1) 0 (some ["task-1"]) 0 10
      = ⟨[.call (.describeTasks (some ["task-1"]))], .rejected (.tasks (.other "undefined"))⟩ ∧
    waitUntilTaskChangeFinishes throwingProvider (2 + 1) 0 (some ["task-1"]) 0 10
      = ⟨[.call (.describeTasks (some ["task-1"]))],
          .rejected (.error "describeTasks failed")⟩ :=
  ⟨(waitUntilTaskChangeFinishes_first_round_rejection nonListProvider 2 0 (some ["task-1"])
      0 10).2.2 (.other "undefined") rfl (Or.inr rfl),
    (waitUntilTaskChangeFinishes_first_round_rejection throwingProvider 2 0 (some ["task-1"])
      0 10).2.1 "describeTasks failed" rfl⟩

/-- C11 as stated fails: when the `describeTasks` call is itself rejected, the call is
rejected in its first round although `currentTry` does not exceed `limit` and no tasks
value that is not a list was returned, and it is rejected with the provider's error, not
with a tasks value. -/
theorem waitUntilTaskChangeFinishes_rejects_with_provider_error :
    waitUntilTaskChangeFinishes throwingProvider 3 0 (some ["task-1"]) 0 10
      = ⟨[.call (.describeTasks (some ["task-1"]))],
          .rejected (.error "describeTasks failed")⟩ ∧
    ¬ (0 > 10) ∧
    ¬ ∃ tasks, throwingProvider.describeTasks 0 (some ["task-1"]) = .ok tasks := by
  refine ⟨rfl, by decide, ?_⟩
  rintro ⟨tasks, h⟩
  cases h

/-! ## The result after a retry -/

/-- C18 (as amended): let the loop resolve after at least one retry, in round `m ≥ 2`. Then
the list it returns is the `describeTasks` response of round `m`, and the request of that
round named exactly the tasks that were unfinished in the response of round `m - 1`. On a
provider that describes only the tasks it is asked for, every returned task was unfinished
in round `m - 1` and is one of the tasks requested at the start, and a task id that was not
among the unfinished ones of some earlier round (so every task that had its desired status
in an earlier round) is missing from the result. -/
theorem waitUntilTaskChangeFinishes_returns_last_round_only (p : Provider)
    (taskArns : Option (List String)) (m fuel limit : Nat) (last : List Task)
    (hp : Faithful p) (hconv : ConvergesInRound p taskArns m last) (hm : 2 ≤ m)
    (hfuel : m ≤ fuel) :
    (waitUntilTaskChangeFinishes p fuel 0 taskArns 0 limit).result = .ok last ∧
    describeRounds (waitUntilTaskChangeFinishes p fuel 0 taskArns 0 limit).events = m ∧
    p.describeTasks (m - 1) (polledArns p (m - 1) 0 taskArns) = .ok (.list last) ∧
    polledArns p (m - 1) 0 taskArns =
      some (unfinishedArns (p.describeTasks (m - 2) (polledArns p (m - 2) 0 taskArns))) ∧
    (∀ t ∈ last, t.taskArn ∈
      unfinishedArns (p.describeTasks (m - 2) (polledArns p (m - 2) 0 taskArns))) ∧
    (∀ t ∈ last, t.taskArn ∈ taskArns.getD []) ∧
    (∀ i, i + 1 < m → ∀ a,
      a ∉ unfinishedArns (p.describeTasks i (polledArns p i 0 taskArns)) →
      ∀ t ∈ last, t.taskArn ≠ a) := by
  obtain ⟨hm1, hun, hlast, hfin⟩ := hconv
  obtain ⟨j, rfl⟩ : ∃ j, m = j + 2 := ⟨m - 2, by omega⟩
  have hres := waitUntil_resolves_at p limit (j + 1) fuel 0 taskArns 0 last (Nat.zero_le _)
    hfuel (fun i hi => by simpa using hun i (by omega)) (by simpa using hlast) hfin
  have hreq : polledArns p (j + 1) 0 taskArns =
      some (unfinishedArns (p.describeTasks j (polledArns p j 0 taskArns))) := by
    simpa using polledArns_succ p j 0 taskArns
  have hin : ∀ t ∈ last, t.taskArn ∈ (polledArns p (j + 1) 0 taskArns).getD [] :=
    fun t ht => hp _ _ last (by simpa using hlast) t ht
  refine ⟨hres.1, hres.2, hlast, by simpa using hreq, ?_, ?_, ?_⟩
  · intro t ht
    have := hin t ht
    rw [hreq] at this
    simpa using this
  · intro t ht
    exact polledArns_shrink p hp 0 taskArns t.taskArn 0 (j + 1) (Nat.zero_le _) (hin t ht)
  · intro i hi a ha t ht hta
    have h1 := hin t ht
    rw [hta] at h1
    have h2 := polledArns_shrink p hp 0 taskArns a (i + 1) (j + 1) (by omega) h1
    rw [polledArns_succ] at h2
    simp only [Nat.zero_add, Option.getD_some] at h2
    exact ha h2

/-- C18 on the sample provider: `task-1` has its desired status from the first round, the
loop resolves in round 3, the request of that round is `task-2` alone and the result is
`task-2` alone. -/
theorem waitUntilTaskChangeFinishes_returns_last_round_only_witness :
    (waitUntilTaskChangeFinishes sampleProvider 3 0 (some ["task-1", "task-2"]) 0 10).result
      = .ok [⟨"task-2", "RUNNING", "RUNNING", [], []⟩] ∧
    polledArns sampleProvider (3 - 1) 0 (some ["task-1", "task-2"]) =
      some (unfinishedArns (sampleProvider.describeTasks (3 - 2)
        (polledArns sampleProvider (3 - 2) 0 (some ["task-1", "task-2"])))) ∧
    polledArns sampleProvider (3 - 1) 0 (some ["task-1", "task-2"]) = some ["task-2"] :=
  ⟨(waitUntilTaskChangeFinishes_returns_last_round_only sampleProvider
      (some ["task-1", "task-2"]) 3 3 10 [⟨"task-2", "RUNNING", "RUNNING", [], []⟩]
      sampleProvider_faithful sampleProvider_converges (by decide) (le_refl _)).1,
    (waitUntilTaskChangeFinishes_returns_last_round_only sampleProvider
      (some ["task-1", "task-2"]) 3 3 10 [⟨"task-2", "RUNNING", "RUNNING", [], []⟩]
      sampleProvider_faithful sampleProvider_converges (by decide) (le_refl _)).2.2.2.1,
    by decide⟩

/-! ## The removal sequence -/

theorem routeDeletions_eq_expected (p : Provider) :
    routeDeletions p = expectedRouteDeletions p := by
  unfold routeDeletions expectedRouteDeletions
  cases p.describeRouteTables with
  | none => rfl
  | some l =>
    cases l with
    | nil => rfl
    | cons routeTable rest => exact routesToDelete_eq _ _

theorem aclEntryDeletions_eq_expected (p : Provider) (s : State) :
    aclEntryDeletions p s = expectedAclEntryDeletions p s := by
  unfold aclEntryDeletions expectedAclEntryDeletions
  cases p.describeNetworkAcls with
  | none => rfl
  | some l =>
    cases l with
    | nil => rfl
    | cons acl rest => exact entriesToDelete_eq _ _

theorem remove_pending (p : Provider) (hok : ∀ c, p.fails c = false) (fuel : Nat)
    (input : Instance) (s : State)
    (hwait : (awaitTaskRemoval p fuel p.listTasks).result = .pending) :
    (remove p fuel input s).result = .pending ∧
    callsOf (remove p fuel input s).events =
      .listTasks input.serviceName :: (subResourceRemovalCalls input s ++
        callsOf (awaitTaskRemoval p fuel p.listTasks).events) := by
  unfold remove
  simp only [bind_eq]
  have hp : ∀ (g : Unit → Outcome Unit),
      Outcome.bind (awaitTaskRemoval p fuel p.listTasks) g
        = ⟨(awaitTaskRemoval p fuel p.listTasks).events, .pending⟩ := by
    intro g
    unfold Outcome.bind
    rw [hwait]
  rw [call_ok p hok, bind_ok, bind_of_ok (removeTaskDefinition_ok p hok _ _).1,
    bind_of_ok (removeService_ok p hok _ _).1, hp]
  refine ⟨rfl, ?_⟩
  simp only [callsOf_append, callsOf_cons_call, callsOf_nil, List.cons_append, List.nil_append,
    (removeTaskDefinition_ok p hok _ _).2, (removeService_ok p hok _ _).2,
    List.append_assoc, subResourceRemovalCalls]

theorem awaitTaskRemoval_stuck (fuel : Nat) :
    (awaitTaskRemoval stuckProvider fuel stuckProvider.listTasks).result = .pending := by
  have h := (waitUntil_pending_of_unfinished stuckProvider 5
    (fun _ _ => ⟨[⟨"task-1", "RUNNING", "PENDING", [], []⟩], rfl,
      ⟨"task-1", "RUNNING", "PENDING", [], []⟩, List.mem_singleton.2 rfl, by decide⟩)
    fuel 0 (some ["task-1"]) 0 (Nat.zero_le _)).1
  have hp : ∀ (es : List Event) (g : List Task → Outcome Unit),
      (Outcome.bind (waitUntilTaskChangeFinishes stuckProvider fuel 0 (some ["task-1"]) 0 5)
        g).result = .pending := by
    intro es g
    unfold Outcome.bind
    rw [h]
  simp only [awaitTaskRemoval, stuckProvider, bind_eq, log, emit, bind_ok]
  exact hp [] _

/-- C7 as stated fails: on a provider whose every call succeeds but whose single task never
reaches its desired status, `remove` of a fully provisioned instance is still waiting after
any number of polling rounds, and the only removal calls it has issued are the two
sub-resource removals: no network resource is deleted although every key is populated. -/
theorem remove_waits_forever_when_tasks_never_settle :
    (∀ c, stuckProvider.fails c = false) ∧
    ∀ fuel, (remove stuckProvider fuel sampleInput provisionedState).result = .pending ∧
      (callsOf (remove stuckProvider fuel sampleInput provisionedState).events).filter
          Call.isRemoval
        = [.taskDefinitionRemove "service-family",
           .serviceRemove "service" none ⟨"arn:service", "service"⟩] := by
  refine ⟨fun _ => rfl, fun fuel => ?_⟩
  obtain ⟨hres, hcalls⟩ := remove_pending stuckProvider (fun _ => rfl) fuel sampleInput
    provisionedState (awaitTaskRemoval_stuck fuel)
  refine ⟨hres, ?_⟩
  rw [hcalls]
  simp only [List.filter_cons, List.filter_append, filter_isRemoval_await, List.append_nil]
  decide

/-- C7 (as amended): when every provider call succeeds and the wait for the listed tasks
finishes, `remove` completes and the removal calls it issues are the fixed sequence (task
definition, service, association, subnet, security group, gateway detached if `VpcId` is
populated and then deleted, routes then route table, ACL entries then ACL, VPC) restricted
to the steps whose state key is populated. The routes deleted are those of the described
table whose gateway is not `local`, the entries deleted those of the described ACL whose
rule number lies strictly between 0 and 32767. Apart from listing and polling the tasks,
the only other calls are the description of the route table and of the ACL, each made
before the deletions of its step and only when the key of the step is populated: a step
whose key is not populated issues no call at all. -/
theorem remove_issues_fixed_sequence (p : Provider) (fuel : Nat) (input : Instance)
    (s : State) (hok : ∀ c, p.fails c = false) (hsettle : TasksSettle p fuel) :
    (remove p fuel input s).result = .ok () ∧
    (callsOf (remove p fuel input s).events).filter Call.isRemoval
      = expectedRemovals p input s ∧
    (callsOf (remove p fuel input s).events).filter (fun c => !c.isTaskQuery)
      = expectedTeardown p input s := by
  obtain ⟨hres, hcalls⟩ :=
    remove_calls p hok fuel input s (awaitTaskRemoval_ok_of_settle p fuel hsettle)
  rw [hcalls]
  refine ⟨hres, ?_, ?_⟩
  · simp only [expectedRemovals, ← routeDeletions_eq_expected,
      ← aclEntryDeletions_eq_expected]
    simp only [List.filter_cons, List.filter_append, filter_isRemoval_await,
      subResourceRemovalCalls, networkTeardownCalls, filter_ite_nil,
      filter_isRemoval_routeDeletions, filter_isRemoval_aclEntryDeletions,
      List.filter_nil, List.nil_append, List.append_assoc]
    cases s.service <;> simp [Call.isRemoval]
  · simp only [expectedTeardown, ← routeDeletions_eq_expected,
      ← aclEntryDeletions_eq_expected]
    simp only [List.filter_cons, List.filter_append, filter_notTaskQuery_await,
      subResourceRemovalCalls, networkTeardownCalls, filter_ite_nil,
      filter_notTaskQuery_routeDeletions, filter_notTaskQuery_aclEntryDeletions,
      List.filter_nil, List.nil_append, List.append_assoc]
    cases s.service <;> simp [Call.isTaskQuery]

/-- C7 on the sample provider and a fully provisioned state: the sixteen calls of the
teardown, in order. -/
theorem remove_issues_fixed_sequence_witness :
    (remove sampleProvider 3 sampleInput provisionedState).result = .ok () ∧
    (callsOf (remove sampleProvider 3 sampleInput provisionedState).events).filter
        (fun c => !c.isTaskQuery)
      = [.taskDefinitionRemove "service-family",
         .serviceRemove "service" none ⟨"arn:service", "service"⟩,
         .disassociateRouteTable (some "rtbassoc-1"),
         .deleteSubnet (some "subnet-1"),
         .deleteSecurityGroup (some "sg-1"),
         .detachInternetGateway (some "igw-1") (some "vpc-1"),
         .deleteInternetGateway (some "igw-1"),
         .describeRouteTables (some "rtb-1"),
         .deleteRoute (some ⟨"DestinationCidrBlock", "0.0.0.0/0", some "rtb-1"⟩),
         .deleteRoute (some ⟨"DestinationIpv6CidrBlock", "::/0", some "rtb-1"⟩),
         .deleteRouteTable (some "rtb-1"),
         .describeNetworkAcls (some "acl-1"),
         .deleteNetworkAclEntry 1 false (some "acl-1"),
         .deleteNetworkAclEntry 100 false (some "acl-1"),
         .deleteNetworkAcl (some "acl-1"),
         .deleteVpc (some "vpc-1")] :=
  ⟨(remove_issues_fixed_sequence sampleProvider 3 sampleInput provisionedState
      (fun _ => rfl) sampleProvider_settles).1,
    (remove_issues_fixed_sequence sampleProvider 3 sampleInput provisionedState
      (fun _ => rfl) sampleProvider_settles).2.2.trans (by decide)⟩

/-! ## Routes without a destination -/

theorem mem_events_bind_left {α β : Type} {x : Outcome α} (f : α → Outcome β) {e : Event}
    (h : e ∈ x.events) : e ∈ (Outcome.bind x f).events := by
  unfold Outcome.bind
  cases x.result with
  | ok a => exact List.mem_append_left _ h
  | rejected _ => exact h
  | pending => exact h

theorem routesToDelete_forall (routeTable : RouteTable) (routes : List Route) :
    ∀ c ∈ routesToDelete routeTable routes, ∃ params, c = .deleteRoute params := by
  intro c hc
  simp only [routesToDelete, List.mem_map] at hc
  obtain ⟨_, _, rfl⟩ := hc
  exact ⟨_, rfl⟩

theorem deleteRoute_none_mem (routeTable : RouteTable) (routes : List Route) (route : Route)
    (hmem : route ∈ routes) (hgateway : route.lookup "GatewayId" ≠ some "local")
    (hdest : ∀ kv ∈ route, kv.1 ≠ "DestinationCidrBlock" ∧ kv.1 ≠ "DestinationIpv6CidrBlock") :
    Call.deleteRoute none ∈ routesToDelete routeTable routes := by
  have hparams : routeParamsOf routeTable route = [] := by
    unfold routeParamsOf
    rw [List.map_eq_nil_iff]
    apply filter_eq_nil_of_forall
    intro kv hkv
    obtain ⟨h1, h2⟩ := hdest kv hkv
    simp [h1, h2]
  simp only [routesToDelete, List.mem_map, List.mem_filter]
  refine ⟨routeParamsOf routeTable route, ⟨route, ⟨hmem, ?_⟩, rfl⟩, by rw [hparams]; rfl⟩
  simpa using hgateway

/-- C9: the route-table step of `remove` (lines 345-371) issues a `deleteRoute` call without
any parameter for a route of the described table whose gateway is not `local` and which has
neither a `DestinationCidrBlock` nor a `DestinationIpv6CidrBlock`: the parameter list built
for the route is empty and `routeParams.shift()` is `undefined`. When the provider rejects
that call, the step is rejected with a failed route deletion and `deleteRouteTable` is never
called. -/
theorem removeRouteTable_deletes_route_without_parameters (p : Provider) (state : State)
    (routeTable : RouteTable) (rest : List RouteTable) (routes : List Route) (route : Route)
    (hkey : truthy state.RouteTableId = true)
    (hdescribe : p.fails (.describeRouteTables state.RouteTableId) = false)
    (hdesc : p.describeRouteTables = some (routeTable :: rest))
    (hroutes : routeTable.Routes = some routes) (hmem : route ∈ routes)
    (hgateway : route.lookup "GatewayId" ≠ some "local")
    (hdest : ∀ kv ∈ route, kv.1 ≠ "DestinationCidrBlock" ∧ kv.1 ≠ "DestinationIpv6CidrBlock") :
    Call.deleteRoute none ∈ callsOf (removeRouteTable p state).events ∧
    (p.fails (.deleteRoute none) = true →
      (∃ c, c.isRouteDeletion = true ∧ p.fails c = true ∧
        (removeRouteTable p state).result = .rejected (.provider c)) ∧
      Call.deleteRouteTable state.RouteTableId ∉ callsOf (removeRouteTable p state).events) := by
  have hin := deleteRoute_none_mem routeTable routes route hmem hgateway hdest
  obtain ⟨r, rs, rfl⟩ : ∃ r rs, routes = r :: rs := by
    cases routes with
    | nil => cases hmem
    | cons r rs => exact ⟨r, rs, rfl⟩
  have hstep : removeRouteTable p state =
      Outcome.bind ⟨[.call (.describeRouteTables state.RouteTableId)], .ok ()⟩ fun _ =>
      Outcome.bind (p.callAll (routesToDelete routeTable (r :: rs))) fun _ =>
      Outcome.bind (p.call (.deleteRouteTable state.RouteTableId)) fun _ =>
      Outcome.bind (log "RouteTable: deleted") fun _ => pure state := by
    unfold removeRouteTable
    simp only [hkey, if_true, bind_eq, Provider.call, hdescribe, hdesc, hroutes]
    rfl
  refine ⟨?_, fun hfail => ?_⟩
  · rw [hstep, bind_ok, callsOf_append]
    apply List.mem_append_right
    apply mem_callsOf.2
    apply mem_events_bind_left
    simp only [Provider.callAll, List.mem_map]
    exact ⟨_, hin, rfl⟩
  obtain ⟨c, hc⟩ : ∃ c, (routesToDelete routeTable (r :: rs)).find? p.fails = some c := by
    cases h : (routesToDelete routeTable (r :: rs)).find? p.fails with
    | some c => exact ⟨c, rfl⟩
    | none =>
      have := List.find?_eq_none.1 h _ hin
      rw [hfail] at this
      exact absurd rfl this
  have hcfail : p.fails c = true := List.find?_some hc
  obtain ⟨params, rfl⟩ :=
    routesToDelete_forall routeTable (r :: rs) c (List.mem_of_find?_eq_some hc)
  have heq : removeRouteTable p state =
      ⟨.call (.describeRouteTables state.RouteTableId) ::
        (routesToDelete routeTable (r :: rs)).map Event.call,
        .rejected (.provider (.deleteRoute params))⟩ := by
    rw [hstep, bind_ok]
    simp only [Provider.callAll, hc, List.singleton_append, bind_rejected]
  refine ⟨⟨.deleteRoute params, rfl, hcfail, by rw [heq]⟩, ?_⟩
  rw [heq]
  simp only [callsOf_cons_call, callsOf_map_call, List.mem_cons, not_or]
  refine ⟨by simp, fun h => ?_⟩
  obtain ⟨params', h'⟩ := routesToDelete_forall routeTable (r :: rs) _ h
  cases h'

/-- C9 on a table with a route to a gateway endpoint whose destination is a prefix list:
the step issues `deleteRoute` without parameters; with a provider that rejects that call,
`remove` is rejected, the route table, the ACL and the VPC are never deleted, and the state
saved last still holds their ids. -/
theorem removeRouteTable_deletes_route_without_parameters_witness :
    Call.deleteRoute none ∈ callsOf (removeRouteTable validatingProvider provisionedState).events ∧
    (remove validatingProvider 3 sampleInput provisionedState).result
      = .rejected (.provider (.deleteRoute none)) ∧
    (callsOf (remove validatingProvider 3 sampleInput provisionedState).events).filter
        (fun c => c.deletes.isSome)
      = [.disassociateRouteTable (some "rtbassoc-1"), .deleteSubnet (some "subnet-1"),
         .deleteSecurityGroup (some "sg-1"), .deleteInternetGateway (some "igw-1")] ∧
    ((savedStates (remove validatingProvider 3 sampleInput provisionedState).events).getLast?.map
        fun s => (s.RouteTableId, s.NetworkAclId, s.VpcId))
      = some (some "rtb-1", some "acl-1", some "vpc-1") :=
  ⟨(removeRouteTable_deletes_route_without_parameters validatingProvider provisionedState
      ⟨some "rtb-1", some [
        [("DestinationCidrBlock", "10.0.0.0/16"), ("GatewayId", "local")],
        [("DestinationPrefixListId", "pl-1"), ("GatewayId", "vpce-1")]]⟩ []
      [[("DestinationCidrBlock", "10.0.0.0/16"), ("GatewayId", "local")],
        [("DestinationPrefixListId", "pl-1"), ("GatewayId", "vpce-1")]]
      [("DestinationPrefixListId", "pl-1"), ("GatewayId", "vpce-1")]
      rfl rfl rfl rfl (by decide) (by decide) (by decide)).1,
    by decide, by decide, by decide⟩

/-! ## Failure after a provisioning step -/

theorem bind_assoc {α β γ : Type} (x : Outcome α) (f : α → Outcome β) (g : β → Outcome γ) :
    Outcome.bind (Outcome.bind x f) g = Outcome.bind x fun a => Outcome.bind (f a) g := by
  obtain ⟨es, r⟩ := x
  cases r with
  | ok a =>
    simp only [bind_ok]
    generalize f a = y
    obtain ⟨es', r'⟩ := y
    cases r' with
    | ok b => simp only [bind_ok, List.append_assoc]
    | rejected _ => rfl
    | pending => rfl
  | rejected _ => rfl
  | pending => rfl

theorem lastSaved_append (cur : State) (xs ys : List Event) :
    lastSaved cur (xs ++ ys) = lastSaved (lastSaved cur xs) ys := by
  unfold lastSaved
  rw [savedStates_append, List.getLast?_append]
  cases (savedStates ys).getLast? <;> rfl

theorem lastSaved_of_nil (cur : State) (events : List Event) (h : savedStates events = []) :
    lastSaved cur events = cur := by
  unfold lastSaved
  rw [h]
  rfl

theorem ensureNetwork_eq_runSteps (p : Provider) (input : Instance) (s : State)
    (hnone : input.awsVpcConfiguration = none) :
    ensureNetwork p input s =
      Outcome.bind (runSteps (networkSteps p input) s) fun state =>
        pure ([state.SecurityGroupId], [state.SubnetId], state) := by
  unfold ensureNetwork
  rw [hnone]
  simp only [networkSteps, runSteps, bind_eq, bind_assoc]
  rfl

theorem ensureVpc_runs (p : Provider) (k : Nat)
    (hsucc : ∀ c r, c.provisions = some r → r.step ≤ k → p.fails c = false)
    (hids : ∀ r, r.step ≤ k → truthy (p.created r) = true)
    (hfail : ∀ c, c.opens = some (k + 1) → p.fails c = true) :
    StepRuns k .vpc (ensureVpc p) := by
  refine ⟨fun hle s => ?_, fun heq s hkey => ?_⟩
  · by_cases h : truthy s.VpcId = true
    · rw [ensureVpc_skip p s h]
      exact ⟨s, rfl, h, fun _ _ => rfl, rfl⟩
    · rw [ensureVpc_created p s (by simpa using h) (hsucc _ .vpc rfl hle) (hids .vpc hle)]
      exact ⟨_, rfl, hids .vpc hle,
        fun r' hr' => by cases r' <;> first | rfl | exact absurd rfl hr', rfl⟩
  · have hc : Call.opens (.createVpc "10.0.0.0/16") = some (k + 1) := by rw [← heq]; rfl
    rw [ensureVpc_failed p s hkey (hfail _ hc)]
    exact ⟨_, hc, rfl, rfl⟩

theorem ensureInternetGateway_runs (p : Provider) (k : Nat)
    (hsucc : ∀ c r, c.provisions = some r → r.step ≤ k → p.fails c = false)
    (hids : ∀ r, r.step ≤ k → truthy (p.created r) = true)
    (hfail : ∀ c, c.opens = some (k + 1) → p.fails c = true) :
    StepRuns k .gateway (ensureInternetGateway p) := by
  refine ⟨fun hle s => ?_, fun heq s hkey => ?_⟩
  · by_cases h : truthy s.InternetGatewayId = true
    · rw [ensureInternetGateway_skip p s h]
      exact ⟨s, rfl, h, fun _ _ => rfl, rfl⟩
    · rw [ensureInternetGateway_created p s (by simpa using h) (hsucc _ .gateway rfl hle)
        (hsucc _ .gateway rfl hle) (hids .gateway hle)]
      exact ⟨_, rfl, hids .gateway hle,
        fun r' hr' => by cases r' <;> first | rfl | exact absurd rfl hr', rfl⟩
  · have hc : Call.opens .createInternetGateway = some (k + 1) := by rw [← heq]; rfl
    rw [ensureInternetGateway_failed p s hkey (hfail _ hc)]
    exact ⟨_, hc, rfl, rfl⟩

theorem ensureSecurityGroup_runs (p : Provider) (input : Instance) (k : Nat)
    (hsucc : ∀ c r, c.provisions = some r → r.step ≤ k → p.fails c = false)
    (hids : ∀ r, r.step ≤ k → truthy (p.created r) = true)
    (hfail : ∀ c, c.opens = some (k + 1) → p.fails c = true) :
    StepRuns k .securityGroup (ensureSecurityGroup p input) := by
  refine ⟨fun hle s => ?_, fun heq s hkey => ?_⟩
  · by_cases h : truthy s.SecurityGroupId = true
    · rw [ensureSecurityGroup_skip p input s h]
      exact ⟨s, rfl, h, fun _ _ => rfl, rfl⟩
    · rw [ensureSecurityGroup_created p input s (by simpa using h)
        (hsucc _ .securityGroup rfl hle) (hsucc _ .securityGroup rfl hle)
        (hsucc _ .securityGroup rfl hle) (hids .securityGroup hle)]
      exact ⟨_, rfl, hids .securityGroup hle,
        fun r' hr' => by cases r' <;> first | rfl | exact absurd rfl hr', rfl⟩
  · have hc : Call.opens (.createSecurityGroup (input.serviceName ++ " security group")
        (input.serviceName ++ "-security-group") s.VpcId) = some (k + 1) := by
      rw [← heq]; rfl
    rw [ensureSecurityGroup_failed p input s hkey (hfail _ hc)]
    exact ⟨_, hc, rfl, rfl⟩

theorem ensureNetworkAcl_runs (p : Provider) (k : Nat)
    (hsucc : ∀ c r, c.provisions = some r → r.step ≤ k → p.fails c = false)
    (hids : ∀ r, r.step ≤ k → truthy (p.created r) = true)
    (hfail : ∀ c, c.opens = some (k + 1) → p.fails c = true) :
    StepRuns k .acl (ensureNetworkAcl p) := by
  refine ⟨fun hle s => ?_, fun heq s hkey => ?_⟩
  · by_cases h : truthy s.NetworkAclId = true
    · rw [ensureNetworkAcl_skip p s h]
      exact ⟨s, rfl, h, fun _ _ => rfl, rfl⟩
    · rw [ensureNetworkAcl_created p s (by simpa using h) (hsucc _ .acl rfl hle)
        (hids .acl hle)]
      exact ⟨_, rfl, hids .acl hle,
        fun r' hr' => by cases r' <;> first | rfl | exact absurd rfl hr', rfl⟩
  · have hc : Call.opens (.createNetworkAcl s.VpcId) = some (k + 1) := by rw [← heq]; rfl
    rw [ensureNetworkAcl_failed p s hkey (hfail _ hc)]
    exact ⟨_, hc, rfl, rfl⟩

theorem ensureRouteTable_runs (p : Provider) (k : Nat)
    (hsucc : ∀ c r, c.provisions = some r → r.step ≤ k → p.fails c = false)
    (hids : ∀ r, r.step ≤ k → truthy (p.created r) = true)
    (hfail : ∀ c, c.opens = some (k + 1) → p.fails c = true) :
    StepRuns k .routeTable (ensureRouteTable p) := by
  refine ⟨fun hle s => ?_, fun heq s hkey => ?_⟩
  · by_cases h : truthy s.RouteTableId = true
    · rw [ensureRouteTable_skip p s h]
      exact ⟨s, rfl, h, fun _ _ => rfl, rfl⟩
    · rw [ensureRouteTable_created p s (by simpa using h) (hsucc _ .routeTable rfl hle)
        (hsucc _ .routeTable rfl hle) (hsucc _ .routeTable rfl hle) (hids .routeTable hle)]
      exact ⟨_, rfl, hids .routeTable hle,
        fun r' hr' => by cases r' <;> first | rfl | exact absurd rfl hr', rfl⟩
  · have hc : Call.opens (.createRouteTable s.VpcId) = some (k + 1) := by rw [← heq]; rfl
    rw [ensureRouteTable_failed p s hkey (hfail _ hc)]
    exact ⟨_, hc, rfl, rfl⟩

theorem ensureSubnet_runs (p : Provider) (k : Nat)
    (hsucc : ∀ c r, c.provisions = some r → r.step ≤ k → p.fails c = false)
    (hids : ∀ r, r.step ≤ k → truthy (p.created r) = true)
    (hfail : ∀ c, c.opens = some (k + 1) → p.fails c = true) :
    StepRuns k .subnet (ensureSubnet p) := by
  refine ⟨fun hle s => ?_, fun heq s hkey => ?_⟩
  · by_cases h : truthy s.SubnetId = true
    · rw [ensureSubnet_skip p s h]
      exact ⟨s, rfl, h, fun _ _ => rfl, rfl⟩
    · rw [ensureSubnet_created p s (by simpa using h) (hsucc _ .subnet rfl hle)
        (hids .subnet hle)]
      exact ⟨_, rfl, hids .subnet hle,
        fun r' hr' => by cases r' <;> first | rfl | exact absurd rfl hr', rfl⟩
  · have hc : Call.opens (.createSubnet "10.0.0.0/16" s.VpcId) = some (k + 1) := by
      rw [← heq]; rfl
    rw [ensureSubnet_failed p s hkey (hfail _ hc)]
    exact ⟨_, hc, rfl, rfl⟩

theorem ensureRouteTableAssociation_runs (p : Provider) (k : Nat)
    (hsucc : ∀ c r, c.provisions = some r → r.step ≤ k → p.fails c = false)
    (hids : ∀ r, r.step ≤ k → truthy (p.created r) = true)
    (hfail : ∀ c, c.opens = some (k + 1) → p.fails c = true) :
    StepRuns k .association (ensureRouteTableAssociation p) := by
  refine ⟨fun hle s => ?_, fun heq s hkey => ?_⟩
  · by_cases h : truthy s.RouteTableAssociationId = true
    · rw [ensureRouteTableAssociation_skip p s h]
      exact ⟨s, rfl, h, fun _ _ => rfl, rfl⟩
    · rw [ensureRouteTableAssociation_created p s (by simpa using h)
        (hsucc _ .association rfl hle) (hids .association hle)]
      exact ⟨_, rfl, hids .association hle,
        fun r' hr' => by cases r' <;> first | rfl | exact absurd rfl hr', rfl⟩
  · have hc : Call.opens (.associateRouteTable s.RouteTableId s.SubnetId) = some (k + 1) := by
      rw [← heq]; rfl
    rw [ensureRouteTableAssociation_failed p s hkey (hfail _ hc)]
    exact ⟨_, hc, rfl, rfl⟩

theorem networkSteps_run (p : Provider) (input : Instance) (k : Nat)
    (hsucc : ∀ c r, c.provisions = some r → r.step ≤ k → p.fails c = false)
    (hids : ∀ r, r.step ≤ k → truthy (p.created r) = true)
    (hfail : ∀ c, c.opens = some (k + 1) → p.fails c = true) :
    ∀ x ∈ networkSteps p input, StepRuns k x.1 x.2 := by
  intro x hx
  simp only [networkSteps, List.mem_cons, List.mem_singleton, List.not_mem_nil, or_false] at hx
  rcases hx with rfl | rfl | rfl | rfl | rfl | rfl | rfl
  · exact ensureVpc_runs p k hsucc hids hfail
  · exact ensureInternetGateway_runs p k hsucc hids hfail
  · exact ensureSecurityGroup_runs p input k hsucc hids hfail
  · exact ensureNetworkAcl_runs p k hsucc hids hfail
  · exact ensureRouteTable_runs p k hsucc hids hfail
  · exact ensureSubnet_runs p k hsucc hids hfail
  · exact ensureRouteTableAssociation_runs p k hsucc hids hfail

/-- Steps that all succeed: the run resolves with the state saved last, in which the keys
of the steps are populated and the other keys are as at the start. -/
theorem runSteps_ok (k : Nat) :
    ∀ (steps : List (Role × (State → Outcome State))) (s : State),
      (∀ x ∈ steps, StepRuns k x.1 x.2) → (∀ x ∈ steps, x.1.step ≤ k) →
      steps.Pairwise (fun a b => a.1.step < b.1.step) →
      ∃ s', (runSteps steps s).result = .ok s' ∧
        lastSaved s (runSteps steps s).events = s' ∧
        (∀ x ∈ steps, truthy (s'.key x.1) = true) ∧
        (∀ r, (∀ x ∈ steps, x.1 ≠ r) → s'.key r = s.key r) := by
  intro steps
  induction steps with
  | nil =>
    intro s _ _ _
    exact ⟨s, rfl, rfl, fun x hx => (by cases hx), fun _ _ => rfl⟩
  | cons x steps ih =>
    intro s hruns hle hsorted
    obtain ⟨s1, h1, hk1, hother1, hsaved1⟩ :=
      (hruns x (List.mem_cons_self _ _)).1 (hle x (List.mem_cons_self _ _)) s
    obtain ⟨s', h2, hsaved2, hk2, hother2⟩ := ih s1
      (fun y hy => hruns y (List.mem_cons_of_mem _ hy))
      (fun y hy => hle y (List.mem_cons_of_mem _ hy)) (List.Pairwise.of_cons hsorted)
    have hne : ∀ y ∈ steps, y.1 ≠ x.1 := by
      intro y hy h
      have := List.rel_of_pairwise_cons hsorted hy
      rw [h] at this
      exact absurd this (Nat.lt_irrefl _)
    refine ⟨s', ?_, ?_, ?_, ?_⟩
    · rw [runSteps, bind_of_ok h1]
      exact h2
    · rw [runSteps, bind_of_ok h1, lastSaved_append, hsaved1]
      exact hsaved2
    · intro y hy
      rcases List.mem_cons.1 hy with rfl | hy
      · rw [hother2 _ hne]
        exact hk1
      · exact hk2 y hy
    · intro r hr
      rw [hother2 r (fun y hy => hr y (List.mem_cons_of_mem _ hy))]
      exact hother1 r (fun h => hr x (List.mem_cons_self _ _) h.symm)

/-- Steps of which the one numbered `k + 1` fails: the run is rejected there, and the state
saved last has the keys of the steps before it populated and the other keys as at the
start. -/
theorem runSteps_fails (k : Nat) :
    ∀ (steps : List (Role × (State → Outcome State))) (s : State),
      (∀ x ∈ steps, StepRuns k x.1 x.2) →
      steps.Pairwise (fun a b => a.1.step < b.1.step) →
      (∃ x ∈ steps, x.1.step = k + 1) →
      (∀ r, r.step = k + 1 → truthy (s.key r) = false) →
      ∃ s' c, c.opens = some (k + 1) ∧
        (runSteps steps s).result = .rejected (.provider c) ∧
        lastSaved s (runSteps steps s).events = s' ∧
        (∀ x ∈ steps, x.1.step ≤ k → truthy (s'.key x.1) = true) ∧
        (∀ r, (∀ x ∈ steps, x.1.step ≤ k → x.1 ≠ r) → s'.key r = s.key r) := by
  intro steps
  induction steps with
  | nil =>
    intro s _ _ hex _
    obtain ⟨x, hx, -⟩ := hex
    cases hx
  | cons x steps ih =>
    intro s hruns hsorted hex hnext
    have hlater : ∀ y ∈ steps, x.1.step < y.1.step :=
      fun y hy => List.rel_of_pairwise_cons hsorted hy
    by_cases hx : x.1.step = k + 1
    · obtain ⟨c, hc, hrej, hsaved⟩ :=
        (hruns x (List.mem_cons_self _ _)).2 hx s (hnext _ hx)
      have hrun : runSteps (x :: steps) s = ⟨(x.2 s).events, .rejected (.provider c)⟩ := by
        rw [runSteps]
        unfold Outcome.bind
        rw [hrej]
      refine ⟨s, c, hc, by rw [hrun], by rw [hrun]; exact lastSaved_of_nil s _ hsaved, ?_,
        fun _ _ => rfl⟩
      intro y hy hyk
      rcases List.mem_cons.1 hy with rfl | hy
      · omega
      · have := hlater y hy
        omega
    · obtain ⟨y, hy, hyk⟩ := hex
      have hy' : y ∈ steps := by
        rcases List.mem_cons.1 hy with rfl | hy
        · exact absurd hyk hx
        · exact hy
      have hxk : x.1.step ≤ k := by
        have := hlater y hy'
        omega
      obtain ⟨s1, h1, hk1, hother1, hsaved1⟩ := (hruns x (List.mem_cons_self _ _)).1 hxk s
      obtain ⟨s', c, hc, hrej, hsaved2, hk2, hother2⟩ := ih s1
        (fun z hz => hruns z (List.mem_cons_of_mem _ hz)) (List.Pairwise.of_cons hsorted)
        ⟨y, hy', hyk⟩
        (fun r hr => by
          rw [hother1 r (fun h => hx (by rw [← h]; exact hr))]
          exact hnext r hr)
      refine ⟨s', c, hc, ?_, ?_, ?_, ?_⟩
      · rw [runSteps, bind_of_ok h1]
        exact hrej
      · rw [runSteps, bind_of_ok h1, lastSaved_append, hsaved1]
        exact hsaved2
      · intro z hz hzk
        rcases List.mem_cons.1 hz with rfl | hz
        · rw [hother2 _ (fun w hw _ h => by
            have := hlater w hw
            rw [h] at this
            exact absurd this (Nat.lt_irrefl _))]
          exact hk1
        · exact hk2 z hz hzk
      · intro r hr
        rw [hother2 r (fun w hw hwk => hr w (List.mem_cons_of_mem _ hw) hwk)]
        exact hother1 r (fun h => hr x (List.mem_cons_self _ _) hxk h.symm)

theorem networkSteps_sorted (p : Provider) (input : Instance) :
    (networkSteps p input).Pairwise (fun a b => a.1.step < b.1.step) := by
  simp [networkSteps, Role.step]

theorem networkSteps_role (p : Provider) (input : Instance) (r : Role) :
    ∃ x ∈ networkSteps p input, x.1 = r := by
  cases r <;> simp [networkSteps]

theorem Role.step_le (r : Role) : 1 ≤ r.step ∧ r.step ≤ 7 := by
  cases r <;> simp [Role.step]

theorem deployService_failed (p : Provider) (fuel : Nat) (input : Instance)
    (securityGroups subnets : List (Option String)) (s : State)
    (hcall : p.fails (.serviceDeploy input.serviceName
      (input.td.family ++ ":" ++ input.td.revision) input.desiredCount
      (if input.exposePublicly then "ENABLED" else "DISABLED") securityGroups subnets) = true) :
    deployService p fuel input securityGroups subnets s =
      ⟨[.call (.serviceDeploy input.serviceName
          (input.td.family ++ ":" ++ input.td.revision) input.desiredCount
          (if input.exposePublicly then "ENABLED" else "DISABLED") securityGroups subnets)],
        .rejected (.provider (.serviceDeploy input.serviceName
          (input.td.family ++ ":" ++ input.td.revision) input.desiredCount
          (if input.exposePublicly then "ENABLED" else "DISABLED") securityGroups subnets))⟩ := by
  unfold deployService
  simp only [bind_eq, Provider.call, hcall, if_true, bind_rejected]

/-- A `deploy` whose steps `1..k` succeed and whose step `k + 1` fails at its opening call
(for `k = 7`, the service deployment): it is rejected with that call, and the state it saved
last has the keys of the steps `1..k` populated and the other network keys as at the
start. -/
theorem deploy_fails_at (p : Provider) (fuel : Nat) (input : Instance) (s : State) (k : Nat)
    (hnone : input.awsVpcConfiguration = none) (hk : k ≤ 7)
    (hnext : ∀ r, r.step = k + 1 → truthy (s.key r) = false)
    (hsucc : ∀ c r, c.provisions = some r → r.step ≤ k → p.fails c = false)
    (hids : ∀ r, r.step ≤ k → truthy (p.created r) = true)
    (hfail : ∀ c, c.opens = some (k + 1) → p.fails c = true) :
    ∃ s₁ c, c.opens = some (k + 1) ∧
      (deploy p fuel input s).result = .rejected (.provider c) ∧
      (savedStates (deploy p fuel input s).events).getLast? = some s₁ ∧
      (∀ r, r.step ≤ k → truthy (s₁.key r) = true) ∧
      (∀ r, k < r.step → s₁.key r = s.key r) := by
  have hruns := networkSteps_run p input k hsucc hids hfail
  have hlast : ∀ (es : List Event),
      (savedStates (.saveState { s with taskDefinition := some input.td } :: es)).getLast?
        = some (lastSaved { s with taskDefinition := some input.td } es) := by
    intro es
    have : savedStates (.saveState { s with taskDefinition := some input.td } :: es)
        = [{ s with taskDefinition := some input.td }] ++ savedStates es := rfl
    rw [this, List.getLast?_append]
    unfold lastSaved
    cases (savedStates es).getLast? <;> rfl
  by_cases hk7 : k = 7
  · subst hk7
    obtain ⟨s7, hres, hsaved, hkeys, -⟩ := runSteps_ok 7 (networkSteps p input)
      { s with taskDefinition := some input.td } hruns
      (fun x _ => (Role.step_le x.1).2) (networkSteps_sorted p input)
    have hcall := hfail (.serviceDeploy input.serviceName
      (input.td.family ++ ":" ++ input.td.revision) input.desiredCount
      (if input.exposePublicly then "ENABLED" else "DISABLED")
      [s7.SecurityGroupId] [s7.SubnetId]) rfl
    have hnet : (ensureNetwork p input { s with taskDefinition := some input.td }).result
        = .ok ([s7.SecurityGroupId], [s7.SubnetId], s7) := by
      rw [ensureNetwork_eq_runSteps p input _ hnone, bind_of_ok hres]
      rfl
    have hev : (ensureNetwork p input { s with taskDefinition := some input.td }).events
        = (runSteps (networkSteps p input) { s with taskDefinition := some input.td }).events := by
      rw [ensureNetwork_eq_runSteps p input _ hnone, bind_of_ok hres]
      simp
    refine ⟨s7, .serviceDeploy input.serviceName
      (input.td.family ++ ":" ++ input.td.revision) input.desiredCount
      (if input.exposePublicly then "ENABLED" else "DISABLED")
      [s7.SecurityGroupId] [s7.SubnetId], rfl, ?_, ?_, ?_, ?_⟩
    · rw [deploy_eq, saveState, emit, bind_ok, bind_of_ok hnet,
        deployService_failed p fuel input _ _ _ hcall]
    · rw [deploy_eq, saveState, emit, bind_ok, bind_of_ok hnet,
        deployService_failed p fuel input _ _ _ hcall, hev]
      simp only [List.singleton_append]
      rw [hlast, lastSaved_append, hsaved]
      rfl
    · intro r _
      obtain ⟨x, hx, rfl⟩ := networkSteps_role p input r
      exact hkeys x hx
    · intro r hr
      have := (Role.step_le r).2
      omega
  · have hex : ∃ x ∈ networkSteps p input, x.1.step = k + 1 := by
      have hk6 : k ≤ 6 := by omega
      clear hruns hnext hsucc hids hfail hlast
      interval_cases k <;> simp [networkSteps, Role.step]
    obtain ⟨s₁, c, hc, hrej, hsaved, hkeys, hother⟩ := runSteps_fails k (networkSteps p input)
      { s with taskDefinition := some input.td } hruns (networkSteps_sorted p input) hex
      (fun r hr => by rw [key_taskDefinition]; exact hnext r hr)
    have hnet : ensureNetwork p input { s with taskDefinition := some input.td }
        = ⟨(runSteps (networkSteps p input) { s with taskDefinition := some input.td }).events,
            .rejected (.provider c)⟩ := by
      rw [ensureNetwork_eq_runSteps p input _ hnone]
      unfold Outcome.bind
      rw [hrej]
    refine ⟨s₁, c, hc, ?_, ?_, ?_, ?_⟩
    · rw [deploy_eq, saveState, emit, bind_ok, hnet]
      rfl
    · rw [deploy_eq, saveState, emit, bind_ok, hnet]
      simp only [bind_rejected, List.singleton_append]
      rw [hlast, hsaved]
    · intro r hr
      obtain ⟨x, hx, rfl⟩ := networkSteps_role p input r
      exact hkeys x hx hr
    · intro r hr
      rw [hother r (fun x _ hxk h => by rw [h] at hxk; omega), key_taskDefinition]

/-- C6 (as amended): let a `deploy` without explicit network configuration fail right after
provisioning step `k` (`0 ≤ k ≤ 7`): the calls of steps `1..k` succeed with non-empty
identifiers, the key of step `k + 1` is not populated at the start and the call that opens
step `k + 1` (for `k = 7`, the service deployment) fails. Then `deploy` is rejected with
that call, the state it saved last has the keys of steps `1..k` populated and the keys of
steps `k + 1..7` as they were at the start, a retried `deploy` from that state on which every
call succeeds creates exactly the roles of the steps `k + 1..7` whose key was not populated
at the start, in order, and no retry, whatever the provider does, issues a provisioning
call of steps `1..k` or of a step whose key was populated at the start. When the first
`deploy` started with no network key, the keys populated in the saved state are exactly
those of steps `1..k` and the retry creates exactly the roles of steps `k + 1..7`. -/
theorem retry_creates_only_remaining_steps (p₁ p₂ : Provider) (fuel₁ fuel₂ : Nat)
    (input : Instance) (s₀ : State) (k : Nat)
    (hnone : input.awsVpcConfiguration = none) (hk : k ≤ 7)
    (hnext : ∀ r, r.step = k + 1 → truthy (s₀.key r) = false)
    (hsucc : ∀ c r, c.provisions = some r → r.step ≤ k → p₁.fails c = false)
    (hids : ∀ r, r.step ≤ k → truthy (p₁.created r) = true)
    (hfail : ∀ c, c.opens = some (k + 1) → p₁.fails c = true)
    (hok₂ : ∀ c, p₂.fails c = false) (hids₂ : ∀ r, truthy (p₂.created r) = true) :
    ∃ s₁,
      (∃ c, c.opens = some (k + 1) ∧
        (deploy p₁ fuel₁ input s₀).result = .rejected (.provider c)) ∧
      (savedStates (deploy p₁ fuel₁ input s₀).events).getLast? = some s₁ ∧
      (∀ r, r.step ≤ k → truthy (s₁.key r) = true) ∧
      (∀ r, k < r.step → s₁.key r = s₀.key r) ∧
      createdRoles (deploy p₂ fuel₂ input s₁).events
        = Role.all.filter (fun r => decide (k < r.step) && !truthy (s₀.key r)) ∧
      (∀ (p₃ : Provider) (fuel₃ : Nat), ∀ c ∈ callsOf (deploy p₃ fuel₃ input s₁).events,
        ∀ r, c.provisions = some r → k < r.step ∧ truthy (s₀.key r) = false) ∧
      ((∀ r, truthy (s₀.key r) = false) →
        (∀ r, truthy (s₁.key r) = decide (r.step ≤ k)) ∧
        createdRoles (deploy p₂ fuel₂ input s₁).events
          = Role.all.filter (fun r => decide (k < r.step))) := by
  obtain ⟨s₁, c, hc, hrej, hlast, hkeys, hother⟩ :=
    deploy_fails_at p₁ fuel₁ input s₀ k hnone hk hnext hsucc hids hfail
  have hcreated : createdRoles (deploy p₂ fuel₂ input s₁).events
      = Role.all.filter (fun r => decide (k < r.step) && !truthy (s₀.key r)) := by
    rw [deploy_createdRoles_ok p₂ fuel₂ input _ hnone hok₂ hids₂]
    apply List.filter_congr
    intro r _
    by_cases h : r.step ≤ k
    · simp [hkeys r h, Nat.not_lt.2 h]
    · have h' : k < r.step := Nat.lt_of_not_le h
      simp [hother r h', h']
  refine ⟨s₁, ⟨c, hc, hrej⟩, hlast, hkeys, hother, hcreated, ?_, ?_⟩
  · intro p₃ fuel₃ c' hc' r hr
    have hgate := deploy_gated p₃ fuel₃ input _ _ (mem_callsOf.1 hc') c' r rfl hr
    by_cases h : r.step ≤ k
    · rw [hkeys r h] at hgate
      cases hgate
    · have h' : k < r.step := Nat.lt_of_not_le h
      rw [hother r h'] at hgate
      exact ⟨h', hgate⟩
  · intro hfresh
    refine ⟨fun r => ?_, ?_⟩
    · by_cases h : r.step ≤ k
      · simp [hkeys r h, h]
      · rw [hother r (Nat.lt_of_not_le h), hfresh r]
        simp [h]
    · rw [hcreated]
      apply List.filter_congr
      intro r _
      simp [hfresh r]

/-- C6 on two runs. A first `deploy` from the empty state whose ACL creation fails (right
after step 3): the retry creates the ACL, the route table, the subnet and the association.
A `deploy` from the state a failed `remove` left, with the VPC, the ACL and the route table
recorded, whose gateway creation fails (right after step 1): the retry creates the gateway,
the security group, the subnet and the association, and neither the ACL nor the route
table. -/
theorem retry_creates_only_remaining_steps_witness :
    (∃ s₁,
      (savedStates (deploy (failingAt 4) 3 sampleInput {}).events).getLast? = some s₁ ∧
      (∀ r, truthy (s₁.key r) = decide (r.step ≤ 3)) ∧
      createdRoles (deploy sampleProvider 3 sampleInput s₁).events
        = [.acl, .routeTable, .subnet, .association]) ∧
    (∃ s₁,
      (savedStates (deploy (failingAt 2) 3 sampleInput strandedState).events).getLast?
        = some s₁ ∧
      createdRoles (deploy sampleProvider 3 sampleInput s₁).events
        = [.gateway, .securityGroup, .subnet, .association]) := by
  constructor
  · obtain ⟨s₁, -, hlast, -, -, -, -, hfresh⟩ :=
      retry_creates_only_remaining_steps (failingAt 4) sampleProvider 3 3 sampleInput {} 3
        rfl (by decide) (fun r _ => by cases r <;> rfl)
        (fun c r h₁ h₂ => by
          cases c <;> cases r <;> first | (exact absurd h₂ (by decide)) | rfl | cases h₁)
        (fun r _ => by cases r <;> rfl)
        (fun c h => by simp [failingAt, h])
        (fun _ => rfl) (fun r => by cases r <;> rfl)
    obtain ⟨hkeys, hcreated⟩ := hfresh (fun r => by cases r <;> rfl)
    exact ⟨s₁, hlast, hkeys, hcreated.trans (by decide)⟩
  · obtain ⟨s₁, -, hlast, -, -, hcreated, -, -⟩ :=
      retry_creates_only_remaining_steps (failingAt 2) sampleProvider 3 3 sampleInput
        strandedState 1 rfl (by decide) (fun r hr => by cases r <;> first | rfl | cases hr)
        (fun c r h₁ h₂ => by
          cases c <;> cases r <;> first | (exact absurd h₂ (by decide)) | rfl | cases h₁)
        (fun r _ => by cases r <;> rfl)
        (fun c h => by simp [failingAt, h])
        (fun _ => rfl) (fun r => by cases r <;> rfl)
    exact ⟨s₁, hlast, hcreated.trans (by decide)⟩

/-- C6 as stated fails: a `remove` whose `deleteNetworkAcl` call is rejected leaves a state
with the VPC, the ACL and the route table recorded; a `deploy` from that state whose
gateway creation fails, right after step 1, saves a state in which the keys of steps 4 and 5
are populated, not absent. -/
theorem failed_deploy_keeps_keys_of_later_steps :
    (savedStates (remove aclFailingProvider 3 sampleInput provisionedState).events).getLast?
      = some strandedState ∧
    (deploy (failingAt 2) 3 sampleInput strandedState).result
      = .rejected (.provider .createInternetGateway) ∧
    (savedStates (deploy (failingAt 2) 3 sampleInput strandedState).events).getLast?
      = some { strandedState with taskDefinition := some ⟨"service-family", "1"⟩ } ∧
    truthy (State.key { strandedState with taskDefinition := some ⟨"service-family", "1"⟩ }
      .acl) = true ∧
    truthy (State.key { strandedState with taskDefinition := some ⟨"service-family", "1"⟩ }
      .routeTable) = true := by
  decide

end AwsFargate

namespace AwsSnsSubscription

theorem foldl_unset (inputs : Attributes) (ks : List String) (acc : List (String × Value)) :
    ks.foldl
      (fun attributes key =>
        if !(keys inputs).contains key then attributes ++ [(key, Value.emptyObject)]
        else attributes)
      acc
    = acc ++ (ks.filter fun k => !(keys inputs).contains k).map
        fun k => (k, Value.emptyObject) := by
  induction ks generalizing acc with
  | nil => simp
  | cons k ks ih =>
    rw [List.foldl_cons, ih]
    by_cases h : k ∈ keys inputs
    · simp [List.filter_cons, h]
    · simp [List.filter_cons, h]

/-- C13: `concatSubscriptionAttributes(requested, previous)` is one entry `(k, requested[k])`
per key of `requested`, in key order, followed by one entry `(k, {})` per key of `previous`
(the empty map when absent) that is not a key of `requested`, in key order; its length is
the number of requested keys plus the number of previous keys that are not requested, and
every key of `previous` is the key of one of its entries. -/
theorem concatSubscriptionAttributes_spec (requested : Attributes)
    (previous : Option Attributes) :
    concatSubscriptionAttributes requested previous =
      (keys requested).map (fun k => (k, prop requested k)) ++
      ((keys (previous.getD [])).filter fun k => !(keys requested).contains k).map
        (fun k => (k, Value.emptyObject)) ∧
    (concatSubscriptionAttributes requested previous).length =
      (keys requested).length +
      ((keys (previous.getD [])).filter fun k => !(keys requested).contains k).length ∧
    ∀ k ∈ keys (previous.getD []),
      k ∈ (concatSubscriptionAttributes requested previous).map Prod.fst := by
  have h : concatSubscriptionAttributes requested previous =
      (keys requested).map (fun k => (k, prop requested k)) ++
      ((keys (previous.getD [])).filter fun k => !(keys requested).contains k).map
        (fun k => (k, Value.emptyObject)) := by
    unfold concatSubscriptionAttributes
    rw [foldl_unset]
    simp
  refine ⟨h, by rw [h]; simp, ?_⟩
  intro k hk
  rw [h]
  simp only [List.map_append, List.map_map, List.mem_append, List.mem_map, Function.comp,
    List.mem_filter]
  by_cases hc : k ∈ keys requested
  · exact Or.inl ⟨k, hc, rfl⟩
  · exact Or.inr ⟨k, ⟨hk, by simpa using hc⟩, rfl⟩

/-- C12: with a persisted attribute map `previous`, the provider is called for exactly
those change entries whose value differs from the persisted value of their key, in order;
in terms of the two maps, these are a set for each requested key whose value differs and an
unset for each persisted key that is not requested and not already unset. For
`previous = {a: 1, b: 2}` and `requested = {a: 1, c: 3}` the calls are "set c = 3" and
"unset b", and there is no call for `a`. The attribute named in a call is the capitalized
key, whatever upper-casing the engine does. -/
theorem setAllSubscriptionAttributes_spec (toUpperCase : String → String)
    (subscriptionArn : String) (requested previous : Attributes) :
    setAllSubscriptionAttributes toUpperCase subscriptionArn requested (some previous) =
      ((concatSubscriptionAttributes requested (some previous)).filter
        fun item => item.2 != prop previous item.1).map
        (fun item => ⟨subscriptionArn, capitalize toUpperCase item.1, item.2⟩) ∧
    setAllSubscriptionAttributes toUpperCase subscriptionArn requested (some previous) =
      expectedChanges toUpperCase subscriptionArn requested previous ∧
    setAllSubscriptionAttributes toUpperCase subscriptionArn
        [("a", .number 1), ("c", .number 3)] (some [("a", .number 1), ("b", .number 2)]) =
      [⟨subscriptionArn, toUpperCase "c", .number 3⟩,
       ⟨subscriptionArn, toUpperCase "b", .emptyObject⟩] := by
  have h1 : setAllSubscriptionAttributes toUpperCase subscriptionArn requested (some previous) =
      ((concatSubscriptionAttributes requested (some previous)).filter
        fun item => item.2 != prop previous item.1).map
        (fun item => ⟨subscriptionArn, capitalize toUpperCase item.1, item.2⟩) := by
    unfold setAllSubscriptionAttributes
    generalize concatSubscriptionAttributes requested (some previous) = l
    dsimp only
    induction l with
    | nil => rfl
    | cons a l ih =>
      by_cases h : a.2 = prop previous a.1
      · simp only [List.filterMap_cons, List.filter_cons, h, beq_self_eq_true, if_true,
          bne_self_eq_false, Bool.false_eq_true, if_false]
        exact ih
      · have h' : (a.2 == prop previous a.1) = false := by simpa using h
        have h'' : (a.2 != prop previous a.1) = true := by simpa using h
        simp only [List.filterMap_cons, List.filter_cons, h', h'', Bool.false_eq_true,
          if_false, if_true, List.map_cons]
        rw [ih]
  refine ⟨h1, ?_, ?_⟩
  · rw [h1, (concatSubscriptionAttributes_spec requested (some previous)).1]
    simp only [expectedChanges, List.filter_append, List.map_append, List.filter_map,
      List.map_map, List.filter_filter, Option.getD_some]
    congr 1
    congr 1
    apply List.filter_congr
    intro k _
    simp only [Function.comp]
    rw [Bool.and_comm]
    congr 1
    cases h : prop previous k <;> rfl
  · have hc : capitalize toUpperCase "c" = toUpperCase "c" := by
      simp [capitalize, String.singleton]
      rfl
    have hb : capitalize toUpperCase "b" = toUpperCase "b" := by
      simp [capitalize, String.singleton]
      rfl
    simp [setAllSubscriptionAttributes, concatSubscriptionAttributes, keys, prop,
      List.lookup, hc, hb]

/-- C19: `shouldDeploy` returns `'deploy'` exactly when there is no previous instance,
returns `'replace'` exactly when there is a previous instance whose protocol and topic both
differ from the current ones, and returns nothing (`undefined`) when a previous instance
exists and its protocol or its topic is the current one. -/
theorem shouldDeploy_spec (this : Subscription) (prevInstance : Option Subscription) :
    (shouldDeploy this prevInstance = some "deploy" ↔ prevInstance = none) ∧
    (shouldDeploy this prevInstance = some "replace" ↔
      ∃ prev, prevInstance = some prev ∧ prev.protocol ≠ this.protocol ∧
        prev.topic ≠ this.topic) ∧
    (∀ prev, prevInstance = some prev →
      (prev.protocol = this.protocol ∨ prev.topic = this.topic) →
      shouldDeploy this prevInstance = none) := by
  cases prevInstance with
  | none => simp [shouldDeploy, DEPLOY]
  | some prev =>
    by_cases h1 : prev.protocol = this.protocol <;> by_cases h2 : prev.topic = this.topic <;>
      simp [shouldDeploy, REPLACE, h1, h2]

end AwsSnsSubscription
